import Mathlib

/-!
Shallow embedding of the worldgen-core procedural world-generation engine
(`src/worldgen-core`).  Machine floats (`f32`, `f64`) are modelled by exact
rationals (`ℚ`); `u64` arithmetic is modelled on `ℕ` with explicit reduction
modulo `2 ^ 64`.  Library functions whose bit-level output is not defined by
the repository (BLAKE3 digests, libm's `powf` and `log10`) appear as explicit
function parameters of the definitions that call them.
-/

namespace Worldgen

/-! ## Grid2D (src/worldgen-core/src/grid.rs) -/

/-- Row-major 2D grid: `width`, `height` and a dense buffer, as in `Grid2D<T>`. -/
structure Grid (α : Type) where
  width : ℕ
  height : ℕ
  data : List α
deriving Repr, DecidableEq

namespace Grid

/-- `Grid2D::new`: a `width*height` buffer filled with one value. -/
def new (width height : ℕ) (v : α) : Grid α :=
  ⟨width, height, List.replicate (width * height) v⟩

/-- `idx(x,y) = y*W + x`. -/
def gidx (g : Grid α) (x y : ℕ) : ℕ :=
  y * g.width + x

/-- `Grid2D::get`, reading the row-major buffer. -/
def get [Inhabited α] (g : Grid α) (x y : ℕ) : α :=
  g.data.getD (g.gidx x y) default

/-- `Grid2D::get_mut` followed by assignment. -/
def set (g : Grid α) (x y : ℕ) (v : α) : Grid α :=
  ⟨g.width, g.height, g.data.set (g.gidx x y) v⟩

/-- `Grid2D::fill`: overwrite every element of the buffer. -/
def fill (g : Grid α) (v : α) : Grid α :=
  ⟨g.width, g.height, g.data.map fun _ => v⟩

/-- `Grid2D::in_bounds` on signed coordinates. -/
def inB (g : Grid α) (x y : ℤ) : Bool :=
  0 ≤ x && 0 ≤ y && x < (g.width : ℤ) && y < (g.height : ℤ)

/-- Buffer length matches the declared dimensions (holds after construction). -/
def WF (g : Grid α) : Prop :=
  g.data.length = g.width * g.height

theorem WF_new (w h : ℕ) (v : α) : (new w h v).WF := by
  simp [new, WF]

theorem WF_set (g : Grid α) (x y : ℕ) (v : α) (h : g.WF) : (g.set x y v).WF := by
  simpa [set, WF] using h

theorem WF_fill (g : Grid α) (v : α) (h : g.WF) : (g.fill v).WF := by
  simpa [fill, WF] using h

theorem width_set (g : Grid α) (x y : ℕ) (v : α) : (g.set x y v).width = g.width := rfl

theorem height_set (g : Grid α) (x y : ℕ) (v : α) : (g.set x y v).height = g.height := rfl

theorem width_fill (g : Grid α) (v : α) : (g.fill v).width = g.width := rfl

theorem height_fill (g : Grid α) (v : α) : (g.fill v).height = g.height := rfl

theorem gidx_set (g : Grid α) (x y a b : ℕ) (v : α) :
    (g.set x y v).gidx a b = g.gidx a b := rfl

/-- Indices of distinct in-bounds coordinates are distinct. -/
theorem gidx_inj (g : Grid α) {x y a b : ℕ} (hx : x < g.width) (ha : a < g.width)
    (h : g.gidx x y = g.gidx a b) : x = a ∧ y = b := by
  unfold gidx at h
  have hxm : (y * g.width + x) % g.width = x := by
    rw [Nat.add_comm, Nat.add_mul_mod_self_right, Nat.mod_eq_of_lt hx]
  have ham : (b * g.width + a) % g.width = a := by
    rw [Nat.add_comm, Nat.add_mul_mod_self_right, Nat.mod_eq_of_lt ha]
  have hxa : x = a := by rw [← hxm, ← ham, h]
  refine ⟨hxa, ?_⟩
  have hw : 0 < g.width := Nat.lt_of_le_of_lt (Nat.zero_le _) hx
  have : y * g.width = b * g.width := by omega
  exact Nat.eq_of_mul_eq_mul_right hw this

theorem get_set_self [Inhabited α] (g : Grid α) (x y : ℕ) (v : α)
    (h : g.gidx x y < g.data.length) : (g.set x y v).get x y = v := by
  unfold gidx at h
  simp [get, set, gidx, List.getD, List.getElem?_set_self h]

theorem get_set_ne [Inhabited α] (g : Grid α) (x y a b : ℕ) (v : α)
    (h : g.gidx x y ≠ g.gidx a b) : (g.set x y v).get a b = g.get a b := by
  unfold gidx at h
  simp [get, set, gidx, List.getD, List.getElem?_set_ne h]

theorem get_new [Inhabited α] (w h : ℕ) (v : α) (x y : ℕ)
    (hlt : y * w + x < w * h) : (new w h v).get x y = v := by
  simp [new, get, gidx, List.getD, List.getElem?_replicate_of_lt hlt]

theorem get_fill [Inhabited α] (g : Grid α) (v : α) (x y : ℕ)
    (hlt : g.gidx x y < g.data.length) : (g.fill v).get x y = v := by
  have h1 : (g.data.map fun _ => v)[g.gidx x y]? = some v := by
    rw [List.getElem?_map, List.getElem?_eq_getElem hlt]
    rfl
  simp [fill, get, gidx, List.getD] at h1 ⊢
  simp [h1]

/-- Out-of-buffer reads return the default value. -/
theorem get_oob [Inhabited α] (g : Grid α) (x y : ℕ)
    (h : ¬ g.gidx x y < g.data.length) : g.get x y = default := by
  simp [get, List.getD, List.getElem?_eq_none_iff.mpr (Nat.le_of_not_lt h)]

end Grid

/-! ## Deterministic RNG (src/worldgen-core/src/rng.rs) -/

/-- 64-bit wrap: reduce modulo `2 ^ 64`. -/
def w64 (x : ℕ) : ℕ := x % 2 ^ 64

/-- `hash_u64`: the SplitMix64 finalizer on a 64-bit word. -/
def hashU64 (x : ℕ) : ℕ :=
  let x1 := Nat.xor x (x >>> 30)
  let x2 := w64 (x1 * 0xBF58476D1CE4E5B9)
  let x3 := Nat.xor x2 (x2 >>> 27)
  let x4 := w64 (x3 * 0x94D049BB133111EB)
  Nat.xor x4 (x4 >>> 31)

/-- Rust `i32 as u64`: sign-extend a (small) signed value into a 64-bit word. -/
def i32ToU64 (x : ℤ) : ℕ :=
  (x % 2 ^ 64).toNat

/-- `hash_2d(seed,x,y) → f32 ∈ [0,1)`: mix, take bits 40..64, divide by `2^24`. -/
def hash2d (seed : ℕ) (x y : ℤ) : ℚ :=
  let mixed := Nat.xor (Nat.xor seed (w64 (i32ToU64 x * 0x9E3779B1))) (w64 (i32ToU64 y * 0x85EBCA77))
  let h := hashU64 mixed
  let v := Nat.land (h >>> 40) 0xFFFFFF
  (v : ℚ) / (2 ^ 24 : ℚ)

/-! ## Parameters (src/worldgen-core/src/params.rs) -/

inductive MapSizePreset | S256 | S512 | S1024
deriving Repr, DecidableEq

/-- `MapSizePreset::dimensions`. -/
def MapSizePreset.dimensions : MapSizePreset → ℕ × ℕ
  | .S256 => (256, 256)
  | .S512 => (512, 512)
  | .S1024 => (1024, 1024)

structure BaseFieldParams where
  sea_level : ℚ
  octaves : ℕ
  frequency : ℚ
  warp_strength : ℚ
  lapse_rate_c_per_km : ℚ
deriving Repr, DecidableEq

structure ErosionParams where
  iterations : ℕ
  erosion_rate : ℚ
  deposition_rate : ℚ
  thermal_rate : ℚ
  min_slope : ℚ
deriving Repr, DecidableEq

structure BiomeParams where
  smoothing_passes : ℕ
  wetness_weight : ℚ
deriving Repr, DecidableEq

structure HydroFinalizeParams where
  ephemeral_threshold : ℚ
  perennial_threshold : ℚ
  major_threshold : ℚ
deriving Repr, DecidableEq

structure GeologyParams where
  strata_layers : ℕ
  fault_strength : ℚ
  ore_richness : ℚ
deriving Repr, DecidableEq

structure GenerationParams where
  seed : ℕ
  size : MapSizePreset
  base : BaseFieldParams
  erosion : ErosionParams
  biomes : BiomeParams
  hydro : HydroFinalizeParams
  geology : GeologyParams
deriving Repr, DecidableEq

/-- `GenerationParams::default()`. -/
def GenerationParams.default : GenerationParams where
  seed := 42
  size := .S512
  base := { sea_level := 1/2, octaves := 6, frequency := 21/10,
            warp_strength := 3/100, lapse_rate_c_per_km := 13/2 }
  erosion := { iterations := 24, erosion_rate := 35/1000, deposition_rate := 2/100,
               thermal_rate := 15/1000, min_slope := 8/10000 }
  biomes := { smoothing_passes := 2, wetness_weight := 4/10 }
  hydro := { ephemeral_threshold := 80, perennial_threshold := 260, major_threshold := 900 }
  geology := { strata_layers := 6, fault_strength := 1/2, ore_richness := 35/100 }

/-! ## World state (src/worldgen-core/src/state.rs) -/

inductive Step | BaseFields | ErosionHydrology | Biomes | HydroFinalize | Geology
deriving Repr, DecidableEq

/-- `Step::ALL`, the canonical stage order. -/
def Step.ALL : List Step := [.BaseFields, .ErosionHydrology, .Biomes, .HydroFinalize, .Geology]

inductive RiverClass | RNone | Ephemeral | Perennial | Major
deriving Repr, DecidableEq

instance : Inhabited RiverClass := ⟨.RNone⟩

/-- `RiverClass::as_u8`. -/
def RiverClass.asU8 : RiverClass → ℕ
  | .RNone => 0
  | .Ephemeral => 1
  | .Perennial => 2
  | .Major => 3

inductive Biome
  | Ocean | Lake | PolarDesert | Tundra | BorealForest | TemperateGrassland
  | TemperateForest | Mediterranean | Savanna | TropicalSeasonalForest
  | TropicalRainforest | HotDesert | Alpine | Wetland
deriving Repr, DecidableEq

instance : Inhabited Biome := ⟨.Ocean⟩

/-- `Biome::as_u8`, the stable numeric tag. -/
def Biome.asU8 : Biome → ℕ
  | .Ocean => 0
  | .Lake => 1
  | .PolarDesert => 2
  | .Tundra => 3
  | .BorealForest => 4
  | .TemperateGrassland => 5
  | .TemperateForest => 6
  | .Mediterranean => 7
  | .Savanna => 8
  | .TropicalSeasonalForest => 9
  | .TropicalRainforest => 10
  | .HotDesert => 11
  | .Alpine => 12
  | .Wetland => 13

/-- `Biome` from a tag, as in the `smooth_biomes` argmax decode (`_ => Wetland`). -/
def Biome.ofU8 : ℕ → Biome
  | 0 => .Ocean
  | 1 => .Lake
  | 2 => .PolarDesert
  | 3 => .Tundra
  | 4 => .BorealForest
  | 5 => .TemperateGrassland
  | 6 => .TemperateForest
  | 7 => .Mediterranean
  | 8 => .Savanna
  | 9 => .TropicalSeasonalForest
  | 10 => .TropicalRainforest
  | 11 => .HotDesert
  | 12 => .Alpine
  | _ => .Wetland

inductive GeologicProvince | Oceanic | Craton | Orogen | Basin | VolcanicArc
deriving Repr, DecidableEq

instance : Inhabited GeologicProvince := ⟨.Craton⟩

inductive RockType
  | Basalt | Gabbro | Granite | Sandstone | Limestone | Schist | Gneiss | Shale | Rhyolite
deriving Repr, DecidableEq

instance : Inhabited RockType := ⟨.Granite⟩

structure StrataLayer where
  rock : RockType
  thickness : ℚ
deriving Repr, DecidableEq

structure Diagnostics where
  layer_hashes : List (String × String)
  checksum : String
deriving Repr, DecidableEq

/-- `Diagnostics::default()`. -/
def Diagnostics.default : Diagnostics := ⟨[], "unset"⟩

/-- The full per-cell layer container plus pipeline cursor, timings, params and
diagnostics, as in `WorldState`.  `step_timings_ms` (a `BTreeMap<Step, f64>`
filled from a wall-clock timer) is modelled as an association list of exact
rationals. -/
structure WorldState where
  width : ℕ
  height : ℕ
  elevation : Grid ℚ
  temperature : Grid ℚ
  rainfall : Grid ℚ
  pressure : Grid ℚ
  wind_u : Grid ℚ
  wind_v : Grid ℚ
  flow_dir : Grid ℕ
  accumulation : Grid ℚ
  discharge : Grid ℚ
  river_class : Grid RiverClass
  lake_id : Grid ℕ
  ocean_mask : Grid Bool
  biome : Grid Biome
  fertility : Grid ℚ
  geologic_province : Grid GeologicProvince
  strata : Grid (List StrataLayer)
  rock_type : Grid RockType
  mineral_masks : List (String × Grid Bool)
  current_step : Option Step
  step_timings_ms : List (Step × ℚ)
  params : GenerationParams
  diagnostics : Diagnostics

/-- The six mineral mask keys of `WorldState::new`, in the sorted order in which
the `BTreeMap` stores and iterates them. -/
def mineralKeys : List String := ["coal", "copper", "gem", "gold", "iron", "tin"]

/-- `WorldState::new`: dimensions from the size preset, all layers
zero-initialized or set to their sentinel, params stored verbatim. -/
def WorldState.new (p : GenerationParams) : WorldState :=
  let wh := p.size.dimensions
  let w := wh.1
  let h := wh.2
  { width := w
    height := h
    elevation := Grid.new w h 0
    temperature := Grid.new w h 0
    rainfall := Grid.new w h 0
    pressure := Grid.new w h 0
    wind_u := Grid.new w h 0
    wind_v := Grid.new w h 0
    flow_dir := Grid.new w h 255
    accumulation := Grid.new w h 0
    discharge := Grid.new w h 0
    river_class := Grid.new w h .RNone
    lake_id := Grid.new w h 0
    ocean_mask := Grid.new w h false
    biome := Grid.new w h .Ocean
    fertility := Grid.new w h 0
    geologic_province := Grid.new w h .Craton
    strata := Grid.new w h []
    rock_type := Grid.new w h .Granite
    mineral_masks := mineralKeys.map fun name => (name, Grid.new w h false)
    current_step := none
    step_timings_ms := []
    params := p
    diagnostics := Diagnostics.default }

/-! ## Iteration order helpers -/

/-- Row-major list of all coordinates of a `w × h` grid (`y` outer, `x` inner),
the `for y in 0..h { for x in 0..w }` order. -/
def allCoords (w h : ℕ) : List (ℕ × ℕ) :=
  (List.range h).flatMap fun y => (List.range w).map fun x => (x, y)

/-- Row-major list of the interior coordinates, the
`for y in 1..h.saturating_sub(1) { for x in 1..w.saturating_sub(1) }` order. -/
def interiorCoords (w h : ℕ) : List (ℕ × ℕ) :=
  (List.range (h - 2)).flatMap fun j => (List.range (w - 2)).map fun i => (i + 1, j + 1)

theorem mem_allCoords {w h : ℕ} {c : ℕ × ℕ} :
    c ∈ allCoords w h ↔ c.1 < w ∧ c.2 < h := by
  cases c with
  | mk x y =>
    simp only [allCoords, List.mem_flatMap, List.mem_map, List.mem_range, Prod.mk.injEq]
    constructor
    · rintro ⟨y0, hy0, x0, hx0, hx, hy⟩
      exact ⟨hx ▸ hx0, hy ▸ hy0⟩
    · rintro ⟨hx, hy⟩
      exact ⟨y, hy, x, hx, rfl, rfl⟩

theorem mem_interiorCoords {w h : ℕ} {c : ℕ × ℕ} :
    c ∈ interiorCoords w h ↔ (1 ≤ c.1 ∧ c.1 < w - 1) ∧ 1 ≤ c.2 ∧ c.2 < h - 1 := by
  cases c with
  | mk x y =>
    simp only [interiorCoords, List.mem_flatMap, List.mem_map, List.mem_range, Prod.mk.injEq]
    constructor
    · rintro ⟨j, hj, i, hi, hx, hy⟩
      omega
    · rintro ⟨⟨hx1, hx2⟩, hy1, hy2⟩
      exact ⟨y - 1, by omega, x - 1, by omega, by omega, by omega⟩

theorem nodup_allCoords (w h : ℕ) : (allCoords w h).Nodup := by
  refine List.nodup_flatMap.2 ⟨?_, ?_⟩
  · intro y _
    exact (List.nodup_range _).map (fun a b hab => by simpa using congrArg Prod.fst hab)
  · refine List.Pairwise.imp ?_ (List.nodup_range h)
    intro a b hab
    intro c hca hcb
    simp only [List.mem_map] at hca hcb
    rcases hca with ⟨x1, _, h1⟩
    rcases hcb with ⟨x2, _, h2⟩
    exact hab (by rw [← h1] at h2; simpa using (congrArg Prod.snd h2).symm)

theorem nodup_interiorCoords (w h : ℕ) : (interiorCoords w h).Nodup := by
  refine List.nodup_flatMap.2 ⟨?_, ?_⟩
  · intro j _
    exact (List.nodup_range _).map (fun a b hab => by simpa using congrArg Prod.fst hab)
  · refine List.Pairwise.imp ?_ (List.nodup_range (h - 2))
    intro a b hab
    intro c hca hcb
    simp only [List.mem_map] at hca hcb
    rcases hca with ⟨x1, _, h1⟩
    rcases hcb with ⟨x2, _, h2⟩
    refine hab ?_
    rw [← h1] at h2
    have := (congrArg Prod.snd h2).symm
    simpa using this

theorem interior_subset_all {w h : ℕ} {c : ℕ × ℕ} (hc : c ∈ interiorCoords w h) :
    c.1 < w ∧ c.2 < h := by
  rcases mem_interiorCoords.1 hc with ⟨⟨_, h1⟩, _, h2⟩
  omega

namespace Grid

theorem gidx_lt (g : Grid α) (hwf : g.WF) {x y : ℕ} (hx : x < g.width) (hy : y < g.height) :
    g.gidx x y < g.data.length := by
  have h1 : y * g.width + x < (y + 1) * g.width := by rw [Nat.succ_mul]; omega
  have h2 : (y + 1) * g.width ≤ g.height * g.width :=
    Nat.mul_le_mul_right _ (Nat.succ_le_of_lt hy)
  rw [hwf]
  unfold gidx
  calc y * g.width + x < (y + 1) * g.width := h1
    _ ≤ g.height * g.width := h2
    _ = g.width * g.height := Nat.mul_comm _ _

/-- Write `f c` into each cell of `coords`: the body of a `for` loop whose
writes do not feed its own reads. -/
def setEach (g : Grid α) (coords : List (ℕ × ℕ)) (f : ℕ × ℕ → α) : Grid α :=
  coords.foldl (fun acc c => acc.set c.1 c.2 (f c)) g

theorem width_setEach (g : Grid α) (coords : List (ℕ × ℕ)) (f : ℕ × ℕ → α) :
    (setEach g coords f).width = g.width := by
  induction coords generalizing g with
  | nil => rfl
  | cons c cs ih => simpa [setEach] using ih (g.set c.1 c.2 (f c))

theorem height_setEach (g : Grid α) (coords : List (ℕ × ℕ)) (f : ℕ × ℕ → α) :
    (setEach g coords f).height = g.height := by
  induction coords generalizing g with
  | nil => rfl
  | cons c cs ih => simpa [setEach] using ih (g.set c.1 c.2 (f c))

theorem WF_setEach (g : Grid α) (coords : List (ℕ × ℕ)) (f : ℕ × ℕ → α) (hwf : g.WF) :
    (setEach g coords f).WF := by
  induction coords generalizing g with
  | nil => exact hwf
  | cons c cs ih => simpa [setEach] using ih _ (WF_set _ _ _ _ hwf)

/-- A loop that writes each visited cell once, from data it does not modify,
leaves every other cell alone and puts `f c` into visited cell `c`. -/
theorem get_setEach [Inhabited α] (g : Grid α) (coords : List (ℕ × ℕ)) (f : ℕ × ℕ → α)
    (hwf : g.WF) (hin : ∀ c ∈ coords, c.1 < g.width ∧ c.2 < g.height)
    (hnd : coords.Nodup) (c : ℕ × ℕ) (hc : c.1 < g.width ∧ c.2 < g.height) :
    (setEach g coords f).get c.1 c.2 = if c ∈ coords then f c else g.get c.1 c.2 := by
  induction coords generalizing g with
  | nil => simp [setEach]
  | cons c0 cs ih =>
    have hc0 := hin c0 (List.mem_cons_self _ _)
    have hstep : setEach g (c0 :: cs) f = setEach (g.set c0.1 c0.2 (f c0)) cs f := rfl
    rw [hstep]
    have hwf2 : (g.set c0.1 c0.2 (f c0)).WF := WF_set _ _ _ _ hwf
    have ih2 := ih (g.set c0.1 c0.2 (f c0)) hwf2
      (fun d hd => hin d (List.mem_cons_of_mem _ hd)) hnd.of_cons hc
    rw [ih2]
    by_cases hmem : c ∈ cs
    · simp [hmem, List.mem_cons_of_mem _ hmem]
    · by_cases hceq : c = c0
      · subst hceq
        simp only [hmem, if_false, List.mem_cons, true_or, if_true, eq_self_iff_true]
        exact get_set_self g c.1 c.2 (f c) (gidx_lt g hwf hc.1 hc.2)
      · have hne : g.gidx c0.1 c0.2 ≠ g.gidx c.1 c.2 := by
          intro heq
          exact hceq (Prod.ext (gidx_inj g hc0.1 hc.1 heq).1.symm
            (gidx_inj g hc0.1 hc.1 heq).2.symm)
        simp only [hmem, if_false, List.mem_cons, hceq, false_or]
        exact get_set_ne g c0.1 c0.2 c.1 c.2 (f c0) hne

end Grid

/-! ## Stage 2 — erosion & hydrology (src/worldgen-core/src/systems/erosion_hydrology.rs) -/

/-- The canonical 8-neighbor direction order `DIRS` (indices 0..7). -/
def DIRS : List (ℤ × ℤ) := [(1,0), (1,1), (0,1), (-1,1), (-1,0), (-1,-1), (0,-1), (1,-1)]

/-- `std::f32::consts::SQRT_2` as its exact rational value `11863283 / 2^23`. -/
def sqrt2f32 : ℚ := 11863283 / 8388608

/-- `f32::MAX` as its exact rational value `(2^24 - 1) * 2^104`. -/
def f32MAX : ℚ := (2 ^ 24 - 1) * 2 ^ 104

/-- `f32::clamp`. -/
def clampQ (v lo hi : ℚ) : ℚ := min (max v lo) hi

/-- The body of one `fill_depressions` sweep at one interior cell, acting on
the in-place elevation grid and the `changed` flag. -/
def fillCell (sea : ℚ) (acc : Grid ℚ × Bool) (c : ℕ × ℕ) : Grid ℚ × Bool :=
  let e := acc.1
  let cur := e.get c.1 c.2
  if cur ≤ sea then acc
  else
    let minNb := DIRS.foldl
      (fun m d => min m (e.get ((c.1 : ℤ) + d.1).toNat ((c.2 : ℤ) + d.2).toNat)) f32MAX
    if cur < minNb then (e.set c.1 c.2 (minNb + 1/100000), true) else acc

/-- One row-major in-place sweep of `fill_depressions` over the interior cells,
returning the updated elevation grid and the `changed` flag. -/
def fillSweep (sea : ℚ) (w h : ℕ) (e0 : Grid ℚ) : Grid ℚ × Bool :=
  (interiorCoords w h).foldl (fillCell sea) (e0, false)

/-- The up-to-8 sweep loop of `fill_depressions`, stopping early as soon as a
sweep changes nothing. -/
def fillLoop (sea : ℚ) (w h : ℕ) : ℕ → Grid ℚ → Grid ℚ
  | 0, e => e
  | n + 1, e =>
    let r := fillSweep sea w h e
    if r.2 then fillLoop sea w h n r.1 else r.1

/-- `fill_depressions(state, sea_level)`. -/
def fillDepressions (sea : ℚ) (st : WorldState) : WorldState :=
  { st with elevation := fillLoop sea st.width st.height 8 st.elevation }

/-- The best-direction selection of `compute_flow_d8` at one cell: fold over the
enumerated `DIRS`, keeping `(best_metric, best_tie, best_dir)`. -/
def flowDirAt (seed : ℕ) (e : Grid ℚ) (x y : ℕ) : ℕ :=
  let hxy := e.get x y
  let r := DIRS.enum.foldl
    (fun best (idd : ℕ × ℤ × ℤ) =>
      let i : ℕ := idd.1
      let d := idd.2
      let nx := (x : ℤ) + d.1
      let ny := (y : ℤ) + d.2
      if e.inB nx ny then
        let nh := e.get nx.toNat ny.toNat
        let drp := hxy - nh
        if drp ≤ 0 then best
        else
          let dist : ℚ := if d.1 ≠ 0 ∧ d.2 ≠ 0 then sqrt2f32 else 1
          let metric := drp / dist
          let tie := hash2d (Nat.xor seed 0xBADC0FFE) (nx + (i : ℤ)) (ny - (i : ℤ))
          if metric > best.1 + 1/100000000 ∨ (|metric - best.1| ≤ 1/100000000 ∧ tie > best.2.1)
          then (metric, tie, (i : ℕ))
          else best
      else best)
    ((0 : ℚ), (0 : ℚ), (255 : ℕ))
  r.2.2

/-- `compute_flow_d8`: reset `flow_dir` to 255, then write the best direction of
every cell (the tie-break hash uses `state.params.seed`). -/
def computeFlowD8 (st : WorldState) : WorldState :=
  let fd := Grid.setEach (st.flow_dir.fill 255) (allCoords st.width st.height)
    (fun c => flowDirAt st.params.seed st.elevation c.1 c.2)
  { st with flow_dir := fd }

/-- The strictly-lower in-bounds neighbors of a cell paired with their MFD
weights `(drop/dist)^1.15`, exactly as gathered by the target loop of
`compute_accumulation`.  `pw` is libm's `powf(·, 1.15)` on `f32`, whose
bit-level values the repository does not define. -/
def lowerNeighborWeights (pw : ℚ → ℚ) (e : Grid ℚ) (x y : ℕ) : List ((ℕ × ℕ) × ℚ) :=
  DIRS.foldl
    (fun ts d =>
      let nx := (x : ℤ) + d.1
      let ny := (y : ℤ) + d.2
      if e.inB nx ny then
        let nh := e.get nx.toNat ny.toNat
        let drp := e.get x y - nh
        if drp ≤ 0 then ts
        else
          let dist : ℚ := if d.1 ≠ 0 ∧ d.2 ≠ 0 then sqrt2f32 else 1
          ts ++ [((nx.toNat, ny.toNat), pw (drp / dist))]
      else ts)
    []

/-- The distribution loop of `compute_accumulation` at one cell: add
`q * (w / wsum)` into each strictly lower neighbor. -/
def accumDistribute (q wsum : ℚ) (ts : List ((ℕ × ℕ) × ℚ)) (a : Grid ℚ) : Grid ℚ :=
  ts.foldl (fun (a2 : Grid ℚ) t => a2.set t.1.1 t.1.2 (a2.get t.1.1 t.1.2 + q * (t.2 / wsum))) a

/-- Processing of one cell in the elevation-descending traversal of
`compute_accumulation`. -/
def accumCell (pw : ℚ → ℚ) (e : Grid ℚ) (a : Grid ℚ) (c : ℕ × ℕ) : Grid ℚ :=
  let q := a.get c.1 c.2
  let ts := lowerNeighborWeights pw e c.1 c.2
  let wsum := (ts.map fun t => t.2).sum
  if ts.length = 0 ∨ wsum ≤ 0 then a
  else accumDistribute q wsum ts a

/-- `compute_accumulation`: reset accumulation to 1, visit all cells sorted by
elevation descending (Rust's stable `sort_by` under the reversed comparator),
distribute each cell's current accumulation over its strictly lower neighbors
in proportion to their weights, then copy the result into `discharge`. -/
def computeAccumulation (pw : ℚ → ℚ) (st : WorldState) : WorldState :=
  let acc0 := st.accumulation.fill 1
  let order := (allCoords st.width st.height).map fun c => (c, st.elevation.get c.1 c.2)
  let sorted := order.mergeSort fun a b => b.2 ≤ a.2
  let acc := sorted.foldl (fun (a : Grid ℚ) ce => accumCell pw st.elevation a ce.1) acc0
  { st with accumulation := acc, discharge := acc }

/-- The scratch `delta` buffer of `apply_hydraulic_erosion`, accumulated over
interior cells with a defined flow direction and slope above `min_slope`.
`sqrtQ` is `f32::sqrt`, whose exact values the repository does not define. -/
def erosionDeltas (sqrtQ : ℚ → ℚ) (st : WorldState) (p : GenerationParams) : Grid ℚ :=
  (interiorCoords st.width st.height).foldl
    (fun dl c =>
      let x := c.1
      let y := c.2
      let dir := st.flow_dir.get x y
      if dir = 255 then dl
      else
        let d := DIRS.getD dir (0, 0)
        let hseed := st.elevation.get x y
        let nx := ((x : ℤ) + d.1).toNat
        let ny := ((y : ℤ) + d.2).toNat
        let nh := st.elevation.get nx ny
        let slope := max (hseed - nh) 0
        if slope < p.erosion.min_slope then dl
        else
          let q := st.discharge.get x y
          let streamPower := sqrtQ q * slope
          let capacity := streamPower * (8/100)
          let sediment := st.rainfall.get x y * (4/10)
          if sediment < capacity then
            let erode := (capacity - sediment) * p.erosion.erosion_rate
            let dl1 := dl.set x y (dl.get x y - erode)
            dl1.set nx ny (dl1.get nx ny + erode * p.erosion.deposition_rate)
          else
            let deposit := (sediment - capacity) * p.erosion.deposition_rate
            dl.set x y (dl.get x y + deposit))
    (Grid.new st.width st.height 0)

/-- `apply_hydraulic_erosion`: apply the deltas to every cell and clamp each
result into `[0,1]`. -/
def applyHydraulicErosion (sqrtQ : ℚ → ℚ) (st : WorldState) (p : GenerationParams) : WorldState :=
  let dl := erosionDeltas sqrtQ st p
  let e := Grid.setEach st.elevation (allCoords st.width st.height)
    (fun c => clampQ (st.elevation.get c.1 c.2 + dl.get c.1 c.2) 0 1)
  { st with elevation := e }

/-- `apply_thermal_relaxation`: each interior cell relaxes toward its 8-neighbor
mean in a cloned output grid; borders pass through. -/
def applyThermalRelaxation (st : WorldState) (p : GenerationParams) : WorldState :=
  let e := Grid.setEach st.elevation (interiorCoords st.width st.height)
    (fun c =>
      let hc := st.elevation.get c.1 c.2
      let s := DIRS.foldl
        (fun (s : ℚ) d => s + st.elevation.get ((c.1 : ℤ) + d.1).toNat ((c.2 : ℤ) + d.2).toNat) 0
      let avg := s / 8
      hc + (avg - hc) * p.erosion.thermal_rate)
  { st with elevation := e }

/-- The `for _ in 0..iterations` loop body of `erosion_hydrology::run`. -/
def erosionIter (pw sqrtQ : ℚ → ℚ) (p : GenerationParams) : ℕ → WorldState → WorldState
  | 0, s => s
  | n + 1, s =>
    erosionIter pw sqrtQ p n
      (applyThermalRelaxation (applyHydraulicErosion sqrtQ (computeAccumulation pw (computeFlowD8 s)) p) p)

/-- `erosion_hydrology::run`: depression filling, the erosion loop, then one
final flow-direction and accumulation pass. -/
def erosionRun (pw sqrtQ : ℚ → ℚ) (st : WorldState) (p : GenerationParams) : WorldState :=
  let st1 := fillDepressions p.base.sea_level st
  let st2 := erosionIter pw sqrtQ p p.erosion.iterations st1
  computeAccumulation pw (computeFlowD8 st2)

/-! ## Stage 3 — biomes (src/worldgen-core/src/systems/biomes.rs) -/

/-- `wetness`: blend rainfall with normalized log-accumulation.  `log10F` is
`f32::log10`, whose exact values the repository does not define. -/
def wetness (log10F : ℚ → ℚ) (st : WorldState) (x y : ℕ) (ww : ℚ) : ℚ :=
  let q := st.accumulation.get x y
  let qn := clampQ (log10F q / 4) 0 1
  (1 - ww) * st.rainfall.get x y + ww * qn

/-- `classify`: the biome decision cascade. -/
def classify (tempC rain elev wet sea : ℚ) (isLake : Bool) : Biome :=
  if elev ≤ sea then .Ocean
  else if isLake then .Lake
  else if wet > 85/100 then .Wetland
  else if elev > sea + 28/100 then .Alpine
  else if tempC < -8 then (if rain < 18/100 then .PolarDesert else .Tundra)
  else if tempC < 4 then (if rain > 35/100 then .BorealForest else .Tundra)
  else if tempC < 15 then
    (if rain < 2/10 then .TemperateGrassland
     else if rain < 45/100 then .Mediterranean
     else .TemperateForest)
  else if rain < 16/100 then .HotDesert
  else if rain < 38/100 then .Savanna
  else if rain < 62/100 then .TropicalSeasonalForest
  else .TropicalRainforest

/-- The classification loop of `biomes::run`.  The single Rust loop writes only
`biome` and `fertility`, reading layers it never writes, so its effect is these
two per-grid passes.  The sea level is read from `state.params`, the wetness
weight from the passed params, exactly as in the source. -/
def classifyPass (log10F : ℚ → ℚ) (st : WorldState) (p : GenerationParams) : WorldState :=
  let bio := Grid.setEach st.biome (allCoords st.width st.height)
    (fun c =>
      classify (st.temperature.get c.1 c.2) (st.rainfall.get c.1 c.2)
        (st.elevation.get c.1 c.2) (wetness log10F st c.1 c.2 p.biomes.wetness_weight)
        st.params.base.sea_level (st.lake_id.get c.1 c.2 > 0))
  let fert := Grid.setEach st.fertility (allCoords st.width st.height)
    (fun c =>
      let rain := st.rainfall.get c.1 c.2
      let temp := st.temperature.get c.1 c.2
      let wet := wetness log10F st c.1 c.2 p.biomes.wetness_weight
      clampQ (rain * (7/10) + wet * (2/10) + (1 - |temp - 18| / 40) * (1/10)) 0 1)
  { st with biome := bio, fertility := fert }

/-- Increment one slot of the 14-entry count table. -/
def bumpCount (cnt : ℕ → ℕ) (k : ℕ) : ℕ → ℕ :=
  fun i => if i = k then cnt i + 1 else cnt i

/-- The majority vote of `smooth_biomes` at one interior cell: count the center
plus its 8 neighbors, then scan tags 0..13 keeping the first strict maximum
(`best` starts at the center with `best_count = 0`). -/
def majorityVote (g : Grid Biome) (x y : ℕ) : Biome :=
  let center := g.get x y
  let counts := DIRS.foldl
    (fun cnt d => bumpCount cnt (g.get ((x : ℤ) + d.1).toNat ((y : ℤ) + d.2).toNat).asU8)
    (bumpCount (fun _ => 0) center.asU8)
  let r := (List.range 14).foldl
    (fun (bb : Biome × ℕ) i => if counts i > bb.2 then (Biome.ofU8 i, counts i) else bb)
    (center, 0)
  r.1

/-- The interior loop of `smooth_biomes`, writing votes into the output grid
`o` while reading the pass's input grid `bio`. -/
def smoothFold (bio : Grid Biome) (l : List (ℕ × ℕ)) (o : Grid Biome) : Grid Biome :=
  l.foldl
    (fun (o : Grid Biome) c =>
      let center := bio.get c.1 c.2
      if center = .Ocean ∨ center = .Lake then o
      else o.set c.1 c.2 (majorityVote bio c.1 c.2))
    o

/-- `smooth_biomes`: one majority-vote pass writing into a cloned output grid;
Ocean and Lake centers are fixed, borders pass through. -/
def smoothBiomes (st : WorldState) : WorldState :=
  { st with biome := smoothFold st.biome (interiorCoords st.width st.height) st.biome }

/-- The `for _ in 0..smoothing_passes` loop. -/
def smoothLoop : ℕ → WorldState → WorldState
  | 0, s => s
  | n + 1, s => smoothLoop n (smoothBiomes s)

/-- `biomes::run`: classification plus `smoothing_passes` smoothing passes. -/
def biomesRun (log10F : ℚ → ℚ) (st : WorldState) (p : GenerationParams) : WorldState :=
  smoothLoop p.biomes.smoothing_passes (classifyPass log10F st p)

/-! ## Stage 4 — hydrology finalize (src/worldgen-core/src/systems/hydro_finalize.rs) -/

/-- The in-bounds 8-neighbors of a cell in `DIRS_8` order: the cells enqueued by
the BFS push loops. -/
def nbrs8 (g : Grid ℚ) (x y : ℕ) : List (ℕ × ℕ) :=
  DIRS.filterMap fun d =>
    let nx := (x : ℤ) + d.1
    let ny := (y : ℤ) + d.2
    if g.inB nx ny then some (nx.toNat, ny.toNat) else none

/-- State of the ocean BFS of `mark_ocean_component`. -/
structure OceanBFS where
  mask : Grid Bool
  queue : List (ℕ × ℕ)

/-- The initial BFS queue: border cells with elevation at or below sea level, in
the push order of the two seed loops. -/
def oceanSeeds (e : Grid ℚ) (sea : ℚ) (w h : ℕ) : List (ℕ × ℕ) :=
  ((List.range w).flatMap fun x =>
    (if e.get x 0 ≤ sea then [(x, 0)] else []) ++
    (if e.get x (h - 1) ≤ sea then [(x, h - 1)] else [])) ++
  ((List.range h).flatMap fun y =>
    (if e.get 0 y ≤ sea then [(0, y)] else []) ++
    (if e.get (w - 1) y ≤ sea then [(w - 1, y)] else []))

/-- One iteration of the `while let Some((x,y)) = q.pop_front()` loop. -/
def oceanStep (e : Grid ℚ) (sea : ℚ) (s : OceanBFS) : OceanBFS :=
  match s.queue with
  | [] => s
  | c :: rest =>
    if s.mask.get c.1 c.2 then { s with queue := rest }
    else if e.get c.1 c.2 > sea then { s with queue := rest }
    else { mask := s.mask.set c.1 c.2 true, queue := rest ++ nbrs8 e c.1 c.2 }

/-- Fueled BFS loop; the fuel chosen in `markOceanComponent` provably drains
the queue. -/
def oceanRun (e : Grid ℚ) (sea : ℚ) : ℕ → OceanBFS → OceanBFS
  | 0, s => s
  | n + 1, s =>
    match s.queue with
    | [] => s
    | _ :: _ => oceanRun e sea n (oceanStep e sea s)

/-- `mark_ocean_component`: clear the mask, seed from the borders, run the BFS. -/
def markOceanComponent (sea : ℚ) (st : WorldState) : WorldState :=
  let e := st.elevation
  let seeds := oceanSeeds e sea st.width st.height
  let fuel := seeds.length + 9 * (st.width * st.height)
  let r := oceanRun e sea fuel { mask := st.ocean_mask.fill false, queue := seeds }
  { st with ocean_mask := r.mask }

/-- Discharge-threshold river classification of one non-ocean cell. -/
def riverClassAt (p : GenerationParams) (q : ℚ) : RiverClass :=
  if q ≥ p.hydro.major_threshold then .Major
  else if q ≥ p.hydro.perennial_threshold then .Perennial
  else if q ≥ p.hydro.ephemeral_threshold then .Ephemeral
  else .RNone

/-- `is_strict_local_pit`: all 8 neighbors strictly higher by more than `1e-4`. -/
def isStrictLocalPit (e : Grid ℚ) (x y : ℕ) (elev : ℚ) : Bool :=
  DIRS.all fun d =>
    decide (e.get ((x : ℤ) + d.1).toNat ((y : ℤ) + d.2).toNat > elev + 1/10000)

/-- `local_relief`: max minus min of the 9-cell neighborhood at the seed. -/
def localRelief (e : Grid ℚ) (x y : ℕ) : ℚ :=
  let mm := DIRS.foldl
    (fun (mm : ℚ × ℚ) d =>
      let hn := e.get ((x : ℤ) + d.1).toNat ((y : ℤ) + d.2).toNat
      (min mm.1 hn, max mm.2 hn))
    (e.get x y, e.get x y)
  mm.2 - mm.1

/-- State of the lake flood-fill of `flood_lake_basin`: the pending queue, the
tagged cells, the `touches_edge` flag, whether the loop was left by `break`,
and the lake-id grid being written. -/
structure FloodState where
  queue : List (ℕ × ℕ)
  cells : List (ℕ × ℕ)
  touchesEdge : Bool
  halted : Bool
  lake : Grid ℕ

/-- The `x == 0 || y == 0 || x + 1 == width || y + 1 == height` border test. -/
def onBorder (st : WorldState) (c : ℕ × ℕ) : Bool :=
  decide (c.1 = 0) || decide (c.2 = 0) || decide (c.1 + 1 = st.width) ||
    decide (c.2 + 1 = st.height)

/-- One iteration of the flood-fill loop body. -/
def floodStep (st : WorldState) (lakeId : ℕ) (maxLevel : ℚ) (maxCells : ℕ)
    (s : FloodState) : FloodState :=
  match s.queue with
  | [] => s
  | c :: rest =>
    if st.ocean_mask.get c.1 c.2 ∨ s.lake.get c.1 c.2 = lakeId then { s with queue := rest }
    else if st.elevation.get c.1 c.2 > maxLevel then { s with queue := rest }
    else if s.lake.get c.1 c.2 ≠ 0 then { s with queue := rest, touchesEdge := true }
    else
      let te := s.touchesEdge || onBorder st c
      let lake2 := s.lake.set c.1 c.2 lakeId
      let cells2 := s.cells ++ [c]
      if cells2.length > maxCells then
        { queue := rest, cells := cells2, touchesEdge := true, halted := true, lake := lake2 }
      else
        { queue := rest ++ nbrs8 st.elevation c.1 c.2, cells := cells2,
          touchesEdge := te, halted := false, lake := lake2 }

/-- Fueled flood-fill loop; stops on empty queue or `break`. -/
def floodRun (st : WorldState) (lakeId : ℕ) (maxLevel : ℚ) (maxCells : ℕ) :
    ℕ → FloodState → FloodState
  | 0, s => s
  | n + 1, s =>
    if s.halted then s
    else
      match s.queue with
      | [] => s
      | _ :: _ => floodRun st lakeId maxLevel maxCells n (floodStep st lakeId maxLevel maxCells s)

/-- `flood_lake_basin`: BFS from the pit seed; on `touches_edge` roll every
tagged cell back to 0 and report failure. -/
def floodLakeBasin (st : WorldState) (sx sy : ℕ) (lakeId : ℕ) (maxLevel : ℚ)
    (maxCells : ℕ) : Bool × Grid ℕ :=
  let s0 : FloodState :=
    { queue := [(sx, sy)], cells := [], touchesEdge := false, halted := false,
      lake := st.lake_id }
  let r := floodRun st lakeId maxLevel maxCells (1 + 9 * (st.width * st.height)) s0
  if r.touchesEdge then (false, r.cells.foldl (fun g c => g.set c.1 c.2 0) r.lake)
  else (true, r.lake)

/-- `identify_lakes`: scan interior cells row-major for qualified strict pits
and flood each; the basin id is consumed only on success. -/
def identifyLakes (sea : ℚ) (st : WorldState) : WorldState :=
  let r := (interiorCoords st.width st.height).foldl
    (fun (acc : WorldState × ℕ) c =>
      let s := acc.1
      let nextId := acc.2
      if s.ocean_mask.get c.1 c.2 ∨ s.lake_id.get c.1 c.2 ≠ 0 then acc
      else
        let elev := s.elevation.get c.1 c.2
        if elev ≤ sea then acc
        else if ¬ isStrictLocalPit s.elevation c.1 c.2 elev then acc
        else if s.accumulation.get c.1 c.2 < 8 then acc
        else
          let relief := localRelief s.elevation c.1 c.2
          let maxLevel := elev + min (1/1000 + relief * (3/10)) (8/1000)
          let fr := floodLakeBasin s c.1 c.2 nextId maxLevel 6000
          if fr.1 then ({ s with lake_id := fr.2 }, nextId + 1)
          else ({ s with lake_id := fr.2 }, nextId))
    (st, 1)
  r.1

/-- `hydro_finalize::run`: ocean mask, river classification (after clearing
`river_class` and `lake_id`), then lake identification. -/
def hydroFinalizeRun (st : WorldState) (p : GenerationParams) : WorldState :=
  let st1 := markOceanComponent p.base.sea_level st
  let st2 := { st1 with river_class := st1.river_class.fill .RNone,
                        lake_id := st1.lake_id.fill 0 }
  let rc := (allCoords st2.width st2.height).foldl
    (fun (o : Grid RiverClass) c =>
      if st2.ocean_mask.get c.1 c.2 then o
      else o.set c.1 c.2 (riverClassAt p (st2.discharge.get c.1 c.2)))
    st2.river_class
  identifyLakes p.base.sea_level { st2 with river_class := rc }

/-! ## Diagnostics (src/worldgen-core/src/state.rs, `update_diagnostics`) -/

/-- `GeologicProvince::as_u8`. -/
def GeologicProvince.asU8 : GeologicProvince → ℕ
  | .Oceanic => 0
  | .Craton => 1
  | .Orogen => 2
  | .Basin => 3
  | .VolcanicArc => 4

/-- `RockType::as_u8`. -/
def RockType.asU8 : RockType → ℕ
  | .Basalt => 0
  | .Gabbro => 1
  | .Granite => 2
  | .Sandstone => 3
  | .Limestone => 4
  | .Schist => 5
  | .Gneiss => 6
  | .Shale => 7
  | .Rhyolite => 8

/-- The BLAKE3 hex-digest functions of `update_diagnostics`, one per serialized
buffer shape.  Each is a pure function of the bytes it is fed; the digests
themselves are opaque to this repository, so they are parameters.  `hashF32`
stands for hashing the little-endian `f32` bit patterns of a float buffer,
`hashBytes` for hashing a plain byte buffer (`u8` values and the `as_u8` /
`0-1` encodings of enums and bools), `hashU32` for hashing little-endian
`u32` words, and `combine` for the rolling checksum hasher fed with
`name ∥ hex_of_layer_hash` pairs in order. -/
structure Hashers where
  hashF32 : List ℚ → String
  hashBytes : List ℕ → String
  hashU32 : List ℕ → String
  combine : List (String × String) → String

/-- Encode a bool grid buffer as 0/1 bytes (`u8::from`). -/
def boolBytes (l : List Bool) : List ℕ :=
  l.map fun b => if b then 1 else 0

/-- The thirteen fixed `(name, hash)` insertions of `update_diagnostics`. -/
def diagBase (hs : Hashers) (st : WorldState) : List (String × String) :=
  [("elevation", hs.hashF32 st.elevation.data),
   ("temperature", hs.hashF32 st.temperature.data),
   ("rainfall", hs.hashF32 st.rainfall.data),
   ("accumulation", hs.hashF32 st.accumulation.data),
   ("discharge", hs.hashF32 st.discharge.data),
   ("flow_dir", hs.hashBytes st.flow_dir.data),
   ("river_class", hs.hashBytes (st.river_class.data.map RiverClass.asU8)),
   ("lake_id", hs.hashU32 st.lake_id.data),
   ("ocean_mask", hs.hashBytes (boolBytes st.ocean_mask.data)),
   ("biome", hs.hashBytes (st.biome.data.map Biome.asU8)),
   ("fertility", hs.hashF32 st.fertility.data),
   ("province", hs.hashBytes (st.geologic_province.data.map GeologicProvince.asU8)),
   ("rock_type", hs.hashBytes (st.rock_type.data.map RockType.asU8))]

/-- The `mineral_<name>` insertions of `update_diagnostics`. -/
def diagMinerals (hs : Hashers) (st : WorldState) : List (String × String) :=
  st.mineral_masks.map fun m => ("mineral_" ++ m.1, hs.hashBytes (boolBytes m.2.data))

/-- `WorldState::update_diagnostics`: a per-layer hash for thirteen named layers
plus one `mineral_<name>` entry per mineral mask, stored key-sorted (the
`BTreeMap` iteration order), and the combined rolling checksum over the sorted
`(name, hash)` pairs. -/
def updateDiagnostics (hs : Hashers) (st : WorldState) : WorldState :=
  let hashes := (diagBase hs st ++ diagMinerals hs st).mergeSort fun a b => decide (a.1 ≤ b.1)
  { st with diagnostics := { layer_hashes := hashes, checksum := hs.combine hashes } }

/-! ## Scheduler (src/worldgen-core/src/scheduler.rs)

The five stage functions appear as parameters of the scheduler embedding,
mirroring the dispatch `match`.  Stages 2–4 have concrete embeddings above
(`erosionRun`, `biomesRun`, `hydroFinalizeRun`, themselves parameterized by the
numeric library functions they call); stages 1 and 5 are built from `sin`,
`sqrt`, `powf` and `log10` throughout and enter the scheduler theorems only
through these parameters.  All five Rust stage functions are pure functions of
the state and params. -/

section Scheduler

variable (stageBaseFields stageErosion stageBiomes stageHydroFinalize stageGeology :
    WorldState → GenerationParams → WorldState)

/-- The `match step` dispatch of `run_step`. -/
def dispatchStep (step : Step) (st : WorldState) (p : GenerationParams) : WorldState :=
  match step with
  | .BaseFields => stageBaseFields st p
  | .ErosionHydrology => stageErosion st p
  | .Biomes => stageBiomes st p
  | .HydroFinalize => stageHydroFinalize st p
  | .Geology => stageGeology st p

/-- `BTreeMap::insert` on the timing map: replace the entry if the key exists,
otherwise add it. -/
def insertTiming (m : List (Step × ℚ)) (s : Step) (v : ℚ) : List (Step × ℚ) :=
  if m.any fun e => e.1 = s then m.map fun e => if e.1 = s then (s, v) else e
  else m ++ [(s, v)]

/-- `run_step`: store the params, dispatch the stage, advance the cursor, record
the elapsed wall-clock milliseconds (`elapsed`, the one impure input, passed
explicitly), recompute diagnostics, and return `Ok`. -/
def runStep (hs : Hashers) (elapsed : ℚ) (st : WorldState) (step : Step)
    (p : GenerationParams) : Except String WorldState :=
  let st1 := { st with params := p }
  let st2 := dispatchStep stageBaseFields stageErosion stageBiomes stageHydroFinalize
    stageGeology step st1 p
  let st3 := { st2 with current_step := some step,
                        step_timings_ms := insertTiming st2.step_timings_ms step elapsed }
  Except.ok (updateDiagnostics hs st3)

/-- `run_next_step`: pick the successor of the cursor in the linear order, run
it if there is one, and report which step ran. -/
def runNextStep (hs : Hashers) (elapsed : ℚ) (st : WorldState) (p : GenerationParams) :
    Except String (Option Step × WorldState) :=
  let next : Option Step :=
    match st.current_step with
    | none => some Step.BaseFields
    | some .BaseFields => some .ErosionHydrology
    | some .ErosionHydrology => some .Biomes
    | some .Biomes => some .HydroFinalize
    | some .HydroFinalize => some .Geology
    | some .Geology => none
  match next with
  | some step =>
    match runStep stageBaseFields stageErosion stageBiomes stageHydroFinalize stageGeology
      hs elapsed st step p with
    | .ok st2 => .ok (some step, st2)
    | .error e => .error e
  | none => .ok (none, st)

/-- `run_all_steps`: run the five stages of `Step::ALL` in order; `elapsed`
gives the wall-clock measurement of each stage call. -/
def runAllSteps (hs : Hashers) (elapsed : Step → ℚ) (st : WorldState)
    (p : GenerationParams) : Except String WorldState :=
  Step.ALL.foldl
    (fun acc step =>
      match acc with
      | .error e => .error e
      | .ok s => runStep stageBaseFields stageErosion stageBiomes stageHydroFinalize
          stageGeology hs (elapsed step) s step p)
    (Except.ok st)

end Scheduler

/-! ## Concrete instances used by witnesses and counterexamples -/

/-- A concrete `Hashers` instance (digest values are irrelevant to the
properties below, which hold for every instance). -/
def trivialHashers : Hashers :=
  ⟨fun _ => "", fun _ => "", fun _ => "", fun _ => ""⟩

/-- A concrete stage function for instantiating the scheduler parameters. -/
def idStage : WorldState → GenerationParams → WorldState := fun s _ => s

/-- A small well-formed state over given elevation and accumulation buffers,
with every other layer at its `WorldState::new` initialization. -/
def testState (w h : ℕ) (elev acc : List ℚ) (p : GenerationParams) : WorldState :=
  { width := w
    height := h
    elevation := ⟨w, h, elev⟩
    temperature := Grid.new w h 0
    rainfall := Grid.new w h 0
    pressure := Grid.new w h 0
    wind_u := Grid.new w h 0
    wind_v := Grid.new w h 0
    flow_dir := Grid.new w h 255
    accumulation := ⟨w, h, acc⟩
    discharge := Grid.new w h 0
    river_class := Grid.new w h .RNone
    lake_id := Grid.new w h 0
    ocean_mask := Grid.new w h false
    biome := Grid.new w h .Ocean
    fertility := Grid.new w h 0
    geologic_province := Grid.new w h .Craton
    strata := Grid.new w h []
    rock_type := Grid.new w h .Granite
    mineral_masks := mineralKeys.map fun n => (n, Grid.new w h false)
    current_step := none
    step_timings_ms := []
    params := p
    diagnostics := Diagnostics.default }

/-- Default params with an out-of-range `sea_level` and a negative erosion
rate. -/
def badParams : GenerationParams :=
  { GenerationParams.default with
    base := { GenerationParams.default.base with sea_level := 2 }
    erosion := { GenerationParams.default.erosion with erosion_rate := -1 } }

/-- A state with the timing map erased: two states agree on everything except
wall-clock timings iff their `stripTimings` images are equal. -/
def stripTimings (s : WorldState) : WorldState :=
  { s with step_timings_ms := [] }

/-! ## C10 -/

/-- C10: when `current_step` is `Some(Geology)`, `run_next_step` returns
`Ok(None)` and the state is left completely unchanged — no stage runs, params
are not overwritten, no timing entry is recorded, diagnostics are not
recomputed.  This holds for every choice of the five stage functions. -/
theorem runNextStep_geology_noop
    (sB sE sBio sH sG : WorldState → GenerationParams → WorldState)
    (hs : Hashers) (elapsed : ℚ) (st : WorldState) (p : GenerationParams)
    (hcur : st.current_step = some Step.Geology) :
    runNextStep sB sE sBio sH sG hs elapsed st p = Except.ok (none, st) := by
  unfold runNextStep
  rw [hcur]

/-- C10 witness: a concrete state whose cursor is at `Geology`. -/
theorem runNextStep_geology_noop_witness :
    runNextStep idStage idStage idStage idStage idStage trivialHashers 0
      { WorldState.new GenerationParams.default with current_step := some Step.Geology }
      GenerationParams.default
      = Except.ok (none,
          { WorldState.new GenerationParams.default with current_step := some Step.Geology }) :=
  runNextStep_geology_noop idStage idStage idStage idStage idStage trivialHashers 0
    { WorldState.new GenerationParams.default with current_step := some Step.Geology }
    GenerationParams.default rfl

/-! ## C4 -/

/-- C4 counterexample: `badParams` has `sea_level = 2 ∉ [0,1]` and a negative
`erosion_rate`, yet `WorldState::new` constructs a state (storing the invalid
params verbatim) and `run_step` returns `Ok` — no typed error is surfaced at
construction or stage entry. -/
theorem paramValidation_counterexample :
    badParams.base.sea_level = 2 ∧ badParams.erosion.erosion_rate < 0 ∧
    (WorldState.new badParams).params = badParams ∧
    runStep idStage idStage idStage idStage idStage trivialHashers 0
        (WorldState.new badParams) Step.ErosionHydrology badParams
      = Except.ok (updateDiagnostics trivialHashers
          { idStage { WorldState.new badParams with params := badParams } badParams with
            current_step := some Step.ErosionHydrology
            step_timings_ms := insertTiming
              (idStage { WorldState.new badParams with params := badParams }
                badParams).step_timings_ms Step.ErosionHydrology 0 }) :=
  ⟨rfl, by norm_num [badParams, GenerationParams.default], rfl, rfl⟩

/-- C4 amended: neither `WorldState::new` nor `run_step` validates parameters:
construction always succeeds and stores the params verbatim, and `run_step`
returns `Ok` for every step and every params value (for every choice of stage
functions); invalid values are passed through to the stages unchecked. -/
theorem no_param_validation
    (sB sE sBio sH sG : WorldState → GenerationParams → WorldState)
    (hs : Hashers) (elapsed : ℚ) (st : WorldState) (step : Step) (p : GenerationParams) :
    (WorldState.new p).params = p ∧
    ∃ st2, runStep sB sE sBio sH sG hs elapsed st step p = Except.ok st2 :=
  ⟨rfl, _, rfl⟩

/-! ## C2 -/

/-- The key set of `update_diagnostics`: thirteen fixed layer names plus one
`mineral_<name>` entry per mineral mask. -/
theorem mem_diag_keys (hs : Hashers) (st : WorldState) (k : String) :
    k ∈ (updateDiagnostics hs st).diagnostics.layer_hashes.map Prod.fst ↔
      (k ∈ ["elevation", "temperature", "rainfall", "accumulation", "discharge",
            "flow_dir", "river_class", "lake_id", "ocean_mask", "biome", "fertility",
            "province", "rock_type"] ∨
       k ∈ st.mineral_masks.map fun m => "mineral_" ++ m.1) := by
  have h1 : (updateDiagnostics hs st).diagnostics.layer_hashes
      = (diagBase hs st ++ diagMinerals hs st).mergeSort fun a b => decide (a.1 ≤ b.1) := rfl
  rw [h1]
  have h2 : ∀ (L : List (String × String)) (c : String × String → String × String → Bool),
      k ∈ (L.mergeSort c).map Prod.fst ↔ k ∈ L.map Prod.fst := by
    intro L c
    constructor
    · intro hk
      rcases List.mem_map.1 hk with ⟨a, ha, rfl⟩
      exact List.mem_map.2 ⟨a, (List.mem_mergeSort).1 ha, rfl⟩
    · intro hk
      rcases List.mem_map.1 hk with ⟨a, ha, rfl⟩
      exact List.mem_map.2 ⟨a, (List.mem_mergeSort).2 ha, rfl⟩
  rw [h2, List.map_append, List.mem_append]
  have h3 : (diagBase hs st).map Prod.fst
      = ["elevation", "temperature", "rainfall", "accumulation", "discharge",
         "flow_dir", "river_class", "lake_id", "ocean_mask", "biome", "fertility",
         "province", "rock_type"] := rfl
  have h4 : (diagMinerals hs st).map Prod.fst
      = st.mineral_masks.map fun m => "mineral_" ++ m.1 := by
    simp [diagMinerals, List.map_map]
  rw [h3, h4]

/-- C2 counterexample: after `update_diagnostics`, the `pressure` layer has no
entry in `layer_hashes` (nor do `wind_u`, `wind_v`, `strata`), refuting the
claim that every layer of the data model is hashed. -/
theorem pressure_not_hashed_counterexample :
    ¬ ("pressure" ∈ (updateDiagnostics trivialHashers
        (WorldState.new GenerationParams.default)).diagnostics.layer_hashes.map Prod.fst) ∧
    ¬ ("wind_u" ∈ (updateDiagnostics trivialHashers
        (WorldState.new GenerationParams.default)).diagnostics.layer_hashes.map Prod.fst) ∧
    ¬ ("strata" ∈ (updateDiagnostics trivialHashers
        (WorldState.new GenerationParams.default)).diagnostics.layer_hashes.map Prod.fst) := by
  refine ⟨?_, ?_, ?_⟩ <;>
  · rw [mem_diag_keys]
    rintro (hk | hk)
    · revert hk
      decide
    · have h5 : (WorldState.new GenerationParams.default).mineral_masks.map
          (fun m => "mineral_" ++ m.1)
          = ["mineral_coal", "mineral_copper", "mineral_gem", "mineral_gold",
             "mineral_iron", "mineral_tin"] := rfl
      rw [h5] at hk
      revert hk
      decide

/-- C2 amended: `update_diagnostics` hashes exactly thirteen named layers plus
one `mineral_<name>` entry per mineral mask; `pressure`, `wind_u`, `wind_v` and
the strata stacks are not hashed, and the diagnostics (all layer hashes and the
combined checksum) are invariant under arbitrary changes to those four
layers. -/
theorem updateDiagnostics_keys_and_frame (hs : Hashers) (st : WorldState) :
    (∀ k, k ∈ (updateDiagnostics hs st).diagnostics.layer_hashes.map Prod.fst ↔
      (k ∈ ["elevation", "temperature", "rainfall", "accumulation", "discharge",
            "flow_dir", "river_class", "lake_id", "ocean_mask", "biome", "fertility",
            "province", "rock_type"] ∨
       k ∈ st.mineral_masks.map fun m => "mineral_" ++ m.1)) ∧
    (∀ P U V S, (updateDiagnostics hs
        { st with pressure := P, wind_u := U, wind_v := V, strata := S }).diagnostics =
      (updateDiagnostics hs st).diagnostics) :=
  ⟨fun k => mem_diag_keys hs st k, fun _ _ _ _ => rfl⟩

/-! ## C1 -/

theorem strip_updateDiagnostics (hs : Hashers) (s : WorldState) :
    stripTimings (updateDiagnostics hs s) = updateDiagnostics hs (stripTimings s) := rfl

/-- One `run_step` call on two states that agree except on timings, measured
under two different wall clocks, returns `Ok` twice with results that again
agree except on timings. -/
theorem runStep_strip
    (sB sE sBio sH sG : WorldState → GenerationParams → WorldState)
    (hF : ∀ step q s t, stripTimings s = stripTimings t →
      stripTimings (dispatchStep sB sE sBio sH sG step s q)
        = stripTimings (dispatchStep sB sE sBio sH sG step t q))
    (hs : Hashers) (e1 e2 : ℚ) (s t : WorldState) (step : Step) (p : GenerationParams)
    (h : stripTimings s = stripTimings t) :
    ∃ s2 t2, runStep sB sE sBio sH sG hs e1 s step p = Except.ok s2 ∧
      runStep sB sE sBio sH sG hs e2 t step p = Except.ok t2 ∧
      stripTimings s2 = stripTimings t2 := by
  refine ⟨_, _, rfl, rfl, ?_⟩
  have hp : stripTimings { s with params := p } = stripTimings { t with params := p } := by
    show ({ stripTimings s with params := p } : WorldState)
      = { stripTimings t with params := p }
    rw [h]
  have hd := hF step p { s with params := p } { t with params := p } hp
  exact congrArg (updateDiagnostics hs)
    (congrArg (fun z : WorldState => ({ z with current_step := some step } : WorldState)) hd)

/-- Chaining `run_step` over a list of steps preserves the timing-frame
relation between two runs under different wall clocks. -/
theorem foldSteps_strip
    (sB sE sBio sH sG : WorldState → GenerationParams → WorldState)
    (hF : ∀ step q s t, stripTimings s = stripTimings t →
      stripTimings (dispatchStep sB sE sBio sH sG step s q)
        = stripTimings (dispatchStep sB sE sBio sH sG step t q))
    (hs : Hashers) (e1 e2 : Step → ℚ) (p : GenerationParams) :
    ∀ (L : List Step) (s t : WorldState), stripTimings s = stripTimings t →
    ∃ s2 t2,
      (L.foldl (fun acc step => match acc with
        | .error e => .error e
        | .ok s => runStep sB sE sBio sH sG hs (e1 step) s step p) (Except.ok s))
        = Except.ok s2 ∧
      (L.foldl (fun acc step => match acc with
        | .error e => .error e
        | .ok s => runStep sB sE sBio sH sG hs (e2 step) s step p) (Except.ok t))
        = Except.ok t2 ∧
      stripTimings s2 = stripTimings t2 := by
  intro L
  induction L with
  | nil => exact fun s t h => ⟨s, t, rfl, rfl, h⟩
  | cons step L ih =>
    intro s t h
    rcases runStep_strip sB sE sBio sH sG hF hs (e1 step) (e2 step) s t step p h with
      ⟨s2, t2, hs2, ht2, h2⟩
    rcases ih s2 t2 h2 with ⟨s3, t3, hs3, ht3, h3⟩
    refine ⟨s3, t3, ?_, ?_, h3⟩
    · show (L.foldl _ (match (Except.ok s : Except String WorldState) with
        | .error e => .error e
        | .ok s => runStep sB sE sBio sH sG hs (e1 step) s step p)) = Except.ok s3
      rw [show (match (Except.ok s : Except String WorldState) with
        | .error e => .error e
        | .ok s => runStep sB sE sBio sH sG hs (e1 step) s step p)
          = runStep sB sE sBio sH sG hs (e1 step) s step p from rfl, hs2]
      exact hs3
    · show (L.foldl _ (match (Except.ok t : Except String WorldState) with
        | .error e => .error e
        | .ok s => runStep sB sE sBio sH sG hs (e2 step) s step p)) = Except.ok t3
      rw [show (match (Except.ok t : Except String WorldState) with
        | .error e => .error e
        | .ok s => runStep sB sE sBio sH sG hs (e2 step) s step p)
          = runStep sB sE sBio sH sG hs (e2 step) t step p from rfl, ht2]
      exact ht3

/-- C1: two `run_all_steps` runs on freshly constructed `WorldState::new(p)`
states produce identical `diagnostics.checksum` strings and byte-wise identical
contents in every layer grid, for every params value, every choice of the five
(pure) stage functions that do not read the wall-clock timing map, and any two
wall clocks `e1`, `e2` — the timing measurements are the only impure input and
do not influence any layer or the checksum. -/
theorem runAllSteps_deterministic
    (sB sE sBio sH sG : WorldState → GenerationParams → WorldState)
    (hs : Hashers) (e1 e2 : Step → ℚ) (p : GenerationParams)
    (hF : ∀ step q s t, stripTimings s = stripTimings t →
      stripTimings (dispatchStep sB sE sBio sH sG step s q)
        = stripTimings (dispatchStep sB sE sBio sH sG step t q)) :
    ∃ s1 s2,
      runAllSteps sB sE sBio sH sG hs e1 (WorldState.new p) p = Except.ok s1 ∧
      runAllSteps sB sE sBio sH sG hs e2 (WorldState.new p) p = Except.ok s2 ∧
      s1.diagnostics.checksum = s2.diagnostics.checksum ∧
      s1.diagnostics.layer_hashes = s2.diagnostics.layer_hashes ∧
      s1.elevation = s2.elevation ∧ s1.temperature = s2.temperature ∧
      s1.rainfall = s2.rainfall ∧ s1.pressure = s2.pressure ∧
      s1.wind_u = s2.wind_u ∧ s1.wind_v = s2.wind_v ∧
      s1.flow_dir = s2.flow_dir ∧ s1.accumulation = s2.accumulation ∧
      s1.discharge = s2.discharge ∧ s1.river_class = s2.river_class ∧
      s1.lake_id = s2.lake_id ∧ s1.ocean_mask = s2.ocean_mask ∧
      s1.biome = s2.biome ∧ s1.fertility = s2.fertility ∧
      s1.geologic_province = s2.geologic_province ∧ s1.strata = s2.strata ∧
      s1.rock_type = s2.rock_type ∧ s1.mineral_masks = s2.mineral_masks := by
  rcases foldSteps_strip sB sE sBio sH sG hF hs e1 e2 p Step.ALL
    (WorldState.new p) (WorldState.new p) rfl with ⟨s1, s2, h1, h2, hstrip⟩
  refine ⟨s1, s2, h1, h2, ?_, ?_, ?_, ?_, ?_, ?_, ?_, ?_, ?_, ?_, ?_, ?_, ?_, ?_, ?_, ?_,
    ?_, ?_, ?_, ?_⟩
  · have hx := congrArg (fun z : WorldState => z.diagnostics.checksum) hstrip
    exact hx
  · have hx := congrArg (fun z : WorldState => z.diagnostics.layer_hashes) hstrip
    exact hx
  · have hx := congrArg (fun z : WorldState => z.elevation) hstrip
    exact hx
  · have hx := congrArg (fun z : WorldState => z.temperature) hstrip
    exact hx
  · have hx := congrArg (fun z : WorldState => z.rainfall) hstrip
    exact hx
  · have hx := congrArg (fun z : WorldState => z.pressure) hstrip
    exact hx
  · have hx := congrArg (fun z : WorldState => z.wind_u) hstrip
    exact hx
  · have hx := congrArg (fun z : WorldState => z.wind_v) hstrip
    exact hx
  · have hx := congrArg (fun z : WorldState => z.flow_dir) hstrip
    exact hx
  · have hx := congrArg (fun z : WorldState => z.accumulation) hstrip
    exact hx
  · have hx := congrArg (fun z : WorldState => z.discharge) hstrip
    exact hx
  · have hx := congrArg (fun z : WorldState => z.river_class) hstrip
    exact hx
  · have hx := congrArg (fun z : WorldState => z.lake_id) hstrip
    exact hx
  · have hx := congrArg (fun z : WorldState => z.ocean_mask) hstrip
    exact hx
  · have hx := congrArg (fun z : WorldState => z.biome) hstrip
    exact hx
  · have hx := congrArg (fun z : WorldState => z.fertility) hstrip
    exact hx
  · have hx := congrArg (fun z : WorldState => z.geologic_province) hstrip
    exact hx
  · have hx := congrArg (fun z : WorldState => z.strata) hstrip
    exact hx
  · have hx := congrArg (fun z : WorldState => z.rock_type) hstrip
    exact hx
  · have hx := congrArg (fun z : WorldState => z.mineral_masks) hstrip
    exact hx

/-- C1 witness: concrete instantiation with two different wall clocks. -/
theorem runAllSteps_deterministic_witness :
    ∃ s1 s2,
      runAllSteps idStage idStage idStage idStage idStage trivialHashers (fun _ => 0)
        (WorldState.new GenerationParams.default) GenerationParams.default = Except.ok s1 ∧
      runAllSteps idStage idStage idStage idStage idStage trivialHashers (fun _ => 1)
        (WorldState.new GenerationParams.default) GenerationParams.default = Except.ok s2 ∧
      s1.diagnostics.checksum = s2.diagnostics.checksum ∧
      s1.diagnostics.layer_hashes = s2.diagnostics.layer_hashes ∧
      s1.elevation = s2.elevation ∧ s1.temperature = s2.temperature ∧
      s1.rainfall = s2.rainfall ∧ s1.pressure = s2.pressure ∧
      s1.wind_u = s2.wind_u ∧ s1.wind_v = s2.wind_v ∧
      s1.flow_dir = s2.flow_dir ∧ s1.accumulation = s2.accumulation ∧
      s1.discharge = s2.discharge ∧ s1.river_class = s2.river_class ∧
      s1.lake_id = s2.lake_id ∧ s1.ocean_mask = s2.ocean_mask ∧
      s1.biome = s2.biome ∧ s1.fertility = s2.fertility ∧
      s1.geologic_province = s2.geologic_province ∧ s1.strata = s2.strata ∧
      s1.rock_type = s2.rock_type ∧ s1.mineral_masks = s2.mineral_masks :=
  runAllSteps_deterministic idStage idStage idStage idStage idStage trivialHashers
    (fun _ => 0) (fun _ => 1) GenerationParams.default
    (fun step _ s t h => by cases step <;> exact h)

/-! ## C9 -/

/-- Every weight gathered by the target loop of `compute_accumulation` is
`pw` of a strictly positive slope, at an in-bounds neighbor coordinate. -/
theorem lowerNeighborWeights_shape (pw : ℚ → ℚ) (e : Grid ℚ) (x y : ℕ) :
    ∀ t ∈ lowerNeighborWeights pw e x y,
      (∃ s : ℚ, 0 < s ∧ t.2 = pw s) ∧ t.1.1 < e.width ∧ t.1.2 < e.height := by
  unfold lowerNeighborWeights
  suffices h : ∀ (L : List (ℤ × ℤ)) (acc : List ((ℕ × ℕ) × ℚ)),
      (∀ t ∈ acc, (∃ s : ℚ, 0 < s ∧ t.2 = pw s) ∧ t.1.1 < e.width ∧ t.1.2 < e.height) →
      ∀ t ∈ L.foldl
        (fun ts d =>
          let nx := (x : ℤ) + d.1
          let ny := (y : ℤ) + d.2
          if e.inB nx ny then
            let nh := e.get nx.toNat ny.toNat
            let drp := e.get x y - nh
            if drp ≤ 0 then ts
            else
              let dist : ℚ := if d.1 ≠ 0 ∧ d.2 ≠ 0 then sqrt2f32 else 1
              ts ++ [((nx.toNat, ny.toNat), pw (drp / dist))]
          else ts) acc,
        (∃ s : ℚ, 0 < s ∧ t.2 = pw s) ∧ t.1.1 < e.width ∧ t.1.2 < e.height by
    exact fun t ht => h DIRS [] (by simp) t ht
  intro L
  induction L with
  | nil => exact fun acc hacc t ht => hacc t ht
  | cons d L ih =>
    intro acc hacc t ht
    refine ih _ ?_ t ht
    by_cases h1 : e.inB ((x : ℤ) + d.1) ((y : ℤ) + d.2)
    · by_cases h2 : e.get x y - e.get ((x : ℤ) + d.1).toNat ((y : ℤ) + d.2).toNat ≤ 0
      · simpa [h1, h2] using hacc
      · intro u hu
        simp only [h1, if_true, h2, if_false, List.mem_append, List.mem_singleton] at hu
        rcases hu with hu | hu
        · exact hacc u hu
        · subst hu
          refine ⟨⟨(e.get x y - e.get ((x : ℤ) + d.1).toNat ((y : ℤ) + d.2).toNat) /
            (if d.1 ≠ 0 ∧ d.2 ≠ 0 then sqrt2f32 else 1), ?_, rfl⟩, ?_⟩
          · apply div_pos (by linarith [not_le.1 h2])
            by_cases h3 : d.1 ≠ 0 ∧ d.2 ≠ 0
            · rw [if_pos h3]
              norm_num [sqrt2f32]
            · rw [if_neg h3]
              norm_num
          · simp only [Grid.inB, Bool.and_eq_true, decide_eq_true_eq] at h1
            dsimp only
            constructor <;> omega
    · simpa [h1] using hacc

/-- C9: in `compute_accumulation`, for every cell with at least one in-bounds
strictly lower neighbor (a nonempty target list), the flow-weight fractions
`w / wsum` over its lower neighbors sum to exactly 1, so the cell's entire
current accumulation is distributed downslope.  `pw` models `powf(·, 1.15)`,
required only to send positive slopes to positive weights. -/
theorem mfd_fractions_sum_one (pw : ℚ → ℚ) (e : Grid ℚ) (x y : ℕ)
    (hpw : ∀ s : ℚ, 0 < s → 0 < pw s)
    (hne : lowerNeighborWeights pw e x y ≠ []) :
    ((lowerNeighborWeights pw e x y).map
      (fun t => t.2 / ((lowerNeighborWeights pw e x y).map fun u => u.2).sum)).sum = 1 := by
  set ts := lowerNeighborWeights pw e x y with hts
  set S := (ts.map fun u => u.2).sum with hS
  have hpos : ∀ t ∈ ts, 0 < t.2 := by
    intro t ht
    rcases lowerNeighborWeights_shape pw e x y t (hts ▸ ht) with ⟨⟨s, hs, hteq⟩, _, _⟩
    rw [hteq]
    exact hpw s hs
  have hSpos : 0 < S := by
    rw [hS]
    refine List.sum_pos _ ?_ ?_
    · intro v hv
      rcases List.mem_map.1 hv with ⟨t, ht, rfl⟩
      exact hpos t ht
    · simpa using hne
  have hmm : (ts.map fun t => t.2 / S) = (ts.map fun u => u.2).map fun v => v * S⁻¹ := by
    rw [List.map_map]
    refine List.map_congr_left ?_
    intro t _
    simp [div_eq_mul_inv]
  rw [hmm, List.sum_map_mul_right]
  simp only [List.map_id']
  rw [← hS, ← div_eq_mul_inv]
  exact div_self (ne_of_gt hSpos)

/-- C9 witness: a 2×1 grid whose left cell has one strictly lower neighbor. -/
theorem mfd_fractions_sum_one_witness :
    (lowerNeighborWeights (fun s => s) (⟨2, 1, [1, 0]⟩ : Grid ℚ) 0 0 ≠ []) ∧
    ((lowerNeighborWeights (fun s => s) (⟨2, 1, [1, 0]⟩ : Grid ℚ) 0 0).map
      (fun t => t.2 / ((lowerNeighborWeights (fun s => s) (⟨2, 1, [1, 0]⟩ : Grid ℚ) 0 0).map
        fun u => u.2).sum)).sum = 1 :=
  ⟨by with_unfolding_all decide, mfd_fractions_sum_one (fun s => s) ⟨2, 1, [1, 0]⟩ 0 0
    (fun _ hs => hs) (by with_unfolding_all decide)⟩

/-! ## C3 -/

set_option maxHeartbeats 1000000 in
/-- `classify` returns `Ocean` exactly on cells at or below sea level. -/
theorem classify_eq_ocean_iff (t r e w sea : ℚ) (l : Bool) :
    classify t r e w sea l = Biome.Ocean ↔ e ≤ sea := by
  unfold classify
  split_ifs <;> simp_all

/-- The biome written by the classification loop at an in-bounds cell. -/
theorem classifyPass_biome_get (L : ℚ → ℚ) (st : WorldState) (p : GenerationParams)
    (hWF : st.biome.WF) (hw : st.biome.width = st.width) (hh : st.biome.height = st.height)
    (x y : ℕ) (hx : x < st.width) (hy : y < st.height) :
    (classifyPass L st p).biome.get x y
      = classify (st.temperature.get x y) (st.rainfall.get x y) (st.elevation.get x y)
          (wetness L st x y p.biomes.wetness_weight) st.params.base.sea_level
          (st.lake_id.get x y > 0) := by
  show (Grid.setEach st.biome (allCoords st.width st.height) _).get x y = _
  rw [Grid.get_setEach st.biome _ _ hWF
      (fun c hc => by rw [hw, hh]; exact mem_allCoords.1 hc)
      (nodup_allCoords _ _) (x, y) (by rw [hw, hh]; exact ⟨hx, hy⟩)]
  rw [if_pos (mem_allCoords.2 ⟨hx, hy⟩)]

/-- The fold of `smooth_biomes` keeps grid dimensions and well-formedness, and
never rewrites a cell whose current biome is `Ocean`. -/
theorem smooth_fold_ocean (bio : Grid Biome) :
    ∀ (l : List (ℕ × ℕ)) (o : Grid Biome),
      (∀ c ∈ l, c.1 < bio.width ∧ c.2 < bio.height) →
      o.width = bio.width → o.height = bio.height → o.WF →
      (∀ x y, x < bio.width → y < bio.height →
        bio.get x y = Biome.Ocean → o.get x y = Biome.Ocean) →
      (smoothFold bio l o).width = bio.width ∧ (smoothFold bio l o).height = bio.height ∧
      (smoothFold bio l o).WF ∧
      (∀ x y, x < bio.width → y < bio.height →
        bio.get x y = Biome.Ocean → (smoothFold bio l o).get x y = Biome.Ocean) := by
  intro l
  induction l with
  | nil => exact fun o _ h1 h2 h3 h4 => ⟨h1, h2, h3, h4⟩
  | cons c0 l ih =>
    intro o hl h1 h2 h3 h4
    by_cases hc : bio.get c0.1 c0.2 = Biome.Ocean ∨ bio.get c0.1 c0.2 = Biome.Lake
    · have hstep : smoothFold bio (c0 :: l) o = smoothFold bio l o := by
        simp only [smoothFold, List.foldl_cons, hc, if_true]
      rw [hstep]
      exact ih o (fun c hcm => hl c (List.mem_cons_of_mem _ hcm)) h1 h2 h3 h4
    · have hstep : smoothFold bio (c0 :: l) o
          = smoothFold bio l (o.set c0.1 c0.2 (majorityVote bio c0.1 c0.2)) := by
        simp only [smoothFold, List.foldl_cons, hc, if_false]
      rw [hstep]
      have hc0 := hl c0 (List.mem_cons_self _ _)
      refine ih _ (fun c hcm => hl c (List.mem_cons_of_mem _ hcm))
        (by rw [Grid.width_set]; exact h1) (by rw [Grid.height_set]; exact h2)
        (Grid.WF_set _ _ _ _ h3) ?_
      intro x y hx hy hoc
      have hne : (x, y) ≠ c0 := by
        intro he
        rw [← he] at hc
        exact hc (Or.inl hoc)
      have hgidx : o.gidx c0.1 c0.2 ≠ o.gidx x y := by
        intro he
        have h5 := Grid.gidx_inj o (h1 ▸ hc0.1) (h1 ▸ hx) he
        exact hne (Prod.ext h5.1.symm h5.2.symm)
      rw [Grid.get_set_ne o c0.1 c0.2 x y _ hgidx]
      exact h4 x y hx hy hoc

/-- `smooth_biomes` leaves every `Ocean` cell `Ocean` and does not change the
elevation layer, dimensions or well-formedness of the biome grid. -/
theorem smoothBiomes_preserves (st : WorldState) (hWF : st.biome.WF)
    (hw : st.biome.width = st.width) (hh : st.biome.height = st.height) :
    (smoothBiomes st).biome.width = st.biome.width ∧
    (smoothBiomes st).biome.height = st.biome.height ∧
    (smoothBiomes st).biome.WF ∧
    (∀ x y, x < st.biome.width → y < st.biome.height →
      st.biome.get x y = Biome.Ocean → (smoothBiomes st).biome.get x y = Biome.Ocean) := by
  refine smooth_fold_ocean st.biome (interiorCoords st.width st.height) st.biome
    (fun c hc => ?_) rfl rfl hWF (fun x y _ _ h => h)
  rcases mem_interiorCoords.1 hc with ⟨⟨_, hx1⟩, _, hy1⟩
  omega

/-- `smooth_biomes` iterated `n` times: dimensions, elevation, params are
untouched and Ocean cells stay Ocean. -/
theorem smoothLoop_props : ∀ (n : ℕ) (s : WorldState), s.biome.WF →
    s.biome.width = s.width → s.biome.height = s.height →
    (smoothLoop n s).width = s.width ∧ (smoothLoop n s).height = s.height ∧
    (smoothLoop n s).elevation = s.elevation ∧ (smoothLoop n s).params = s.params ∧
    (∀ x y, x < s.width → y < s.height → s.biome.get x y = Biome.Ocean →
      (smoothLoop n s).biome.get x y = Biome.Ocean) := by
  intro n
  induction n with
  | zero => exact fun s _ _ _ => ⟨rfl, rfl, rfl, rfl, fun _ _ _ _ h => h⟩
  | succ n ih =>
    intro s hWF hw hh
    rcases smoothBiomes_preserves s hWF hw hh with ⟨h1, h2, h3, h4⟩
    have hsw : (smoothBiomes s).width = s.width := rfl
    have hsh : (smoothBiomes s).height = s.height := rfl
    rcases ih (smoothBiomes s) h3 (by rw [h1, hsw]; exact hw) (by rw [h2, hsh]; exact hh)
      with ⟨i1, i2, i3, i4, i5⟩
    have hstep : smoothLoop (n + 1) s = smoothLoop n (smoothBiomes s) := rfl
    rw [hstep]
    refine ⟨by rw [i1]; exact hsw, by rw [i2]; exact hsh, by rw [i3]; exact rfl,
      by rw [i4]; exact rfl, ?_⟩
    intro x y hx hy hoc
    exact i5 x y hx hy (h4 x y (hw ▸ hx) (hh ▸ hy) hoc)

/-- C3 counterexample state: a 3×3 world, one land cell (elevation 0.9) in the
center, ocean (elevation 0.1) all around, one smoothing pass,
`wetness_weight = 0`. -/
def c3params : GenerationParams :=
  { GenerationParams.default with
    biomes := { smoothing_passes := 1, wetness_weight := 0 } }

def c3state : WorldState :=
  testState 3 3 [1/10, 1/10, 1/10, 1/10, 9/10, 1/10, 1/10, 1/10, 1/10]
    (List.replicate 9 0) c3params

/-- C3 counterexample: after `biomes::run` with one smoothing pass, the center
cell of `c3state` has `biome = Ocean` although its elevation `0.9` is above
`sea_level = 0.5` — the majority vote flips a land cell to Ocean, breaking the
claimed equivalence for `smoothing_passes ≥ 1`.  (The counterexample is
independent of the `log10` stub since `wetness_weight = 0`.) -/
theorem smoothing_flips_land_to_ocean_counterexample :
    (biomesRun (fun _ => 0) c3state c3params).biome.get 1 1 = Biome.Ocean ∧
    (biomesRun (fun _ => 0) c3state c3params).elevation.get 1 1
      > c3state.params.base.sea_level := by
  constructor <;> with_unfolding_all decide

/-- C3 amended: after `biomes::run`, every in-bounds cell with
`elevation ≤ sea_level` (the state-params sea level the classification reads)
has `biome = Ocean`; and when `smoothing_passes = 0` the full equivalence
`biome = Ocean ↔ elevation ≤ sea_level` holds.  For `smoothing_passes ≥ 1` the
forward implication can fail (majority vote may flip a land cell to Ocean), as
the counterexample shows. -/
theorem biomesRun_ocean_iff (L : ℚ → ℚ) (st : WorldState) (p : GenerationParams)
    (hWF : st.biome.WF) (hw : st.biome.width = st.width) (hh : st.biome.height = st.height) :
    (∀ x y, x < st.width → y < st.height →
      st.elevation.get x y ≤ st.params.base.sea_level →
      (biomesRun L st p).biome.get x y = Biome.Ocean) ∧
    (p.biomes.smoothing_passes = 0 →
      ∀ x y, x < st.width → y < st.height →
        ((biomesRun L st p).biome.get x y = Biome.Ocean ↔
          st.elevation.get x y ≤ st.params.base.sea_level)) := by
  have hb1 : (classifyPass L st p).biome.WF := Grid.WF_setEach _ _ _ hWF
  have hb2 : (classifyPass L st p).biome.width = (classifyPass L st p).width := by
    show (Grid.setEach st.biome _ _).width = st.width
    rw [Grid.width_setEach]
    exact hw
  have hb3 : (classifyPass L st p).biome.height = (classifyPass L st p).height := by
    show (Grid.setEach st.biome _ _).height = st.height
    rw [Grid.height_setEach]
    exact hh
  have hrun : biomesRun L st p = smoothLoop p.biomes.smoothing_passes (classifyPass L st p) :=
    rfl
  constructor
  · intro x y hx hy hsea
    rcases smoothLoop_props p.biomes.smoothing_passes (classifyPass L st p) hb1 hb2 hb3
      with ⟨_, _, _, _, hpres⟩
    rw [hrun]
    refine hpres x y hx hy ?_
    rw [classifyPass_biome_get L st p hWF hw hh x y hx hy]
    exact (classify_eq_ocean_iff _ _ _ _ _ _).2 hsea
  · intro h0 x y hx hy
    rw [hrun, h0]
    have hz : smoothLoop 0 (classifyPass L st p) = classifyPass L st p := rfl
    rw [hz, classifyPass_biome_get L st p hWF hw hh x y hx hy]
    exact classify_eq_ocean_iff _ _ _ _ _ _

/-- C3 witness: the amended theorem at a concrete 3×3 state. -/
theorem biomesRun_ocean_iff_witness :
    (biomesRun (fun _ => 0) c3state c3params).biome.get 0 0 = Biome.Ocean :=
  (biomesRun_ocean_iff (fun _ => 0) c3state c3params (Grid.WF_new 3 3 Biome.Ocean)
    rfl rfl).1 0 0 (by decide) (by decide) (by with_unfolding_all decide)

/-! ## C5 -/

/-- A written grid cell reads back either the written value or the old value. -/
theorem Grid.get_set_cases [Inhabited α] (g : Grid α) (a b x y : ℕ) (v : α) :
    (g.set a b v).get x y = v ∨ (g.set a b v).get x y = g.get x y := by
  by_cases heq : g.gidx a b = g.gidx x y
  · by_cases hlt : g.gidx x y < g.data.length
    · left
      show (g.data.set (g.gidx a b) v).getD (g.gidx x y) default = v
      rw [heq]
      simp [List.getD, List.getElem?_set_self hlt]
    · right
      have h1 : (g.set a b v).get x y = default := by
        apply Grid.get_oob
        show ¬ (g.gidx x y) < (g.data.set (g.gidx a b) v).length
        simpa using hlt
      rw [h1, Grid.get_oob g x y hlt]
  · right
    exact Grid.get_set_ne g a b x y v heq

/-- Dimensions, well-formedness and a pointwise lower bound survive one
`fill_depressions` cell update. -/
theorem fillCell_props (sea : ℚ) (acc : Grid ℚ × Bool) (c : ℕ × ℕ)
    (h0 : ∀ x y, 0 ≤ acc.1.get x y) :
    (fillCell sea acc c).1.width = acc.1.width ∧
    (fillCell sea acc c).1.height = acc.1.height ∧
    ((fillCell sea acc c).1.data.length = acc.1.data.length) ∧
    (∀ x y, 0 ≤ (fillCell sea acc c).1.get x y) := by
  unfold fillCell
  by_cases h1 : acc.1.get c.1 c.2 ≤ sea
  · simp only [h1, if_true]
    exact ⟨trivial, trivial, trivial, h0⟩
  · simp only [h1, if_false]
    have hmin : 0 ≤ DIRS.foldl
        (fun m d => min m (acc.1.get ((c.1 : ℤ) + d.1).toNat ((c.2 : ℤ) + d.2).toNat)) f32MAX := by
      have hgen : ∀ (l : List (ℤ × ℤ)) (m : ℚ), 0 ≤ m →
          0 ≤ l.foldl
            (fun m d => min m (acc.1.get ((c.1 : ℤ) + d.1).toNat ((c.2 : ℤ) + d.2).toNat)) m := by
        intro l
        induction l with
        | nil => exact fun m hm => hm
        | cons d l ih =>
          intro m hm
          exact ih _ (le_min hm (h0 _ _))
      exact hgen DIRS f32MAX (by norm_num [f32MAX])
    by_cases h2 : acc.1.get c.1 c.2 < DIRS.foldl
        (fun m d => min m (acc.1.get ((c.1 : ℤ) + d.1).toNat ((c.2 : ℤ) + d.2).toNat)) f32MAX
    · simp only [h2, if_true]
      refine ⟨rfl, rfl, by simp [Grid.set], ?_⟩
      intro x y
      rcases Grid.get_set_cases acc.1 c.1 c.2 x y _ with h | h <;> rw [h]
      · have : (0 : ℚ) < 1/100000 := by norm_num
        linarith
      · exact h0 x y
    · simp only [h2, if_false]
      exact ⟨trivial, trivial, trivial, h0⟩

/-- `fill_depressions` sweeps preserve dimensions, buffer length and
nonnegativity of the elevation grid. -/
theorem fillSweepFold_props (sea : ℚ) :
    ∀ (l : List (ℕ × ℕ)) (acc : Grid ℚ × Bool), (∀ x y, 0 ≤ acc.1.get x y) →
      (l.foldl (fillCell sea) acc).1.width = acc.1.width ∧
      (l.foldl (fillCell sea) acc).1.height = acc.1.height ∧
      ((l.foldl (fillCell sea) acc).1.data.length = acc.1.data.length) ∧
      (∀ x y, 0 ≤ (l.foldl (fillCell sea) acc).1.get x y) := by
  intro l
  induction l with
  | nil => exact fun acc h0 => ⟨rfl, rfl, rfl, h0⟩
  | cons c l ih =>
    intro acc h0
    rcases fillCell_props sea acc c h0 with ⟨p1, p2, p3, p4⟩
    rcases ih (fillCell sea acc c) p4 with ⟨q1, q2, q3, q4⟩
    exact ⟨by rw [List.foldl_cons, q1, p1], by rw [List.foldl_cons, q2, p2],
      by rw [List.foldl_cons, q3, p3], by rw [List.foldl_cons]; exact q4⟩

/-- The `fill_depressions` sweep loop preserves the same properties. -/
theorem fillLoop_props (sea : ℚ) (w h : ℕ) :
    ∀ (n : ℕ) (e : Grid ℚ), (∀ x y, 0 ≤ e.get x y) →
      (fillLoop sea w h n e).width = e.width ∧
      (fillLoop sea w h n e).height = e.height ∧
      ((fillLoop sea w h n e).data.length = e.data.length) ∧
      (∀ x y, 0 ≤ (fillLoop sea w h n e).get x y) := by
  intro n
  induction n with
  | zero => exact fun e h0 => ⟨rfl, rfl, rfl, h0⟩
  | succ n ih =>
    intro e h0
    rcases fillSweepFold_props sea (interiorCoords w h) (e, false) h0 with ⟨p1, p2, p3, p4⟩
    have hstep : fillLoop sea w h (n + 1) e
        = if (fillSweep sea w h e).2 then fillLoop sea w h n (fillSweep sea w h e).1
          else (fillSweep sea w h e).1 := rfl
    rw [hstep]
    by_cases hc : (fillSweep sea w h e).2
    · simp only [hc, if_true]
      rcases ih (fillSweep sea w h e).1 p4 with ⟨q1, q2, q3, q4⟩
      exact ⟨by rw [q1]; exact p1, by rw [q2]; exact p2, by rw [q3]; exact p3, q4⟩
    · simp only [hc, if_false]
      exact ⟨p1, p2, p3, p4⟩

/-- The direction selected by `compute_flow_d8` is a `DIRS` index or the sink
sentinel 255. -/
theorem flowDirAt_valid (seed : ℕ) (e : Grid ℚ) (x y : ℕ) :
    flowDirAt seed e x y < 8 ∨ flowDirAt seed e x y = 255 := by
  unfold flowDirAt
  suffices h : ∀ (L : List (ℕ × ℤ × ℤ)) (best : ℚ × ℚ × ℕ),
      (∀ p ∈ L, p.1 < 8) → (best.2.2 < 8 ∨ best.2.2 = 255) →
      ((L.foldl
        (fun best (idd : ℕ × ℤ × ℤ) =>
          let i : ℕ := idd.1
          let d := idd.2
          let nx := (x : ℤ) + d.1
          let ny := (y : ℤ) + d.2
          if e.inB nx ny then
            let nh := e.get nx.toNat ny.toNat
            let drp := e.get x y - nh
            if drp ≤ 0 then best
            else
              let dist : ℚ := if d.1 ≠ 0 ∧ d.2 ≠ 0 then sqrt2f32 else 1
              let metric := drp / dist
              let tie := hash2d (Nat.xor seed 0xBADC0FFE) (nx + (i : ℤ)) (ny - (i : ℤ))
              if metric > best.1 + 1/100000000 ∨
                  (|metric - best.1| ≤ 1/100000000 ∧ tie > best.2.1)
              then (metric, tie, (i : ℕ))
              else best
          else best) best).2.2 < 8 ∨ (L.foldl _ best).2.2 = 255) by
    exact h DIRS.enum ((0 : ℚ), (0 : ℚ), (255 : ℕ)) (by decide) (Or.inr rfl)
  intro L
  induction L with
  | nil => exact fun best _ hb => hb
  | cons p L ih =>
    intro best hL hb
    rw [List.foldl_cons]
    refine ih _ (fun q hq => hL q (List.mem_cons_of_mem _ hq)) ?_
    have hp := hL p (List.mem_cons_self _ _)
    dsimp only
    repeat' split
    all_goals first | exact hb | exact Or.inl hp

/-- The distribution loop of `compute_accumulation` preserves dimensions,
buffer length, unconditional nonnegativity, and the in-bounds lower bound 1. -/
theorem accumDistribute_props (q wsum : ℚ) (hq : 0 ≤ q) (hw : 0 < wsum) :
    ∀ (ts : List ((ℕ × ℕ) × ℚ)) (a : Grid ℚ),
      (∀ t ∈ ts, 0 ≤ t.2 ∧ t.1.1 < a.width ∧ t.1.2 < a.height) →
      (∀ x y, 0 ≤ a.get x y) →
      (∀ x y, x < a.width → y < a.height → 1 ≤ a.get x y) →
      (accumDistribute q wsum ts a).width = a.width ∧
      (accumDistribute q wsum ts a).height = a.height ∧
      ((accumDistribute q wsum ts a).data.length = a.data.length) ∧
      (∀ x y, 0 ≤ (accumDistribute q wsum ts a).get x y) ∧
      (∀ x y, x < a.width → y < a.height → 1 ≤ (accumDistribute q wsum ts a).get x y) := by
  intro ts
  induction ts with
  | nil => exact fun a _ h0 ha => ⟨rfl, rfl, rfl, h0, ha⟩
  | cons t ts ih =>
    intro a hts h0 ha
    have hstep : accumDistribute q wsum (t :: ts) a
        = accumDistribute q wsum ts (a.set t.1.1 t.1.2 (a.get t.1.1 t.1.2 + q * (t.2 / wsum)))
        := rfl
    rw [hstep]
    rcases hts t (List.mem_cons_self _ _) with ⟨ht2, htx, hty⟩
    have hval : 1 ≤ a.get t.1.1 t.1.2 + q * (t.2 / wsum) := by
      have h1 : 1 ≤ a.get t.1.1 t.1.2 := ha _ _ htx hty
      have h2 : 0 ≤ q * (t.2 / wsum) :=
        mul_nonneg hq (div_nonneg ht2 (le_of_lt hw))
      linarith
    rcases ih (a.set t.1.1 t.1.2 (a.get t.1.1 t.1.2 + q * (t.2 / wsum)))
      (fun u hu => by
        rcases hts u (List.mem_cons_of_mem _ hu) with ⟨hu2, hux, huy⟩
        exact ⟨hu2, by rw [Grid.width_set]; exact hux, by rw [Grid.height_set]; exact huy⟩)
      (fun x y => by
        rcases Grid.get_set_cases a t.1.1 t.1.2 x y (a.get t.1.1 t.1.2 + q * (t.2 / wsum))
          with h | h <;> rw [h]
        · linarith
        · exact h0 x y)
      (fun x y hx hy => by
        rcases Grid.get_set_cases a t.1.1 t.1.2 x y (a.get t.1.1 t.1.2 + q * (t.2 / wsum))
          with h | h <;> rw [h]
        · exact hval
        · exact ha x y (by rw [Grid.width_set] at hx; exact hx)
            (by rw [Grid.height_set] at hy; exact hy))
      with ⟨i1, i2, i3, i4, i5⟩
    refine ⟨by rw [i1]; rfl, by rw [i2]; rfl, by rw [i3]; simp [Grid.set], i4, ?_⟩
    intro x y hx hy
    exact i5 x y (by rw [Grid.width_set]; exact hx) (by rw [Grid.height_set]; exact hy)

/-- One `compute_accumulation` cell step preserves dimensions, nonnegativity
and the in-bounds lower bound 1; `pw` need only be nonnegative on positive
slopes. -/
theorem accumCell_props (pw : ℚ → ℚ) (hpw : ∀ s : ℚ, 0 < s → 0 ≤ pw s) (e : Grid ℚ)
    (a : Grid ℚ) (c : ℕ × ℕ)
    (hew : e.width = a.width) (heh : e.height = a.height)
    (h0 : ∀ x y, 0 ≤ a.get x y)
    (ha : ∀ x y, x < a.width → y < a.height → 1 ≤ a.get x y) :
    (accumCell pw e a c).width = a.width ∧
    (accumCell pw e a c).height = a.height ∧
    ((accumCell pw e a c).data.length = a.data.length) ∧
    (∀ x y, 0 ≤ (accumCell pw e a c).get x y) ∧
    (∀ x y, x < a.width → y < a.height → 1 ≤ (accumCell pw e a c).get x y) := by
  unfold accumCell
  by_cases hif : (lowerNeighborWeights pw e c.1 c.2).length = 0 ∨
      ((lowerNeighborWeights pw e c.1 c.2).map fun t => t.2).sum ≤ 0
  · simp only [hif, if_true]
    exact ⟨trivial, trivial, trivial, h0, ha⟩
  · simp only [hif, if_false]
    push_neg at hif
    exact accumDistribute_props (a.get c.1 c.2) _ (h0 c.1 c.2) hif.2
      (lowerNeighborWeights pw e c.1 c.2) a
      (fun t ht => by
        rcases lowerNeighborWeights_shape pw e c.1 c.2 t ht with ⟨⟨s, hs, hteq⟩, hbx, hby⟩
        exact ⟨hteq ▸ hpw s hs, hew ▸ hbx, heh ▸ hby⟩)
      h0 ha

/-- The elevation-ordered traversal of `compute_accumulation` preserves the
same properties. -/
theorem accumFold_props (pw : ℚ → ℚ) (hpw : ∀ s : ℚ, 0 < s → 0 ≤ pw s) (e : Grid ℚ) :
    ∀ (l : List ((ℕ × ℕ) × ℚ)) (a : Grid ℚ),
      e.width = a.width → e.height = a.height →
      (∀ x y, 0 ≤ a.get x y) →
      (∀ x y, x < a.width → y < a.height → 1 ≤ a.get x y) →
      (l.foldl (fun (a : Grid ℚ) ce => accumCell pw e a ce.1) a).width = a.width ∧
      (l.foldl (fun (a : Grid ℚ) ce => accumCell pw e a ce.1) a).height = a.height ∧
      ((l.foldl (fun (a : Grid ℚ) ce => accumCell pw e a ce.1) a).data.length
        = a.data.length) ∧
      (∀ x y, x < a.width → y < a.height →
        1 ≤ (l.foldl (fun (a : Grid ℚ) ce => accumCell pw e a ce.1) a).get x y) := by
  intro l
  induction l with
  | nil => exact fun a _ _ _ ha => ⟨rfl, rfl, rfl, ha⟩
  | cons ce l ih =>
    intro a hew heh h0 ha
    rw [List.foldl_cons]
    rcases accumCell_props pw hpw e a ce.1 hew heh h0 ha with ⟨p1, p2, p3, p4, p5⟩
    rcases ih (accumCell pw e a ce.1) (by rw [p1]; exact hew) (by rw [p2]; exact heh) p4
      (fun x y hx hy => p5 x y (p1 ▸ hx) (p2 ▸ hy))
      with ⟨q1, q2, q3, q4⟩
    exact ⟨by rw [q1, p1], by rw [q2, p2], by rw [q3, p3],
      fun x y hx hy => q4 x y (p1 ▸ hx) (p2 ▸ hy)⟩

/-- A pointwise property of every buffer element transfers to every read,
provided the default value satisfies it too. -/
theorem Grid.get_prop_of_data [Inhabited α] (P : α → Prop) (g : Grid α)
    (hd : ∀ v ∈ g.data, P v) (h0 : P default) : ∀ x y, P (g.get x y) := by
  intro x y
  by_cases hlt : g.gidx x y < g.data.length
  · have h1 : g.get x y = g.data[g.gidx x y] := by
      show g.data.getD _ default = _
      rw [List.getD_eq_getElem?_getD, List.getElem?_eq_getElem hlt]
      rfl
    rw [h1]
    exact hd _ (List.getElem_mem hlt)
  · rw [Grid.get_oob g x y hlt]
    exact h0

/-- A filled grid reads back the fill value or the default. -/
theorem Grid.get_fill_cases [Inhabited α] (g : Grid α) (v : α) (x y : ℕ) :
    (g.fill v).get x y = v ∨ (g.fill v).get x y = default := by
  by_cases hlt : g.gidx x y < g.data.length
  · left
    exact Grid.get_fill g v x y hlt
  · right
    apply Grid.get_oob
    show ¬ g.gidx x y < (g.data.map fun _ => v).length
    simpa using hlt

/-- When a loop writes every cell of a well-formed grid, every buffer element
of the result is a written value. -/
theorem Grid.setEach_data_mem [Inhabited α] (g : Grid α) (f : ℕ × ℕ → α) (hwf : g.WF) :
    ∀ v ∈ (Grid.setEach g (allCoords g.width g.height) f).data,
      ∃ c : ℕ × ℕ, c.1 < g.width ∧ c.2 < g.height ∧ v = f c := by
  intro v hv
  rcases List.getElem_of_mem hv with ⟨i, hi, hiv⟩
  have hlen : (Grid.setEach g (allCoords g.width g.height) f).data.length
      = g.width * g.height := by
    have h1 := Grid.WF_setEach g (allCoords g.width g.height) f hwf
    unfold Grid.WF at h1
    rw [h1, Grid.width_setEach, Grid.height_setEach]
  have hWpos : 0 < g.width := by
    rcases Nat.eq_zero_or_pos g.width with h | h
    · rw [hlen, h] at hi
      omega
    · exact h
  have hx : i % g.width < g.width := Nat.mod_lt _ hWpos
  have hy : i / g.width < g.height := by
    rw [hlen] at hi
    exact Nat.div_lt_of_lt_mul hi
  have hidx : g.gidx (i % g.width) (i / g.width) = i := by
    unfold Grid.gidx
    rw [Nat.mul_comm]
    exact Nat.div_add_mod i g.width
  have hget := Grid.get_setEach g (allCoords g.width g.height) f hwf
    (fun c hc => mem_allCoords.1 hc) (nodup_allCoords _ _)
    (i % g.width, i / g.width) ⟨hx, hy⟩
  rw [if_pos (mem_allCoords.2 ⟨hx, hy⟩)] at hget
  refine ⟨(i % g.width, i / g.width), hx, hy, ?_⟩
  rw [← hget]
  have hidx2 : (Grid.setEach g (allCoords g.width g.height) f).gidx
      (i % g.width) (i / g.width) = i := by
    unfold Grid.gidx
    rw [Grid.width_setEach]
    unfold Grid.gidx at hidx
    exact hidx
  show v = (Grid.setEach g (allCoords g.width g.height) f).data.getD _ default
  rw [List.getD_eq_getElem?_getD, hidx2, List.getElem?_eq_getElem hi, hiv]
  rfl

/-- A loop that writes only values satisfying `P` into a buffer whose elements
already satisfy `P` preserves `P` on every buffer element. -/
theorem Grid.setEach_data_preserve [Inhabited α] (P : α → Prop) (f : ℕ × ℕ → α)
    (hf : ∀ c, P (f c)) :
    ∀ (l : List (ℕ × ℕ)) (g : Grid α), (∀ v ∈ g.data, P v) →
      ∀ v ∈ (Grid.setEach g l f).data, P v := by
  intro l
  induction l with
  | nil => exact fun g hg => hg
  | cons c l ih =>
    intro g hg
    refine ih (g.set c.1 c.2 (f c)) ?_
    intro v hv
    rcases List.mem_or_eq_of_mem_set hv with h | h
    · exact hg v h
    · rw [h]
      exact hf c

/-- Shapes of the three grids the erosion stage touches, relative to the
state's dimensions. -/
def GridsWF (st : WorldState) : Prop :=
  st.elevation.WF ∧ st.elevation.width = st.width ∧ st.elevation.height = st.height ∧
  st.flow_dir.WF ∧ st.flow_dir.width = st.width ∧ st.flow_dir.height = st.height ∧
  st.accumulation.WF ∧ st.accumulation.width = st.width ∧ st.accumulation.height = st.height

theorem clampQ01_mem (v : ℚ) : 0 ≤ clampQ v 0 1 ∧ clampQ v 0 1 ≤ 1 :=
  ⟨le_min (le_max_right v 0) zero_le_one, min_le_right _ _⟩

theorem fillDepressions_props (sea : ℚ) (st : WorldState) (hW : GridsWF st)
    (h0 : ∀ x y, 0 ≤ st.elevation.get x y) :
    GridsWF (fillDepressions sea st) ∧
    (fillDepressions sea st).width = st.width ∧
    (fillDepressions sea st).height = st.height ∧
    (∀ x y, 0 ≤ (fillDepressions sea st).elevation.get x y) := by
  obtain ⟨e1, e2, e3, f1, f2, f3, a1, a2, a3⟩ := hW
  rcases fillLoop_props sea st.width st.height 8 st.elevation h0 with ⟨p1, p2, p3, p4⟩
  refine ⟨⟨?_, ?_, ?_, f1, f2, f3, a1, a2, a3⟩, rfl, rfl, p4⟩
  · show (fillLoop sea st.width st.height 8 st.elevation).WF
    unfold Grid.WF
    rw [p1, p2, p3]
    exact e1
  · show (fillLoop sea st.width st.height 8 st.elevation).width = st.width
    rw [p1]
    exact e2
  · show (fillLoop sea st.width st.height 8 st.elevation).height = st.height
    rw [p2]
    exact e3

theorem computeFlowD8_props (st : WorldState) (hW : GridsWF st) :
    GridsWF (computeFlowD8 st) ∧
    (computeFlowD8 st).width = st.width ∧ (computeFlowD8 st).height = st.height ∧
    (computeFlowD8 st).elevation = st.elevation ∧
    (computeFlowD8 st).accumulation = st.accumulation := by
  obtain ⟨e1, e2, e3, f1, f2, f3, a1, a2, a3⟩ := hW
  refine ⟨⟨e1, e2, e3, ?_, ?_, ?_, a1, a2, a3⟩, rfl, rfl, rfl, rfl⟩
  · show (Grid.setEach (st.flow_dir.fill 255) _ _).WF
    exact Grid.WF_setEach _ _ _ (Grid.WF_fill _ _ f1)
  · show (Grid.setEach (st.flow_dir.fill 255) _ _).width = st.width
    rw [Grid.width_setEach, Grid.width_fill]
    exact f2
  · show (Grid.setEach (st.flow_dir.fill 255) _ _).height = st.height
    rw [Grid.height_setEach, Grid.height_fill]
    exact f3

theorem computeAccumulation_props (pw : ℚ → ℚ) (st : WorldState)
    (hpw : ∀ s : ℚ, 0 < s → 0 ≤ pw s) (hW : GridsWF st) :
    GridsWF (computeAccumulation pw st) ∧
    (computeAccumulation pw st).width = st.width ∧
    (computeAccumulation pw st).height = st.height ∧
    (computeAccumulation pw st).elevation = st.elevation ∧
    (computeAccumulation pw st).flow_dir = st.flow_dir ∧
    (∀ x y, x < st.width → y < st.height →
      1 ≤ (computeAccumulation pw st).accumulation.get x y) ∧
    (computeAccumulation pw st).discharge = (computeAccumulation pw st).accumulation := by
  obtain ⟨e1, e2, e3, f1, f2, f3, a1, a2, a3⟩ := hW
  have hfw : (st.accumulation.fill 1).width = st.width := by rw [Grid.width_fill]; exact a2
  have hfh : (st.accumulation.fill 1).height = st.height := by rw [Grid.height_fill]; exact a3
  have hf0 : ∀ x y, 0 ≤ (st.accumulation.fill 1).get x y := by
    intro x y
    rcases Grid.get_fill_cases st.accumulation 1 x y with h | h <;> rw [h]
    · norm_num
    · exact le_refl 0
  have hf1 : ∀ x y, x < (st.accumulation.fill 1).width → y < (st.accumulation.fill 1).height →
      1 ≤ (st.accumulation.fill 1).get x y := by
    intro x y hx hy
    rw [Grid.width_fill] at hx
    rw [Grid.height_fill] at hy
    rw [Grid.get_fill st.accumulation 1 x y (Grid.gidx_lt _ a1 hx hy)]
  have hmain := accumFold_props pw hpw st.elevation
    (((allCoords st.width st.height).map fun c => (c, st.elevation.get c.1 c.2)).mergeSort
      fun a b => b.2 ≤ a.2)
    (st.accumulation.fill 1) (by rw [hfw]; exact e2) (by rw [hfh]; exact e3) hf0 hf1
  rcases hmain with ⟨q1, q2, q3, q4⟩
  have hacc : (computeAccumulation pw st).accumulation
      = (((allCoords st.width st.height).map fun c =>
          (c, st.elevation.get c.1 c.2)).mergeSort fun a b => b.2 ≤ a.2).foldl
        (fun (a : Grid ℚ) ce => accumCell pw st.elevation a ce.1)
        (st.accumulation.fill 1) := rfl
  refine ⟨⟨e1, e2, e3, f1, f2, f3, ?_, ?_, ?_⟩, rfl, rfl, rfl, rfl, ?_, rfl⟩
  · show (computeAccumulation pw st).accumulation.WF
    unfold Grid.WF
    rw [hacc, q3, q1, q2, hfw, hfh]
    show (st.accumulation.data.map fun _ => (1 : ℚ)).length = st.width * st.height
    rw [List.length_map]
    rw [a1, a2, a3]
  · show (computeAccumulation pw st).accumulation.width = st.width
    rw [hacc, q1]
    exact hfw
  · show (computeAccumulation pw st).accumulation.height = st.height
    rw [hacc, q2]
    exact hfh
  · intro x y hx hy
    have h5 := q4 x y (by rw [hfw]; exact hx) (by rw [hfh]; exact hy)
    rw [hacc]
    exact h5

theorem applyHydraulicErosion_props (sqrtQ : ℚ → ℚ) (st : WorldState) (p : GenerationParams)
    (hW : GridsWF st) :
    GridsWF (applyHydraulicErosion sqrtQ st p) ∧
    (applyHydraulicErosion sqrtQ st p).width = st.width ∧
    (applyHydraulicErosion sqrtQ st p).height = st.height ∧
    (∀ v ∈ (applyHydraulicErosion sqrtQ st p).elevation.data, 0 ≤ v ∧ v ≤ 1) := by
  obtain ⟨e1, e2, e3, f1, f2, f3, a1, a2, a3⟩ := hW
  have hco : allCoords st.width st.height
      = allCoords st.elevation.width st.elevation.height := by rw [e2, e3]
  refine ⟨⟨?_, ?_, ?_, f1, f2, f3, a1, a2, a3⟩, rfl, rfl, ?_⟩
  · exact Grid.WF_setEach _ _ _ e1
  · show (Grid.setEach st.elevation _ _).width = st.width
    rw [Grid.width_setEach]
    exact e2
  · show (Grid.setEach st.elevation _ _).height = st.height
    rw [Grid.height_setEach]
    exact e3
  · intro v hv
    have hv2 : v ∈ (Grid.setEach st.elevation
        (allCoords st.elevation.width st.elevation.height)
        (fun c => clampQ (st.elevation.get c.1 c.2
          + (erosionDeltas sqrtQ st p).get c.1 c.2) 0 1)).data := by
      rw [← hco]
      exact hv
    rcases Grid.setEach_data_mem st.elevation _ e1 v hv2 with ⟨c, _, _, hvc⟩
    rw [hvc]
    exact clampQ01_mem _

theorem applyThermalRelaxation_props (st : WorldState) (p : GenerationParams)
    (hW : GridsWF st)
    (ht0 : 0 ≤ p.erosion.thermal_rate) (ht1 : p.erosion.thermal_rate ≤ 1)
    (hd : ∀ v ∈ st.elevation.data, 0 ≤ v ∧ v ≤ 1) :
    GridsWF (applyThermalRelaxation st p) ∧
    (applyThermalRelaxation st p).width = st.width ∧
    (applyThermalRelaxation st p).height = st.height ∧
    (∀ v ∈ (applyThermalRelaxation st p).elevation.data, 0 ≤ v ∧ v ≤ 1) := by
  obtain ⟨e1, e2, e3, f1, f2, f3, a1, a2, a3⟩ := hW
  have hget : ∀ x y, 0 ≤ st.elevation.get x y ∧ st.elevation.get x y ≤ 1 :=
    Grid.get_prop_of_data (fun v => 0 ≤ v ∧ v ≤ 1) st.elevation hd
      ⟨le_refl 0, by exact zero_le_one⟩
  refine ⟨⟨?_, ?_, ?_, f1, f2, f3, a1, a2, a3⟩, rfl, rfl, ?_⟩
  · exact Grid.WF_setEach _ _ _ e1
  · show (Grid.setEach st.elevation _ _).width = st.width
    rw [Grid.width_setEach]
    exact e2
  · show (Grid.setEach st.elevation _ _).height = st.height
    rw [Grid.height_setEach]
    exact e3
  · refine Grid.setEach_data_preserve _ _ ?_ _ st.elevation hd
    intro c
    have hfold : ∀ (l : List (ℤ × ℤ)) (s0 : ℚ),
        s0 ≤ l.foldl (fun (s : ℚ) d =>
          s + st.elevation.get ((c.1 : ℤ) + d.1).toNat ((c.2 : ℤ) + d.2).toNat) s0 ∧
        l.foldl (fun (s : ℚ) d =>
          s + st.elevation.get ((c.1 : ℤ) + d.1).toNat ((c.2 : ℤ) + d.2).toNat) s0
          ≤ s0 + l.length := by
      intro l
      induction l with
      | nil => exact fun s0 => ⟨le_refl _, by simp⟩
      | cons d l ih =>
        intro s0
        rcases ih (s0 + st.elevation.get ((c.1 : ℤ) + d.1).toNat ((c.2 : ℤ) + d.2).toNat)
          with ⟨ih1, ih2⟩
        rcases hget ((c.1 : ℤ) + d.1).toNat ((c.2 : ℤ) + d.2).toNat with ⟨hg0, hg1⟩
        constructor
        · calc s0 ≤ s0 + st.elevation.get ((c.1 : ℤ) + d.1).toNat ((c.2 : ℤ) + d.2).toNat :=
                by linarith
            _ ≤ _ := ih1
        · calc l.foldl _ (s0 + st.elevation.get ((c.1 : ℤ) + d.1).toNat
                ((c.2 : ℤ) + d.2).toNat)
              ≤ s0 + st.elevation.get ((c.1 : ℤ) + d.1).toNat ((c.2 : ℤ) + d.2).toNat
                + l.length := ih2
            _ ≤ s0 + (l.length + 1) := by linarith
            _ = s0 + (l.length + 1 : ℕ) := by push_cast; ring
    rcases hfold DIRS 0 with ⟨hs0, hs8⟩
    rcases hget c.1 c.2 with ⟨hc0, hc1⟩
    have hlen : ((DIRS.length : ℕ) : ℚ) = 8 := by norm_num [DIRS]
    constructor
    · have havg : 0 ≤ (DIRS.foldl (fun (s : ℚ) d =>
          s + st.elevation.get ((c.1 : ℤ) + d.1).toNat ((c.2 : ℤ) + d.2).toNat) 0) / 8 := by
        apply div_nonneg _ (by norm_num)
        simpa using hs0
      nlinarith [mul_nonneg (sub_nonneg.2 ht1)
        (hc0 : (0:ℚ) ≤ st.elevation.get c.1 c.2), mul_nonneg ht0 havg]
    · have havg : (DIRS.foldl (fun (s : ℚ) d =>
          s + st.elevation.get ((c.1 : ℤ) + d.1).toNat ((c.2 : ℤ) + d.2).toNat) 0) / 8 ≤ 1 := by
        rw [div_le_one (by norm_num : (0:ℚ) < 8)]
        calc DIRS.foldl _ 0 ≤ 0 + (DIRS.length : ℚ) := hs8
          _ = 8 := by rw [hlen]; ring
      nlinarith [mul_nonneg (sub_nonneg.2 ht1)
        (sub_nonneg.2 hc1), mul_nonneg ht0 (sub_nonneg.2 havg)]

/-- Unfolding of the erosion loop from the outside: one more iteration is one
more flow / accumulation / hydraulic / thermal pass applied to the previous
result. -/
theorem erosionIter_succ (pw sqrtQ : ℚ → ℚ) (p : GenerationParams) :
    ∀ (n : ℕ) (s : WorldState),
      erosionIter pw sqrtQ p (n + 1) s
        = applyThermalRelaxation (applyHydraulicErosion sqrtQ
            (computeAccumulation pw (computeFlowD8 (erosionIter pw sqrtQ p n s))) p) p := by
  intro n
  induction n with
  | zero => exact fun s => rfl
  | succ n ih =>
    intro s
    have h1 : erosionIter pw sqrtQ p (n + 1 + 1) s
        = erosionIter pw sqrtQ p (n + 1)
          (applyThermalRelaxation (applyHydraulicErosion sqrtQ
            (computeAccumulation pw (computeFlowD8 s)) p) p) := rfl
    rw [h1, ih]
    rfl

/-- The erosion loop keeps the grids well-formed, keeps the dimensions and,
after at least one iteration, leaves every elevation buffer entry in `[0,1]`
(the hydraulic pass clamps every cell and the thermal pass is a convex
combination when `thermal_rate ∈ [0,1]`). -/
theorem erosionIter_props (pw sqrtQ : ℚ → ℚ) (p : GenerationParams)
    (hpw : ∀ s : ℚ, 0 < s → 0 ≤ pw s)
    (ht0 : 0 ≤ p.erosion.thermal_rate) (ht1 : p.erosion.thermal_rate ≤ 1) :
    ∀ (n : ℕ) (s : WorldState), GridsWF s →
      GridsWF (erosionIter pw sqrtQ p n s) ∧
      (erosionIter pw sqrtQ p n s).width = s.width ∧
      (erosionIter pw sqrtQ p n s).height = s.height ∧
      (1 ≤ n → ∀ v ∈ (erosionIter pw sqrtQ p n s).elevation.data, 0 ≤ v ∧ v ≤ 1) := by
  intro n
  induction n with
  | zero =>
    intro s hs
    exact ⟨hs, rfl, rfl, fun h => absurd h (by omega)⟩
  | succ n ih =>
    intro s hs
    rcases ih s hs with ⟨ihW, ihw, ihh, -⟩
    rcases computeFlowD8_props (erosionIter pw sqrtQ p n s) ihW with ⟨W2, w2, h2, -, -⟩
    rcases computeAccumulation_props pw (computeFlowD8 (erosionIter pw sqrtQ p n s)) hpw W2
      with ⟨W3, w3, h3, -, -, -, -⟩
    rcases applyHydraulicErosion_props sqrtQ
      (computeAccumulation pw (computeFlowD8 (erosionIter pw sqrtQ p n s))) p W3
      with ⟨W4, w4, h4, d4⟩
    rcases applyThermalRelaxation_props (applyHydraulicErosion sqrtQ
      (computeAccumulation pw (computeFlowD8 (erosionIter pw sqrtQ p n s))) p) p W4 ht0 ht1 d4
      with ⟨W5, w5, h5, d5⟩
    rw [erosionIter_succ pw sqrtQ p n s]
    refine ⟨W5, ?_, ?_, fun _ => d5⟩
    · rw [w5, w4, w3, w2]
      exact ihw
    · rw [h5, h4, h3, h2]
      exact ihh

/-- The final normalization loop of `simulate_moisture_transport`
(base_fields.rs:195-202): divide by the rainfall maximum and clamp every cell
into `[0,1]`.  The rest of the moisture simulation only determines this loop's
input buffer. -/
def rainNormalize (g : Grid ℚ) : Grid ℚ :=
  let maxRain := g.data.foldl (fun m v => max m v) 0
  let inv : ℚ := if maxRain > 0 then 1 / maxRain else 1
  { g with data := g.data.map fun v => clampQ (v * inv) 0 1 }

/-- The smoothing passes of `biomes::run` never touch the fertility layer. -/
theorem smoothLoop_fertility : ∀ (n : ℕ) (s : WorldState),
    (smoothLoop n s).fertility = s.fertility := by
  intro n
  induction n with
  | zero => exact fun s => rfl
  | succ n ih =>
    intro s
    have h1 : smoothLoop (n + 1) s = smoothLoop n (smoothBiomes s) := rfl
    rw [h1, ih]
    rfl

/-- A full-grid write of values lying in `[0,1]` leaves every read in
`[0,1]`. -/
theorem setEach_clamp_bounds (g : Grid ℚ) (hwfg : g.WF) (w h : ℕ)
    (hw : g.width = w) (hh : g.height = h) (f : ℕ × ℕ → ℚ)
    (hf : ∀ c, 0 ≤ f c ∧ f c ≤ 1) (x y : ℕ) :
    0 ≤ (Grid.setEach g (allCoords w h) f).get x y
      ∧ (Grid.setEach g (allCoords w h) f).get x y ≤ 1 := by
  subst hw
  subst hh
  have hd : ∀ v ∈ (Grid.setEach g (allCoords g.width g.height) f).data, 0 ≤ v ∧ v ≤ 1 := by
    intro v hv
    rcases Grid.setEach_data_mem g f hwfg v hv with ⟨c, -, -, hvc⟩
    rw [hvc]
    exact hf c
  exact Grid.get_prop_of_data (fun v => 0 ≤ v ∧ v ≤ 1) _ hd
    ⟨le_refl 0, by exact zero_le_one⟩ x y

/-- C5: after Stage 2 (`erosion_hydrology::run`) with well-formed grids,
nonnegative input elevation, `thermal_rate ∈ [0,1]` and a positive-valued
`powf`, every in-bounds cell has `flow_dir ∈ {0..7, 255}` and
`accumulation ≥ 1`, and every elevation is `≥ 0`; elevation `≤ 1` additionally
holds whenever `erosion.iterations ≥ 1` (the claim's "including
iterations = 0" fails: depression filling can raise a pit above 1 and no later
pass clamps it when the loop body never runs).  After the full pipeline,
rainfall lies in `[0,1]` (the final normalization loop of `base_fields` clamps
every cell it writes) and fertility lies in `[0,1]` (Stage 3 writes a clamped
value into every cell and the smoothing passes never touch fertility). -/
theorem erosionRun_ranges (pw sqrtQ : ℚ → ℚ) (st : WorldState) (p : GenerationParams)
    (hpw : ∀ s : ℚ, 0 < s → 0 ≤ pw s)
    (hW : GridsWF st)
    (helev : ∀ v ∈ st.elevation.data, 0 ≤ v)
    (ht0 : 0 ≤ p.erosion.thermal_rate) (ht1 : p.erosion.thermal_rate ≤ 1) :
    (∀ x y, x < st.width → y < st.height →
        ((erosionRun pw sqrtQ st p).flow_dir.get x y < 8
          ∨ (erosionRun pw sqrtQ st p).flow_dir.get x y = 255)
        ∧ 1 ≤ (erosionRun pw sqrtQ st p).accumulation.get x y) ∧
    (∀ x y, 0 ≤ (erosionRun pw sqrtQ st p).elevation.get x y) ∧
    (1 ≤ p.erosion.iterations →
      ∀ x y, (erosionRun pw sqrtQ st p).elevation.get x y ≤ 1) ∧
    (∀ g : Grid ℚ, ∀ v ∈ (rainNormalize g).data, 0 ≤ v ∧ v ≤ 1) ∧
    (∀ (L : ℚ → ℚ) (sb : WorldState) (pb : GenerationParams),
      sb.fertility.WF → sb.fertility.width = sb.width → sb.fertility.height = sb.height →
      ∀ x y, 0 ≤ (biomesRun L sb pb).fertility.get x y
        ∧ (biomesRun L sb pb).fertility.get x y ≤ 1) := by
  have h0get : ∀ x y, 0 ≤ st.elevation.get x y :=
    Grid.get_prop_of_data (fun v => 0 ≤ v) st.elevation helev (le_refl 0)
  rcases fillDepressions_props p.base.sea_level st hW h0get with ⟨W1, w1, h1, n1⟩
  rcases erosionIter_props pw sqrtQ p hpw ht0 ht1 p.erosion.iterations
    (fillDepressions p.base.sea_level st) W1 with ⟨W2, w2, h2, d2⟩
  rcases computeFlowD8_props
    (erosionIter pw sqrtQ p p.erosion.iterations (fillDepressions p.base.sea_level st)) W2
    with ⟨W3, w3, h3, e3, -⟩
  rcases computeAccumulation_props pw
    (computeFlowD8 (erosionIter pw sqrtQ p p.erosion.iterations
      (fillDepressions p.base.sea_level st))) hpw W3
    with ⟨-, -, -, e4, f4, acc4, -⟩
  have hrun : erosionRun pw sqrtQ st p
      = computeAccumulation pw (computeFlowD8 (erosionIter pw sqrtQ p p.erosion.iterations
          (fillDepressions p.base.sea_level st))) := rfl
  have wst2 : (erosionIter pw sqrtQ p p.erosion.iterations
      (fillDepressions p.base.sea_level st)).width = st.width := w2.trans w1
  have hst2 : (erosionIter pw sqrtQ p p.erosion.iterations
      (fillDepressions p.base.sea_level st)).height = st.height := h2.trans h1
  have helevRes : (erosionRun pw sqrtQ st p).elevation
      = (erosionIter pw sqrtQ p p.erosion.iterations
          (fillDepressions p.base.sea_level st)).elevation := by
    rw [hrun, e4, e3]
  rcases W2 with ⟨-, -, -, fWF, fw, fh, -, -, -⟩
  refine ⟨?_, ?_, ?_, ?_, ?_⟩
  · intro x y hx hy
    constructor
    · rw [hrun, f4]
      have hfd : (computeFlowD8 (erosionIter pw sqrtQ p p.erosion.iterations
            (fillDepressions p.base.sea_level st))).flow_dir
          = Grid.setEach
              ((erosionIter pw sqrtQ p p.erosion.iterations
                (fillDepressions p.base.sea_level st)).flow_dir.fill 255)
              (allCoords
                (erosionIter pw sqrtQ p p.erosion.iterations
                  (fillDepressions p.base.sea_level st)).width
                (erosionIter pw sqrtQ p p.erosion.iterations
                  (fillDepressions p.base.sea_level st)).height)
              (fun c => flowDirAt
                (erosionIter pw sqrtQ p p.erosion.iterations
                  (fillDepressions p.base.sea_level st)).params.seed
                (erosionIter pw sqrtQ p p.erosion.iterations
                  (fillDepressions p.base.sea_level st)).elevation c.1 c.2) := rfl
      rw [hfd]
      have hfillWF : ((erosionIter pw sqrtQ p p.erosion.iterations
          (fillDepressions p.base.sea_level st)).flow_dir.fill 255).WF :=
        Grid.WF_fill _ _ fWF
      have hfw : ((erosionIter pw sqrtQ p p.erosion.iterations
          (fillDepressions p.base.sea_level st)).flow_dir.fill 255).width
          = (erosionIter pw sqrtQ p p.erosion.iterations
              (fillDepressions p.base.sea_level st)).width := by
        rw [Grid.width_fill]
        exact fw
      have hfh : ((erosionIter pw sqrtQ p p.erosion.iterations
          (fillDepressions p.base.sea_level st)).flow_dir.fill 255).height
          = (erosionIter pw sqrtQ p p.erosion.iterations
              (fillDepressions p.base.sea_level st)).height := by
        rw [Grid.height_fill]
        exact fh
      rw [Grid.get_setEach _ _ _ hfillWF
          (fun c hc => by rw [hfw, hfh]; exact mem_allCoords.1 hc)
          (nodup_allCoords _ _) (x, y)
          ⟨by rw [hfw, wst2]; exact hx, by rw [hfh, hst2]; exact hy⟩]
      rw [if_pos (mem_allCoords.2 ⟨by rw [wst2]; exact hx, by rw [hst2]; exact hy⟩)]
      exact flowDirAt_valid _ _ x y
    · rw [hrun]
      exact acc4 x y (by rw [w3, wst2]; exact hx) (by rw [h3, hst2]; exact hy)
  · intro x y
    rw [helevRes]
    rcases Nat.eq_zero_or_pos p.erosion.iterations with hz | hpos
    · rw [hz]
      exact n1 x y
    · exact (Grid.get_prop_of_data (fun v => 0 ≤ v ∧ v ≤ 1) _ (d2 hpos)
        ⟨le_refl 0, by exact zero_le_one⟩ x y).1
  · intro hit x y
    rw [helevRes]
    exact (Grid.get_prop_of_data (fun v => 0 ≤ v ∧ v ≤ 1) _ (d2 hit)
      ⟨le_refl 0, by exact zero_le_one⟩ x y).2
  · intro g v hv
    have hv2 : v ∈ g.data.map (fun w0 => clampQ
        (w0 * (if g.data.foldl (fun m u => max m u) 0 > 0
          then 1 / g.data.foldl (fun m u => max m u) 0 else 1)) 0 1) := hv
    rcases List.mem_map.1 hv2 with ⟨w0, -, hw0⟩
    rw [← hw0]
    exact clampQ01_mem _
  · intro L sb pb hWFf hwfert hhfert x y
    have hsm : (biomesRun L sb pb).fertility = (classifyPass L sb pb).fertility :=
      smoothLoop_fertility pb.biomes.smoothing_passes (classifyPass L sb pb)
    rw [hsm]
    exact setEach_clamp_bounds sb.fertility hWFf sb.width sb.height hwfert hhfert _
      (fun c => clampQ01_mem _) x y

/-- C5 counterexample params: defaults with `erosion.iterations = 0`, a value
the claim explicitly includes. -/
def c5params : GenerationParams :=
  { GenerationParams.default with
    erosion := { GenerationParams.default.erosion with iterations := 0 } }

/-- C5 counterexample state: a 3×3 world whose center cell (elevation 0.9999)
is a strict pit among eight neighbors at elevation 1. -/
def c5state : WorldState :=
  testState 3 3 [1, 1, 1, 1, 9999/10000, 1, 1, 1, 1] (List.replicate 9 0) c5params

set_option maxRecDepth 40000 in
/-- C5 counterexample: with `erosion.iterations = 0`, depression filling raises
the center pit to `min_neighbor + 1e-5 = 1.00001 > 1` and no later pass of
Stage 2 clamps it, so `elevation ∈ [0,1]` fails at the in-bounds cell (1,1). -/
theorem erosion_zero_iterations_counterexample :
    c5params.erosion.iterations = 0 ∧
    1 < (erosionRun (fun s => s) (fun s => s) c5state c5params).elevation.get 1 1 := by
  constructor
  · rfl
  · with_unfolding_all decide

/-- C5 witness: the range theorem applied to a concrete 1×1 world with the
default parameters, every hypothesis discharged by evaluation. -/
theorem erosionRun_ranges_witness :
    (∀ s : ℚ, 0 < s → 0 ≤ s) ∧
    GridsWF (testState 1 1 [1/2] [0] GenerationParams.default) ∧
    (∀ v ∈ (testState 1 1 [1/2] [0] GenerationParams.default).elevation.data, 0 ≤ v) ∧
    0 ≤ GenerationParams.default.erosion.thermal_rate ∧
    GenerationParams.default.erosion.thermal_rate ≤ 1 ∧
    ((∀ x y, x < (testState 1 1 [1/2] [0] GenerationParams.default).width →
        y < (testState 1 1 [1/2] [0] GenerationParams.default).height →
        ((erosionRun (fun s => s) (fun s => s)
            (testState 1 1 [1/2] [0] GenerationParams.default)
            GenerationParams.default).flow_dir.get x y < 8
          ∨ (erosionRun (fun s => s) (fun s => s)
              (testState 1 1 [1/2] [0] GenerationParams.default)
              GenerationParams.default).flow_dir.get x y = 255)
        ∧ 1 ≤ (erosionRun (fun s => s) (fun s => s)
            (testState 1 1 [1/2] [0] GenerationParams.default)
            GenerationParams.default).accumulation.get x y) ∧
      (∀ x y, 0 ≤ (erosionRun (fun s => s) (fun s => s)
          (testState 1 1 [1/2] [0] GenerationParams.default)
          GenerationParams.default).elevation.get x y) ∧
      (1 ≤ GenerationParams.default.erosion.iterations →
        ∀ x y, (erosionRun (fun s => s) (fun s => s)
            (testState 1 1 [1/2] [0] GenerationParams.default)
            GenerationParams.default).elevation.get x y ≤ 1) ∧
      (∀ g : Grid ℚ, ∀ v ∈ (rainNormalize g).data, 0 ≤ v ∧ v ≤ 1) ∧
      (∀ (L : ℚ → ℚ) (sb : WorldState) (pb : GenerationParams),
        sb.fertility.WF → sb.fertility.width = sb.width →
        sb.fertility.height = sb.height →
        ∀ x y, 0 ≤ (biomesRun L sb pb).fertility.get x y
          ∧ (biomesRun L sb pb).fertility.get x y ≤ 1)) :=
  ⟨fun _ hs => le_of_lt hs,
   ⟨rfl, rfl, rfl, rfl, rfl, rfl, rfl, rfl, rfl⟩,
   by with_unfolding_all decide,
   by with_unfolding_all decide,
   by with_unfolding_all decide,
   erosionRun_ranges (fun s => s) (fun s => s)
     (testState 1 1 [1/2] [0] GenerationParams.default) GenerationParams.default
     (fun _ hs => le_of_lt hs)
     ⟨rfl, rfl, rfl, rfl, rfl, rfl, rfl, rfl, rfl⟩
     (by with_unfolding_all decide)
     (by with_unfolding_all decide)
     (by with_unfolding_all decide)⟩

/-- Two well-formed grids of the same dimensions that agree on every in-bounds
read are equal. -/
theorem Grid.eq_of_get [Inhabited α] (g1 g2 : Grid α) (hW1 : g1.WF) (hW2 : g2.WF)
    (hw : g1.width = g2.width) (hh : g1.height = g2.height)
    (hget : ∀ x y, x < g1.width → y < g1.height → g1.get x y = g2.get x y) :
    g1 = g2 := by
  obtain ⟨w1, h1, d1⟩ := g1
  obtain ⟨w2, h2, d2⟩ := g2
  have hww : w1 = w2 := hw
  have hhh : h1 = h2 := hh
  subst hww
  subst hhh
  have l1 : d1.length = w1 * h1 := hW1
  have l2 : d2.length = w1 * h1 := hW2
  have hd : d1 = d2 := by
    apply List.ext_getElem (by rw [l1, l2])
    intro i hi1 hi2
    have hiw : i < w1 * h1 := by rw [← l1]; exact hi1
    have hw0 : 0 < w1 := by
      rcases Nat.eq_zero_or_pos w1 with h | h
      · rw [h] at hiw; omega
      · exact h
    have hx : i % w1 < w1 := Nat.mod_lt _ hw0
    have hy : i / w1 < h1 := Nat.div_lt_of_lt_mul hiw
    have hg := hget (i % w1) (i / w1) hx hy
    have hidx : (i / w1) * w1 + i % w1 = i := by
      rw [Nat.mul_comm]
      exact Nat.div_add_mod i w1
    have e1 : (⟨w1, h1, d1⟩ : Grid α).get (i % w1) (i / w1) = d1[i] := by
      show d1.getD ((i / w1) * w1 + i % w1) default = _
      rw [hidx, List.getD_eq_getElem?_getD, List.getElem?_eq_getElem hi1]
      rfl
    have e2 : (⟨w1, h1, d2⟩ : Grid α).get (i % w1) (i / w1) = d2[i] := by
      show d2.getD ((i / w1) * w1 + i % w1) default = _
      rw [hidx, List.getD_eq_getElem?_getD, List.getElem?_eq_getElem hi2]
      rfl
    rw [e1, e2] at hg
    exact hg
  rw [hd]

/-- Writing a constant along a list of cells keeps dimensions and
well-formedness. -/
theorem Grid.foldl_set_const_dims (v : α) :
    ∀ (l : List (ℕ × ℕ)) (g : Grid α),
      (l.foldl (fun g2 c => Grid.set g2 c.1 c.2 v) g).width = g.width ∧
      (l.foldl (fun g2 c => Grid.set g2 c.1 c.2 v) g).height = g.height ∧
      (g.WF → (l.foldl (fun g2 c => Grid.set g2 c.1 c.2 v) g).WF) := by
  intro l
  induction l with
  | nil => exact fun g => ⟨rfl, rfl, fun h => h⟩
  | cons c l ih =>
    intro g
    rcases ih (g.set c.1 c.2 v) with ⟨h1, h2, h3⟩
    exact ⟨h1, h2, fun hw => h3 (Grid.WF_set _ _ _ _ hw)⟩

/-- The rollback loop: after writing a constant into each listed in-bounds
cell, a read returns the constant on listed cells and the old value
elsewhere. -/
theorem Grid.get_foldl_set_const [Inhabited α] (v : α) :
    ∀ (l : List (ℕ × ℕ)) (g : Grid α), g.WF →
      (∀ c ∈ l, c.1 < g.width ∧ c.2 < g.height) →
      ∀ x y, x < g.width → y < g.height →
        (l.foldl (fun g2 c => Grid.set g2 c.1 c.2 v) g).get x y
          = if (x, y) ∈ l then v else g.get x y := by
  intro l
  induction l with
  | nil =>
    intro g _ _ x y _ _
    simp
  | cons c l ih =>
    intro g hwf hin x y hx hy
    have hc := hin c (List.mem_cons_self _ _)
    have hstep : ((c :: l).foldl (fun g2 c2 => Grid.set g2 c2.1 c2.2 v) g)
        = l.foldl (fun g2 c2 => Grid.set g2 c2.1 c2.2 v) (g.set c.1 c.2 v) := rfl
    rw [hstep]
    have hih := ih (g.set c.1 c.2 v) (Grid.WF_set _ _ _ _ hwf)
      (fun c2 hc2 => hin c2 (List.mem_cons_of_mem _ hc2)) x y hx hy
    rw [hih]
    by_cases hmem : (x, y) ∈ l
    · rw [if_pos hmem, if_pos (List.mem_cons_of_mem _ hmem)]
    · rw [if_neg hmem]
      by_cases hxy : (x, y) = c
      · subst hxy
        rw [if_pos (List.mem_cons_self _ _)]
        exact Grid.get_set_self g x y v (Grid.gidx_lt g hwf hx hy)
      · have hne : (x, y) ∉ c :: l := by
          intro hmem2
          rcases List.mem_cons.1 hmem2 with h | h
          · exact hxy h
          · exact hmem h
        rw [if_neg hne]
        refine Grid.get_set_ne g c.1 c.2 x y v ?_
        intro heq
        rcases Grid.gidx_inj g hc.1 hx heq with ⟨h1, h2⟩
        exact hxy (Prod.ext h1.symm h2.symm)

/-- Every cell the BFS push loop enqueues is in bounds. -/
theorem nbrs8_bounds (g : Grid ℚ) (x y : ℕ) :
    ∀ c ∈ nbrs8 g x y, c.1 < g.width ∧ c.2 < g.height := by
  intro c hc
  rcases List.mem_filterMap.1 hc with ⟨d, -, hd⟩
  have hd2 : (if g.inB ((x : ℤ) + d.1) ((y : ℤ) + d.2)
      then some (((x : ℤ) + d.1).toNat, ((y : ℤ) + d.2).toNat) else none) = some c := hd
  cases hb : g.inB ((x : ℤ) + d.1) ((y : ℤ) + d.2) with
  | false =>
    rw [hb] at hd2
    simp at hd2
  | true =>
    rw [hb] at hd2
    simp only [if_true] at hd2
    injection hd2 with hd3
    unfold Grid.inB at hb
    simp only [Bool.and_eq_true, decide_eq_true_eq] at hb
    rw [← hd3]
    constructor <;> simp only [] <;> omega

/-- Invariant of the lake flood-fill of `flood_lake_basin`, relative to the
untouched world `st` and the basin id being flooded: the working lake grid
differs from the original exactly on the tagged `cells` (all in-bounds,
originally untagged, now holding `lakeId`), the queue stays in bounds, and
`touches_edge` is already set whenever a tagged cell lies on the border or the
cell cap is exceeded. -/
def FloodInv (st : WorldState) (lakeId maxCells : ℕ) (s : FloodState) : Prop :=
  s.lake.width = st.width ∧ s.lake.height = st.height ∧ s.lake.WF ∧
  (∀ c ∈ s.queue, c.1 < st.width ∧ c.2 < st.height) ∧
  (∀ c ∈ s.cells, c.1 < st.width ∧ c.2 < st.height ∧ st.lake_id.get c.1 c.2 = 0) ∧
  (∀ x y, x < st.width → y < st.height →
    ((x, y) ∈ s.cells → s.lake.get x y = lakeId) ∧
    ((x, y) ∉ s.cells → s.lake.get x y = st.lake_id.get x y)) ∧
  ((∃ c ∈ s.cells, onBorder st c = true) → s.touchesEdge = true) ∧
  (s.cells.length > maxCells → s.touchesEdge = true) ∧
  (∀ c ∈ s.cells, st.ocean_mask.get c.1 c.2 = false)

theorem floodStep_inv (st : WorldState) (lakeId : ℕ) (maxLevel : ℚ) (maxCells : ℕ)
    (hid : lakeId ≠ 0)
    (hew : st.elevation.width = st.width) (heh : st.elevation.height = st.height)
    (s : FloodState) (hI : FloodInv st lakeId maxCells s) :
    FloodInv st lakeId maxCells (floodStep st lakeId maxLevel maxCells s) := by
  obtain ⟨i1, i2, i3, i4, i5, i6, i7, i8, i9⟩ := hI
  cases hq : s.queue with
  | nil =>
    have he : floodStep st lakeId maxLevel maxCells s = s := by
      unfold floodStep
      rw [hq]
    rw [he]
    exact ⟨i1, i2, i3, i4, i5, i6, i7, i8, i9⟩
  | cons c rest =>
    have hcq : c ∈ s.queue := by rw [hq]; exact List.mem_cons_self _ _
    have hcb := i4 c hcq
    have hrest : ∀ c2 ∈ rest, c2.1 < st.width ∧ c2.2 < st.height := by
      intro c2 hc2
      exact i4 c2 (by rw [hq]; exact List.mem_cons_of_mem _ hc2)
    have he : floodStep st lakeId maxLevel maxCells s
        = if st.ocean_mask.get c.1 c.2 ∨ s.lake.get c.1 c.2 = lakeId
          then { s with queue := rest }
          else if st.elevation.get c.1 c.2 > maxLevel then { s with queue := rest }
          else if s.lake.get c.1 c.2 ≠ 0
          then { s with queue := rest, touchesEdge := true }
          else if (s.cells ++ [c]).length > maxCells then
            { queue := rest, cells := s.cells ++ [c], touchesEdge := true,
              halted := true, lake := s.lake.set c.1 c.2 lakeId }
          else
            { queue := rest ++ nbrs8 st.elevation c.1 c.2, cells := s.cells ++ [c],
              touchesEdge := s.touchesEdge || onBorder st c, halted := false,
              lake := s.lake.set c.1 c.2 lakeId } := by
      unfold floodStep
      rw [hq]
    rw [he]
    by_cases h1 : st.ocean_mask.get c.1 c.2 ∨ s.lake.get c.1 c.2 = lakeId
    · rw [if_pos h1]
      exact ⟨i1, i2, i3, hrest, i5, i6, i7, i8, i9⟩
    · rw [if_neg h1]
      by_cases h2 : st.elevation.get c.1 c.2 > maxLevel
      · rw [if_pos h2]
        exact ⟨i1, i2, i3, hrest, i5, i6, i7, i8, i9⟩
      · rw [if_neg h2]
        by_cases h3 : s.lake.get c.1 c.2 ≠ 0
        · rw [if_pos h3]
          exact ⟨i1, i2, i3, hrest, i5, i6, fun _ => rfl, fun _ => rfl, i9⟩
        · rw [if_neg h3]
          push_neg at h3
          have hcnot : c ∉ s.cells := by
            intro hmem
            have h4 := (i6 c.1 c.2 hcb.1 hcb.2).1 hmem
            rw [h4] at h3
            exact hid h3
          have horig : st.lake_id.get c.1 c.2 = 0 := by
            have h4 := (i6 c.1 c.2 hcb.1 hcb.2).2 hcnot
            rw [← h4]
            exact h3
          have hocean : st.ocean_mask.get c.1 c.2 = false :=
            Bool.eq_false_iff.mpr fun hb => h1 (Or.inl hb)
          have hocean2 : ∀ c2 ∈ s.cells ++ [c],
              st.ocean_mask.get c2.1 c2.2 = false := by
            intro c2 hc2
            rcases List.mem_append.1 hc2 with h | h
            · exact i9 c2 h
            · rw [List.mem_singleton.1 h]
              exact hocean
          have hl1 : (s.lake.set c.1 c.2 lakeId).width = st.width := by
            rw [Grid.width_set]
            exact i1
          have hl2 : (s.lake.set c.1 c.2 lakeId).height = st.height := by
            rw [Grid.height_set]
            exact i2
          have hl3 : (s.lake.set c.1 c.2 lakeId).WF := Grid.WF_set _ _ _ _ i3
          have hcell2 : ∀ c2 ∈ s.cells ++ [c],
              c2.1 < st.width ∧ c2.2 < st.height ∧ st.lake_id.get c2.1 c2.2 = 0 := by
            intro c2 hc2
            rcases List.mem_append.1 hc2 with h | h
            · exact i5 c2 h
            · rw [List.mem_singleton.1 h]
              exact ⟨hcb.1, hcb.2, horig⟩
          have hget2 : ∀ x y, x < st.width → y < st.height →
              (((x, y) ∈ s.cells ++ [c] →
                (s.lake.set c.1 c.2 lakeId).get x y = lakeId) ∧
               ((x, y) ∉ s.cells ++ [c] →
                (s.lake.set c.1 c.2 lakeId).get x y = st.lake_id.get x y)) := by
            intro x y hx hy
            by_cases hxy : (x, y) = c
            · constructor
              · intro _
                have hg : s.lake.gidx c.1 c.2 < s.lake.data.length :=
                  Grid.gidx_lt s.lake i3 (by rw [i1]; exact hcb.1)
                    (by rw [i2]; exact hcb.2)
                obtain ⟨hx1, hy1⟩ : x = c.1 ∧ y = c.2 :=
                  ⟨congrArg Prod.fst hxy, congrArg Prod.snd hxy⟩
                subst hx1
                subst hy1
                exact Grid.get_set_self s.lake c.1 c.2 lakeId hg
              · intro hnot
                exact absurd (List.mem_append.2 (Or.inr (by
                  rw [hxy]; exact List.mem_singleton_self _))) hnot
            · have hne : s.lake.gidx c.1 c.2 ≠ s.lake.gidx x y := by
                intro heq
                rcases Grid.gidx_inj s.lake (by rw [i1]; exact hcb.1)
                  (by rw [i1]; exact hx) heq with ⟨ha, hb⟩
                exact hxy (Prod.ext ha.symm hb.symm)
              constructor
              · intro hmem
                rcases List.mem_append.1 hmem with h | h
                · rw [Grid.get_set_ne s.lake c.1 c.2 x y lakeId hne]
                  exact (i6 x y hx hy).1 h
                · exact absurd (List.mem_singleton.1 h) hxy
              · intro hnot
                rw [Grid.get_set_ne s.lake c.1 c.2 x y lakeId hne]
                exact (i6 x y hx hy).2 (fun hmem => hnot (List.mem_append.2 (Or.inl hmem)))
          by_cases h4 : (s.cells ++ [c]).length > maxCells
          · rw [if_pos h4]
            exact ⟨hl1, hl2, hl3, hrest, hcell2, hget2, fun _ => rfl, fun _ => rfl, hocean2⟩
          · rw [if_neg h4]
            refine ⟨hl1, hl2, hl3, ?_, hcell2, hget2, ?_, ?_, hocean2⟩
            · intro c2 hc2
              rcases List.mem_append.1 hc2 with h | h
              · exact hrest c2 h
              · have hb := nbrs8_bounds st.elevation c.1 c.2 c2 h
                rw [hew, heh] at hb
                exact hb
            · rintro ⟨c2, hc2, hbord⟩
              rcases List.mem_append.1 hc2 with h | h
              · have h5 := i7 ⟨c2, h, hbord⟩
                show (s.touchesEdge || onBorder st c) = true
                rw [h5]
                rfl
              · have hcc : c2 = c := List.mem_singleton.1 h
                rw [hcc] at hbord
                show (s.touchesEdge || onBorder st c) = true
                rw [hbord]
                exact Bool.or_true _
            · intro hlen
              exact absurd hlen h4

theorem floodRun_inv (st : WorldState) (lakeId : ℕ) (maxLevel : ℚ) (maxCells : ℕ)
    (hid : lakeId ≠ 0)
    (hew : st.elevation.width = st.width) (heh : st.elevation.height = st.height) :
    ∀ (n : ℕ) (s : FloodState), FloodInv st lakeId maxCells s →
      FloodInv st lakeId maxCells (floodRun st lakeId maxLevel maxCells n s) := by
  intro n
  induction n with
  | zero => exact fun s h => h
  | succ n ih =>
    intro s hs
    have he : floodRun st lakeId maxLevel maxCells (n + 1) s
        = if s.halted then s
          else match s.queue with
            | [] => s
            | _ :: _ =>
              floodRun st lakeId maxLevel maxCells n
                (floodStep st lakeId maxLevel maxCells s) := rfl
    rw [he]
    by_cases hh : s.halted
    · rw [if_pos hh]
      exact hs
    · rw [if_neg hh]
      cases hq : s.queue with
      | nil => exact hs
      | cons c rest =>
        exact ih (floodStep st lakeId maxLevel maxCells s)
          (floodStep_inv st lakeId maxLevel maxCells hid hew heh s hs)

/-- From the flood invariant, the per-cell rollback loop restores the original
lake grid exactly. -/
theorem flood_rollback_of_inv (st : WorldState) (lakeId maxCells : ℕ) (r : FloodState)
    (hWF : st.lake_id.WF) (hlw : st.lake_id.width = st.width)
    (hlh : st.lake_id.height = st.height)
    (hI : FloodInv st lakeId maxCells r) :
    r.cells.foldl (fun g c => g.set c.1 c.2 0) r.lake = st.lake_id := by
  obtain ⟨i1, i2, i3, -, i5, i6, -, -, -⟩ := hI
  rcases Grid.foldl_set_const_dims (0 : ℕ) r.cells r.lake with ⟨f1, f2, f3⟩
  apply Grid.eq_of_get _ _ (f3 i3) hWF
  · rw [f1, i1, hlw]
  · rw [f2, i2, hlh]
  · intro x y hx hy
    have hx2 : x < st.width := by rw [← i1, ← f1]; exact hx
    have hy2 : y < st.height := by rw [← i2, ← f2]; exact hy
    have hfold := Grid.get_foldl_set_const (0 : ℕ) r.cells r.lake i3
      (fun c hc => ⟨by rw [i1]; exact (i5 c hc).1, by rw [i2]; exact (i5 c hc).2.1⟩)
      x y (by rw [i1]; exact hx2) (by rw [i2]; exact hy2)
    rw [hfold]
    by_cases hmem : (x, y) ∈ r.cells
    · rw [if_pos hmem]
      exact ((i5 _ hmem).2.2).symm
    · rw [if_neg hmem]
      exact (i6 x y hx2 hy2).2 hmem

/-- C7: a lake flood-fill started by `identify_lakes` that reaches a map-border
cell or tags more than `max_cells` cells returns failure with the lake grid
exactly as it was before the flood began: every tagged cell is rolled back to
0 and nothing else was ever written.  `identify_lakes` then keeps the same
basin id for the next pit, and no error is raised — `flood_lake_basin` is
total and merely returns `false`. -/
theorem floodLakeBasin_abort_rollback (st : WorldState) (sx sy lakeId : ℕ)
    (maxLevel : ℚ) (maxCells : ℕ) (hid : lakeId ≠ 0)
    (hWF : st.lake_id.WF) (hlw : st.lake_id.width = st.width)
    (hlh : st.lake_id.height = st.height)
    (hew : st.elevation.width = st.width) (heh : st.elevation.height = st.height)
    (hsx : sx < st.width) (hsy : sy < st.height)
    (habort :
      (∃ c ∈ (floodRun st lakeId maxLevel maxCells (1 + 9 * (st.width * st.height))
          ⟨[(sx, sy)], [], false, false, st.lake_id⟩).cells, onBorder st c = true)
      ∨ (floodRun st lakeId maxLevel maxCells (1 + 9 * (st.width * st.height))
          ⟨[(sx, sy)], [], false, false, st.lake_id⟩).cells.length > maxCells) :
    floodLakeBasin st sx sy lakeId maxLevel maxCells = (false, st.lake_id) := by
  have hI0 : FloodInv st lakeId maxCells ⟨[(sx, sy)], [], false, false, st.lake_id⟩ := by
    refine ⟨hlw, hlh, hWF, ?_, ?_, ?_, ?_, ?_, ?_⟩
    · intro c hc
      rw [List.mem_singleton.1 hc]
      exact ⟨hsx, hsy⟩
    · intro c hc
      exact absurd hc (List.not_mem_nil c)
    · intro x y _ _
      exact ⟨fun hmem => absurd hmem (List.not_mem_nil _), fun _ => rfl⟩
    · rintro ⟨c, hc, -⟩
      exact absurd hc (List.not_mem_nil c)
    · intro hlen
      exact absurd hlen (by simp)
    · intro c hc
      exact absurd hc (List.not_mem_nil c)
  have hIr := floodRun_inv st lakeId maxLevel maxCells hid hew heh
    (1 + 9 * (st.width * st.height)) _ hI0
  have hte : (floodRun st lakeId maxLevel maxCells (1 + 9 * (st.width * st.height))
      ⟨[(sx, sy)], [], false, false, st.lake_id⟩).touchesEdge = true := by
    obtain ⟨-, -, -, -, -, -, i7, i8, -⟩ := hIr
    rcases habort with h | h
    · exact i7 h
    · exact i8 h
  have key : ∀ r : FloodState, FloodInv st lakeId maxCells r → r.touchesEdge = true →
      (if r.touchesEdge
       then ((false : Bool), r.cells.foldl (fun g c => g.set c.1 c.2 0) r.lake)
       else ((true : Bool), r.lake)) = ((false : Bool), st.lake_id) := by
    intro r hI hr
    rw [if_pos hr]
    exact congrArg (fun g => ((false : Bool), g))
      (flood_rollback_of_inv st lakeId maxCells r hWF hlw hlh hI)
  exact key _ hIr hte

/-- C7 witness state: a 3×3 world with uniform land elevation 0.5 and no lakes
or oceans, so a flood from the center spreads to the border and aborts. -/
def c7state : WorldState :=
  testState 3 3 (List.replicate 9 (1/2)) (List.replicate 9 0) GenerationParams.default

set_option maxRecDepth 40000 in
/-- C7 witness: on the concrete 3×3 world the flood from the interior seed
(1,1) with `max_level = 1` tags a border cell, and `flood_lake_basin` returns
`false` with the lake grid restored verbatim. -/
theorem floodLakeBasin_abort_rollback_witness :
    ((∃ c ∈ (floodRun c7state 1 1 6000 (1 + 9 * (c7state.width * c7state.height))
        ⟨[(1, 1)], [], false, false, c7state.lake_id⟩).cells, onBorder c7state c = true)
      ∨ (floodRun c7state 1 1 6000 (1 + 9 * (c7state.width * c7state.height))
        ⟨[(1, 1)], [], false, false, c7state.lake_id⟩).cells.length > 6000) ∧
    floodLakeBasin c7state 1 1 1 1 6000 = (false, c7state.lake_id) := by
  have habort : (∃ c ∈ (floodRun c7state 1 1 6000
        (1 + 9 * (c7state.width * c7state.height))
        ⟨[(1, 1)], [], false, false, c7state.lake_id⟩).cells, onBorder c7state c = true)
      ∨ (floodRun c7state 1 1 6000 (1 + 9 * (c7state.width * c7state.height))
        ⟨[(1, 1)], [], false, false, c7state.lake_id⟩).cells.length > 6000 := by
    with_unfolding_all decide
  exact ⟨habort, floodLakeBasin_abort_rollback c7state 1 1 1 1 6000 (by decide)
    rfl rfl rfl rfl rfl (by decide) (by decide) habort⟩

/-- The flood invariant holds at the initial flood state of
`flood_lake_basin`. -/
theorem floodInv_init (st : WorldState) (sx sy lakeId maxCells : ℕ)
    (hWF : st.lake_id.WF) (hlw : st.lake_id.width = st.width)
    (hlh : st.lake_id.height = st.height)
    (hsx : sx < st.width) (hsy : sy < st.height) :
    FloodInv st lakeId maxCells ⟨[(sx, sy)], [], false, false, st.lake_id⟩ := by
  refine ⟨hlw, hlh, hWF, ?_, ?_, ?_, ?_, ?_, ?_⟩
  · intro c hc
    rw [List.mem_singleton.1 hc]
    exact ⟨hsx, hsy⟩
  · intro c hc
    exact absurd hc (List.not_mem_nil c)
  · intro x y _ _
    exact ⟨fun hmem => absurd hmem (List.not_mem_nil _), fun _ => rfl⟩
  · rintro ⟨c, hc, -⟩
    exact absurd hc (List.not_mem_nil c)
  · intro hlen
    exact absurd hlen (by simp)
  · intro c hc
    exact absurd hc (List.not_mem_nil c)

/-- The lake grid returned by `flood_lake_basin` keeps shape and can only hold
a nonzero id at a cell that is not ocean-masked or already held one. -/
theorem floodLakeBasin_snd_inv (st : WorldState) (sx sy lakeId : ℕ)
    (maxLevel : ℚ) (maxCells : ℕ) (hid : lakeId ≠ 0)
    (hWF : st.lake_id.WF) (hlw : st.lake_id.width = st.width)
    (hlh : st.lake_id.height = st.height)
    (hew : st.elevation.width = st.width) (heh : st.elevation.height = st.height)
    (hsx : sx < st.width) (hsy : sy < st.height) :
    (floodLakeBasin st sx sy lakeId maxLevel maxCells).2.WF ∧
    (floodLakeBasin st sx sy lakeId maxLevel maxCells).2.width = st.width ∧
    (floodLakeBasin st sx sy lakeId maxLevel maxCells).2.height = st.height ∧
    (∀ x y, x < st.width → y < st.height →
      (floodLakeBasin st sx sy lakeId maxLevel maxCells).2.get x y ≠ 0 →
      st.ocean_mask.get x y = false ∨ st.lake_id.get x y ≠ 0) := by
  have hIr := floodRun_inv st lakeId maxLevel maxCells hid hew heh
    (1 + 9 * (st.width * st.height)) _
    (floodInv_init st sx sy lakeId maxCells hWF hlw hlh hsx hsy)
  suffices h : ∀ r : FloodState, FloodInv st lakeId maxCells r →
      ((if r.touchesEdge
        then ((false : Bool), r.cells.foldl (fun g c => g.set c.1 c.2 0) r.lake)
        else ((true : Bool), r.lake)).2.WF ∧
       (if r.touchesEdge
        then ((false : Bool), r.cells.foldl (fun g c => g.set c.1 c.2 0) r.lake)
        else ((true : Bool), r.lake)).2.width = st.width ∧
       (if r.touchesEdge
        then ((false : Bool), r.cells.foldl (fun g c => g.set c.1 c.2 0) r.lake)
        else ((true : Bool), r.lake)).2.height = st.height ∧
       (∀ x y, x < st.width → y < st.height →
        (if r.touchesEdge
         then ((false : Bool), r.cells.foldl (fun g c => g.set c.1 c.2 0) r.lake)
         else ((true : Bool), r.lake)).2.get x y ≠ 0 →
        st.ocean_mask.get x y = false ∨ st.lake_id.get x y ≠ 0)) by
    exact h _ hIr
  intro r hI
  by_cases ht : r.touchesEdge
  · have hroll := flood_rollback_of_inv st lakeId maxCells r hWF hlw hlh hI
    rw [if_pos ht]
    have h2 : ((false : Bool), r.cells.foldl (fun g c => g.set c.1 c.2 0) r.lake).2
        = st.lake_id := hroll
    rw [h2]
    exact ⟨hWF, hlw, hlh, fun x y _ _ hne => Or.inr hne⟩
  · obtain ⟨i1, i2, i3, -, i5, i6, -, -, i9⟩ := hI
    rw [if_neg ht]
    have h2 : ((true : Bool), r.lake).2 = r.lake := rfl
    rw [h2]
    refine ⟨i3, i1, i2, ?_⟩
    intro x y hx hy hne
    by_cases hmem : (x, y) ∈ r.cells
    · exact Or.inl (i9 _ hmem)
    · right
      rw [← (i6 x y hx hy).2 hmem]
      exact hne

/-- The loop body of `identify_lakes`: skip ocean, already-tagged, low,
non-pit or low-accumulation cells, otherwise flood a basin from the pit,
consuming the id only on success. -/
def lakeScanStep (sea : ℚ) (acc : WorldState × ℕ) (c : ℕ × ℕ) : WorldState × ℕ :=
  let s := acc.1
  let nextId := acc.2
  if s.ocean_mask.get c.1 c.2 ∨ s.lake_id.get c.1 c.2 ≠ 0 then acc
  else
    let elev := s.elevation.get c.1 c.2
    if elev ≤ sea then acc
    else if ¬ isStrictLocalPit s.elevation c.1 c.2 elev then acc
    else if s.accumulation.get c.1 c.2 < 8 then acc
    else
      let relief := localRelief s.elevation c.1 c.2
      let maxLevel := elev + min (1/1000 + relief * (3/10)) (8/1000)
      let fr := floodLakeBasin s c.1 c.2 nextId maxLevel 6000
      if fr.1 then ({ s with lake_id := fr.2 }, nextId + 1)
      else ({ s with lake_id := fr.2 }, nextId)

/-- Invariant of the `identify_lakes` scan: only the lake grid changes, its
shape is preserved, the id counter stays positive, and a nonzero lake id only
ever sits on a cell that is not ocean-masked. -/
def LakeScanInv (base : WorldState) (acc : WorldState × ℕ) : Prop :=
  acc.1.width = base.width ∧ acc.1.height = base.height ∧
  acc.1.ocean_mask = base.ocean_mask ∧ acc.1.elevation = base.elevation ∧
  acc.1.lake_id.WF ∧ acc.1.lake_id.width = base.width ∧
  acc.1.lake_id.height = base.height ∧
  1 ≤ acc.2 ∧
  (∀ x y, x < base.width → y < base.height →
    acc.1.lake_id.get x y ≠ 0 → base.ocean_mask.get x y = false)

theorem lakeScanStep_inv (sea : ℚ) (base : WorldState)
    (hbew : base.elevation.width = base.width)
    (hbeh : base.elevation.height = base.height)
    (acc : WorldState × ℕ) (c : ℕ × ℕ)
    (hcx : c.1 < base.width) (hcy : c.2 < base.height)
    (hI : LakeScanInv base acc) :
    LakeScanInv base (lakeScanStep sea acc c) := by
  obtain ⟨j1, j2, j3, j4, j5, j6, j7, j8, j9⟩ := hI
  have hid : acc.2 ≠ 0 := by omega
  have hlw2 : acc.1.lake_id.width = acc.1.width := by rw [j6, j1]
  have hlh2 : acc.1.lake_id.height = acc.1.height := by rw [j7, j2]
  have hew2 : acc.1.elevation.width = acc.1.width := by rw [j4, hbew, j1]
  have heh2 : acc.1.elevation.height = acc.1.height := by rw [j4, hbeh, j2]
  have hcx2 : c.1 < acc.1.width := by rw [j1]; exact hcx
  have hcy2 : c.2 < acc.1.height := by rw [j2]; exact hcy
  rcases floodLakeBasin_snd_inv acc.1 c.1 c.2 acc.2
      (acc.1.elevation.get c.1 c.2
        + min (1/1000 + localRelief acc.1.elevation c.1 c.2 * (3/10)) (8/1000)) 6000
      hid j5 hlw2 hlh2 hew2 heh2 hcx2 hcy2 with ⟨s1, s2, s3, s4⟩
  have hnew : ∀ k : ℕ, 1 ≤ k → LakeScanInv base
      ({ acc.1 with lake_id := (floodLakeBasin acc.1 c.1 c.2 acc.2
          (acc.1.elevation.get c.1 c.2
            + min (1/1000 + localRelief acc.1.elevation c.1 c.2 * (3/10)) (8/1000))
          6000).2 }, k) := by
    intro k hk
    refine ⟨j1, j2, j3, j4, s1, ?_, ?_, hk, ?_⟩
    · show (floodLakeBasin acc.1 c.1 c.2 acc.2 _ 6000).2.width = base.width
      rw [s2, j1]
    · show (floodLakeBasin acc.1 c.1 c.2 acc.2 _ 6000).2.height = base.height
      rw [s3, j2]
    · intro x y hx hy hne
      have h4 := s4 x y (by rw [j1]; exact hx) (by rw [j2]; exact hy) hne
      rcases h4 with h | h
      · rw [← j3]
        exact h
      · exact j9 x y hx hy h
  have he : lakeScanStep sea acc c
      = if acc.1.ocean_mask.get c.1 c.2 ∨ acc.1.lake_id.get c.1 c.2 ≠ 0 then acc
        else if acc.1.elevation.get c.1 c.2 ≤ sea then acc
        else if ¬ isStrictLocalPit acc.1.elevation c.1 c.2
            (acc.1.elevation.get c.1 c.2) then acc
        else if acc.1.accumulation.get c.1 c.2 < 8 then acc
        else if (floodLakeBasin acc.1 c.1 c.2 acc.2
            (acc.1.elevation.get c.1 c.2
              + min (1/1000 + localRelief acc.1.elevation c.1 c.2 * (3/10)) (8/1000))
            6000).1
        then ({ acc.1 with lake_id := (floodLakeBasin acc.1 c.1 c.2 acc.2
            (acc.1.elevation.get c.1 c.2
              + min (1/1000 + localRelief acc.1.elevation c.1 c.2 * (3/10)) (8/1000))
            6000).2 }, acc.2 + 1)
        else ({ acc.1 with lake_id := (floodLakeBasin acc.1 c.1 c.2 acc.2
            (acc.1.elevation.get c.1 c.2
              + min (1/1000 + localRelief acc.1.elevation c.1 c.2 * (3/10)) (8/1000))
            6000).2 }, acc.2) := rfl
  rw [he]
  have hold : LakeScanInv base acc := ⟨j1, j2, j3, j4, j5, j6, j7, j8, j9⟩
  by_cases h1 : acc.1.ocean_mask.get c.1 c.2 ∨ acc.1.lake_id.get c.1 c.2 ≠ 0
  · rw [if_pos h1]
    exact hold
  · rw [if_neg h1]
    by_cases h2 : acc.1.elevation.get c.1 c.2 ≤ sea
    · rw [if_pos h2]
      exact hold
    · rw [if_neg h2]
      by_cases h3 : ¬ isStrictLocalPit acc.1.elevation c.1 c.2
          (acc.1.elevation.get c.1 c.2)
      · rw [if_pos h3]
        exact hold
      · rw [if_neg h3]
        by_cases h4 : acc.1.accumulation.get c.1 c.2 < 8
        · rw [if_pos h4]
          exact hold
        · rw [if_neg h4]
          by_cases h5 : (floodLakeBasin acc.1 c.1 c.2 acc.2
              (acc.1.elevation.get c.1 c.2
                + min (1/1000 + localRelief acc.1.elevation c.1 c.2 * (3/10)) (8/1000))
              6000).1
          · rw [if_pos h5]
            exact hnew (acc.2 + 1) (by omega)
          · rw [if_neg h5]
            exact hnew acc.2 j8

theorem lakeScan_fold_inv (sea : ℚ) (base : WorldState)
    (hbew : base.elevation.width = base.width)
    (hbeh : base.elevation.height = base.height) :
    ∀ (l : List (ℕ × ℕ)) (acc : WorldState × ℕ),
      (∀ c ∈ l, c.1 < base.width ∧ c.2 < base.height) →
      LakeScanInv base acc →
      LakeScanInv base (l.foldl (lakeScanStep sea) acc) := by
  intro l
  induction l with
  | nil => exact fun acc _ h => h
  | cons c l ih =>
    intro acc hin hI
    have hstep : (c :: l).foldl (lakeScanStep sea) acc
        = l.foldl (lakeScanStep sea) (lakeScanStep sea acc c) := rfl
    rw [hstep]
    have hc := hin c (List.mem_cons_self _ _)
    exact ih (lakeScanStep sea acc c)
      (fun c2 hc2 => hin c2 (List.mem_cons_of_mem _ hc2))
      (lakeScanStep_inv sea base hbew hbeh acc c hc.1 hc.2 hI)

/-- `identify_lakes` leaves the ocean mask alone and only writes nonzero lake
ids onto cells that are not ocean-masked (given that already holds on
entry). -/
theorem identifyLakes_inv (sea : ℚ) (st : WorldState)
    (hew : st.elevation.width = st.width) (heh : st.elevation.height = st.height)
    (hlWF : st.lake_id.WF) (hlw : st.lake_id.width = st.width)
    (hlh : st.lake_id.height = st.height)
    (hbase : ∀ x y, x < st.width → y < st.height →
      st.lake_id.get x y ≠ 0 → st.ocean_mask.get x y = false) :
    (identifyLakes sea st).ocean_mask = st.ocean_mask ∧
    (∀ x y, x < st.width → y < st.height →
      (identifyLakes sea st).lake_id.get x y ≠ 0 →
      st.ocean_mask.get x y = false) := by
  have h0 : LakeScanInv st (st, 1) :=
    ⟨rfl, rfl, rfl, rfl, hlWF, hlw, hlh, le_refl 1, hbase⟩
  have hf := lakeScan_fold_inv sea st hew heh (interiorCoords st.width st.height)
    (st, 1)
    (fun c hc => by
      have h3 := mem_interiorCoords.1 hc
      exact ⟨by omega, by omega⟩) h0
  obtain ⟨j1, j2, j3, j4, j5, j6, j7, j8, j9⟩ := hf
  have he : identifyLakes sea st
      = ((interiorCoords st.width st.height).foldl (lakeScanStep sea) (st, 1)).1 := rfl
  rw [he]
  exact ⟨j3, j9⟩

/-- `identify_lakes` started from an all-zero lake grid: any nonzero lake id
in its output marks a cell that is not ocean-masked. -/
theorem identifyLakes_fresh_not_ocean (sea : ℚ) (s3 : WorldState)
    (hew : s3.elevation.width = s3.width) (heh : s3.elevation.height = s3.height)
    (hfill : ∀ x y, x < s3.width → y < s3.height → s3.lake_id.get x y = 0)
    (hlWF : s3.lake_id.WF) (hlw : s3.lake_id.width = s3.width)
    (hlh : s3.lake_id.height = s3.height) :
    ∀ x y, x < s3.width → y < s3.height →
      (identifyLakes sea s3).lake_id.get x y ≠ 0 →
      (identifyLakes sea s3).ocean_mask.get x y = false := by
  have hbase : ∀ x y, x < s3.width → y < s3.height →
      s3.lake_id.get x y ≠ 0 → s3.ocean_mask.get x y = false := by
    intro x y hx hy hne
    exact absurd (hfill x y hx hy) hne
  rcases identifyLakes_inv sea s3 hew heh hlWF hlw hlh hbase with ⟨hmask, hlake⟩
  intro x y hx hy hne
  rw [hmask]
  exact hlake x y hx hy hne

/-- C6: after Stage 4 (`hydro_finalize::run`), a nonzero `lake_id` implies the
cell is not ocean-masked: `identify_lakes` starts from the freshly cleared
lake grid and the flood skips every ocean-masked cell, so lakes and ocean stay
disjoint.  The claim's second conjunct `elevation > sea_level` is false: the
flood tags every reachable cell up to `max_level`, including cells at or below
sea level that the border-seeded ocean BFS never reached. -/
theorem hydroFinalize_lake_not_ocean (st : WorldState) (p : GenerationParams)
    (hew : st.elevation.width = st.width) (heh : st.elevation.height = st.height)
    (hlWF : st.lake_id.WF) (hlw : st.lake_id.width = st.width)
    (hlh : st.lake_id.height = st.height) :
    ∀ x y, x < st.width → y < st.height →
      (hydroFinalizeRun st p).lake_id.get x y ≠ 0 →
      (hydroFinalizeRun st p).ocean_mask.get x y = false := by
  intro x y hx hy hne
  refine identifyLakes_fresh_not_ocean p.base.sea_level ?_ ?_ ?_ ?_ ?_ ?_ ?_ x y ?_ ?_ ?_
  · exact hew
  · exact heh
  · intro a b _ _
    rcases Grid.get_fill_cases st.lake_id 0 a b with h | h
    · exact h
    · exact h
  · exact Grid.WF_fill st.lake_id 0 hlWF
  · show (st.lake_id.fill 0).width = st.width
    rw [Grid.width_fill]
    exact hlw
  · show (st.lake_id.fill 0).height = st.height
    rw [Grid.height_fill]
    exact hlh
  · exact hx
  · exact hy
  · exact hne

/-- C6 counterexample elevation: a 7×7 map, land at 0.9 everywhere except a
small closed depression around (3,3): a ring at 0.5008, a pit at 0.5005 and a
low shelf at 0.4 — the shelf lies below sea level 0.5 but is sealed off from
the border, so the ocean BFS never reaches it. -/
def c6elev : List ℚ :=
  [9/10, 9/10, 9/10, 9/10, 9/10, 9/10, 9/10,
   9/10, 9/10, 9/10, 9/10, 9/10, 9/10, 9/10,
   9/10, 9/10, 313/625, 313/625, 313/625, 9/10, 9/10,
   9/10, 2/5, 313/625, 1001/2000, 313/625, 9/10, 9/10,
   9/10, 9/10, 313/625, 313/625, 313/625, 9/10, 9/10,
   9/10, 9/10, 9/10, 9/10, 9/10, 9/10, 9/10,
   9/10, 9/10, 9/10, 9/10, 9/10, 9/10, 9/10]

/-- C6 counterexample accumulation: 10 at the pit (3,3), enough to qualify it
as a lake seed, 0 elsewhere. -/
def c6acc : List ℚ :=
  [0, 0, 0, 0, 0, 0, 0,
   0, 0, 0, 0, 0, 0, 0,
   0, 0, 0, 0, 0, 0, 0,
   0, 0, 0, 10, 0, 0, 0,
   0, 0, 0, 0, 0, 0, 0,
   0, 0, 0, 0, 0, 0, 0,
   0, 0, 0, 0, 0, 0, 0]

def c6state : WorldState := testState 7 7 c6elev c6acc GenerationParams.default

set_option maxRecDepth 40000 in
/-- C6 counterexample: after Stage 4 on the 7×7 depression world, the cell
(1,3) carries lake id 1 yet its elevation 0.4 is not above sea level 0.5 —
the flood from the pit (3,3) runs downhill past the basin ring onto the
below-sea shelf, refuting `lake_id ≠ 0 → elevation > sea_level`. -/
theorem lake_below_sea_counterexample :
    (hydroFinalizeRun c6state GenerationParams.default).lake_id.get 1 3 ≠ 0 ∧
    ¬ ((hydroFinalizeRun c6state GenerationParams.default).elevation.get 1 3
        > GenerationParams.default.base.sea_level) := by
  constructor
  · with_unfolding_all decide
  · with_unfolding_all decide

def c6wit : WorldState :=
  testState 2 2 (List.replicate 4 0) (List.replicate 4 0) GenerationParams.default

/-- C6 witness: the lake/ocean disjointness theorem applied to a concrete 2×2
world, every hypothesis discharged by evaluation. -/
theorem hydroFinalize_lake_not_ocean_witness :
    c6wit.elevation.width = c6wit.width ∧ c6wit.elevation.height = c6wit.height ∧
    c6wit.lake_id.WF ∧ c6wit.lake_id.width = c6wit.width ∧
    c6wit.lake_id.height = c6wit.height ∧
    (∀ x y, x < c6wit.width → y < c6wit.height →
      (hydroFinalizeRun c6wit GenerationParams.default).lake_id.get x y ≠ 0 →
      (hydroFinalizeRun c6wit GenerationParams.default).ocean_mask.get x y = false) :=
  ⟨rfl, rfl, rfl, rfl, rfl,
   hydroFinalize_lake_not_ocean c6wit GenerationParams.default rfl rfl rfl rfl rfl⟩

/-- 8-connectivity to the map border through cells at or below sea level: the
spec's characterization of the ocean component.  Adjacency is `nbrs8`, the
in-bounds `DIRS_8` neighbors used by the BFS push loop. -/
inductive OceanReach (e : Grid ℚ) (sea : ℚ) (w h : ℕ) : ℕ × ℕ → Prop
  | border : ∀ x y : ℕ, x < w → y < h →
      (x = 0 ∨ y = 0 ∨ x = w - 1 ∨ y = h - 1) → e.get x y ≤ sea →
      OceanReach e sea w h (x, y)
  | step : ∀ c c2 : ℕ × ℕ, OceanReach e sea w h c → c2 ∈ nbrs8 e c.1 c.2 →
      e.get c2.1 c2.2 ≤ sea → OceanReach e sea w h c2

/-- Every reachable cell is at or below sea level. -/
theorem OceanReach.le_sea (e : Grid ℚ) (sea : ℚ) (w h : ℕ) :
    ∀ c, OceanReach e sea w h c → e.get c.1 c.2 ≤ sea := by
  intro c hr
  induction hr with
  | border x y _ _ _ hle => exact hle
  | step c0 c2 _ _ hle _ => exact hle

/-- Every reachable cell is in bounds. -/
theorem OceanReach.bounds (e : Grid ℚ) (sea : ℚ) (w h : ℕ)
    (hew : e.width = w) (heh : e.height = h) :
    ∀ c, OceanReach e sea w h c → c.1 < w ∧ c.2 < h := by
  intro c hr
  induction hr with
  | border x y hx hy _ _ => exact ⟨hx, hy⟩
  | step c0 c2 _ hnb _ _ =>
    have hb := nbrs8_bounds e c0.1 c0.2 c2 hnb
    rw [hew, heh] at hb
    exact hb

/-- Membership in the seed queue of `mark_ocean_component`: exactly the border
cells at or below sea level. -/
theorem mem_oceanSeeds (e : Grid ℚ) (sea : ℚ) (w h : ℕ) (hw : 0 < w) (hh : 0 < h)
    (c : ℕ × ℕ) :
    c ∈ oceanSeeds e sea w h ↔
      c.1 < w ∧ c.2 < h ∧ (c.1 = 0 ∨ c.2 = 0 ∨ c.1 = w - 1 ∨ c.2 = h - 1) ∧
        e.get c.1 c.2 ≤ sea := by
  obtain ⟨cx, cy⟩ := c
  simp only [oceanSeeds, List.mem_append, List.mem_flatMap, List.mem_range]
  constructor
  · rintro (⟨x, hx, hm⟩ | ⟨y, hy, hm⟩)
    · rcases hm with hm | hm
      · by_cases hc : e.get x 0 ≤ sea
        · rw [if_pos hc] at hm
          simp only [List.mem_singleton, Prod.mk.injEq] at hm
          obtain ⟨rfl, rfl⟩ := hm
          exact ⟨hx, hh, Or.inr (Or.inl rfl), hc⟩
        · rw [if_neg hc] at hm
          cases hm
      · by_cases hc : e.get x (h - 1) ≤ sea
        · rw [if_pos hc] at hm
          simp only [List.mem_singleton, Prod.mk.injEq] at hm
          obtain ⟨rfl, rfl⟩ := hm
          exact ⟨hx, by omega, Or.inr (Or.inr (Or.inr rfl)), hc⟩
        · rw [if_neg hc] at hm
          cases hm
    · rcases hm with hm | hm
      · by_cases hc : e.get 0 y ≤ sea
        · rw [if_pos hc] at hm
          simp only [List.mem_singleton, Prod.mk.injEq] at hm
          obtain ⟨rfl, rfl⟩ := hm
          exact ⟨hw, hy, Or.inl rfl, hc⟩
        · rw [if_neg hc] at hm
          cases hm
      · by_cases hc : e.get (w - 1) y ≤ sea
        · rw [if_pos hc] at hm
          simp only [List.mem_singleton, Prod.mk.injEq] at hm
          obtain ⟨rfl, rfl⟩ := hm
          exact ⟨by omega, hy, Or.inr (Or.inr (Or.inl rfl)), hc⟩
        · rw [if_neg hc] at hm
          cases hm
  · rintro ⟨h1, h2, hb, hle⟩
    rcases hb with hb | hb | hb | hb
    · subst hb
      right
      refine ⟨cy, h2, Or.inl ?_⟩
      rw [if_pos hle]
      exact List.mem_singleton_self _
    · subst hb
      left
      refine ⟨cx, h1, Or.inl ?_⟩
      rw [if_pos hle]
      exact List.mem_singleton_self _
    · subst hb
      right
      refine ⟨cy, h2, Or.inr ?_⟩
      rw [if_pos hle]
      exact List.mem_singleton_self _
    · subst hb
      left
      refine ⟨cx, h1, Or.inr ?_⟩
      rw [if_pos hle]
      exact List.mem_singleton_self _

/-- Invariant of the ocean BFS: mask shape is preserved, the queue stays in
bounds, every masked cell is provably reachable, every queued cell is a seed
or a neighbor of a reachable cell, every low seed is masked or still queued,
and every low neighbor of a masked cell is masked or still queued. -/
def OceanInv (e : Grid ℚ) (sea : ℚ) (w h : ℕ) (s : OceanBFS) : Prop :=
  s.mask.width = w ∧ s.mask.height = h ∧ s.mask.WF ∧
  (∀ c ∈ s.queue, c.1 < w ∧ c.2 < h) ∧
  (∀ x y, x < w → y < h → s.mask.get x y = true → OceanReach e sea w h (x, y)) ∧
  (∀ c ∈ s.queue, c ∈ oceanSeeds e sea w h ∨
    ∃ c0, OceanReach e sea w h c0 ∧ c ∈ nbrs8 e c0.1 c0.2) ∧
  (∀ c ∈ oceanSeeds e sea w h, e.get c.1 c.2 ≤ sea →
    (s.mask.get c.1 c.2 = true ∨ c ∈ s.queue)) ∧
  (∀ x y, x < w → y < h → s.mask.get x y = true →
    ∀ c2 ∈ nbrs8 e x y, e.get c2.1 c2.2 ≤ sea →
      (s.mask.get c2.1 c2.2 = true ∨ c2 ∈ s.queue))

/-- A write never erases an already-set value equal to the one written. -/
theorem Grid.get_set_mono [Inhabited α] (m : Grid α) (a b x y : ℕ) (v : α)
    (hg : m.gidx a b < m.data.length) (h : m.get x y = v) :
    (m.set a b v).get x y = v := by
  by_cases he : m.gidx a b = m.gidx x y
  · have h3 : (m.set a b v).gidx x y = (m.set a b v).gidx a b := by
      show m.gidx x y = m.gidx a b
      exact he.symm
    have h2 : (m.set a b v).get x y = (m.set a b v).get a b := by
      show (m.set a b v).data.getD ((m.set a b v).gidx x y) default
        = (m.set a b v).data.getD ((m.set a b v).gidx a b) default
      rw [h3]
    rw [h2]
    exact Grid.get_set_self m a b v hg
  · rw [Grid.get_set_ne m a b x y v he]
    exact h

theorem oceanStep_inv (e : Grid ℚ) (sea : ℚ) (w h : ℕ)
    (hew : e.width = w) (heh : e.height = h) (hw : 0 < w) (hh : 0 < h)
    (s : OceanBFS) (hI : OceanInv e sea w h s) :
    OceanInv e sea w h (oceanStep e sea s) := by
  obtain ⟨k1, k2, k3, k4, k5, k6, k7, k8⟩ := hI
  cases hq : s.queue with
  | nil =>
    have he : oceanStep e sea s = s := by
      unfold oceanStep
      rw [hq]
    rw [he]
    exact ⟨k1, k2, k3, k4, k5, k6, k7, k8⟩
  | cons c rest =>
    have hcq : c ∈ s.queue := by rw [hq]; exact List.mem_cons_self _ _
    have hcb := k4 c hcq
    have hrest : ∀ c2 ∈ rest, c2.1 < w ∧ c2.2 < h :=
      fun c2 hc2 => k4 c2 (by rw [hq]; exact List.mem_cons_of_mem _ hc2)
    have hrest6 : ∀ c2 ∈ rest, c2 ∈ oceanSeeds e sea w h ∨
        ∃ c0, OceanReach e sea w h c0 ∧ c2 ∈ nbrs8 e c0.1 c0.2 :=
      fun c2 hc2 => k6 c2 (by rw [hq]; exact List.mem_cons_of_mem _ hc2)
    have he : oceanStep e sea s
        = if s.mask.get c.1 c.2 then { s with queue := rest }
          else if e.get c.1 c.2 > sea then { s with queue := rest }
          else { mask := s.mask.set c.1 c.2 true,
                 queue := rest ++ nbrs8 e c.1 c.2 } := by
      unfold oceanStep
      rw [hq]
    rw [he]
    by_cases h1 : s.mask.get c.1 c.2
    · rw [if_pos h1]
      refine ⟨k1, k2, k3, hrest, k5, hrest6, ?_, ?_⟩
      · intro c2 hc2 hle
        rcases k7 c2 hc2 hle with hm | hqm
        · exact Or.inl hm
        · rw [hq] at hqm
          rcases List.mem_cons.1 hqm with hceq | hrm
          · left
            rw [hceq]
            exact h1
          · exact Or.inr hrm
      · intro x y hx hy hmxy c2 hnb hle
        rcases k8 x y hx hy hmxy c2 hnb hle with hm | hqm
        · exact Or.inl hm
        · rw [hq] at hqm
          rcases List.mem_cons.1 hqm with hceq | hrm
          · left
            rw [hceq]
            exact h1
          · exact Or.inr hrm
    · rw [if_neg h1]
      by_cases h2 : e.get c.1 c.2 > sea
      · rw [if_pos h2]
        refine ⟨k1, k2, k3, hrest, k5, hrest6, ?_, ?_⟩
        · intro c2 hc2 hle
          rcases k7 c2 hc2 hle with hm | hqm
          · exact Or.inl hm
          · rw [hq] at hqm
            rcases List.mem_cons.1 hqm with hceq | hrm
            · exfalso
              rw [hceq] at hle
              exact absurd hle (not_le.2 h2)
            · exact Or.inr hrm
        · intro x y hx hy hmxy c2 hnb hle
          rcases k8 x y hx hy hmxy c2 hnb hle with hm | hqm
          · exact Or.inl hm
          · rw [hq] at hqm
            rcases List.mem_cons.1 hqm with hceq | hrm
            · exfalso
              rw [hceq] at hle
              exact absurd hle (not_le.2 h2)
            · exact Or.inr hrm
      · rw [if_neg h2]
        push_neg at h2
        have hcreach : OceanReach e sea w h c := by
          rcases k6 c hcq with hseed | ⟨c0, hr0, hnb0⟩
          · obtain ⟨hb1, hb2, hb3, hb4⟩ :=
              (mem_oceanSeeds e sea w h hw hh c).1 hseed
            exact OceanReach.border c.1 c.2 hb1 hb2 hb3 hb4
          · exact OceanReach.step c0 c hr0 hnb0 h2
        have hglt : s.mask.gidx c.1 c.2 < s.mask.data.length :=
          Grid.gidx_lt s.mask k3 (by rw [k1]; exact hcb.1) (by rw [k2]; exact hcb.2)
        have hmono : ∀ x y, s.mask.get x y = true →
            (s.mask.set c.1 c.2 true).get x y = true :=
          fun x y hxy => Grid.get_set_mono s.mask c.1 c.2 x y true hglt hxy
        refine ⟨?_, ?_, Grid.WF_set _ _ _ _ k3, ?_, ?_, ?_, ?_, ?_⟩
        · rw [Grid.width_set]
          exact k1
        · rw [Grid.height_set]
          exact k2
        · intro c2 hc2
          rcases List.mem_append.1 hc2 with hr | hr
          · exact hrest c2 hr
          · have hb := nbrs8_bounds e c.1 c.2 c2 hr
            rw [hew, heh] at hb
            exact hb
        · intro x y hx hy hmxy
          by_cases hxy : (x, y) = c
          · rw [hxy]
            exact hcreach
          · have hgne : s.mask.gidx c.1 c.2 ≠ s.mask.gidx x y := by
              intro hge
              rcases Grid.gidx_inj s.mask (by rw [k1]; exact hcb.1)
                (by rw [k1]; exact hx) hge with ⟨ha, hb⟩
              exact hxy (Prod.ext ha.symm hb.symm)
            rw [Grid.get_set_ne s.mask c.1 c.2 x y true hgne] at hmxy
            exact k5 x y hx hy hmxy
        · intro c2 hc2
          rcases List.mem_append.1 hc2 with hr | hr
          · exact hrest6 c2 hr
          · exact Or.inr ⟨c, hcreach, hr⟩
        · intro c2 hc2 hle
          rcases k7 c2 hc2 hle with hm | hqm
          · exact Or.inl (hmono c2.1 c2.2 hm)
          · rw [hq] at hqm
            rcases List.mem_cons.1 hqm with hceq | hrm
            · left
              rw [hceq]
              exact Grid.get_set_self s.mask c.1 c.2 true hglt
            · exact Or.inr (List.mem_append.2 (Or.inl hrm))
        · intro x y hx hy hmxy c2 hnb hle
          by_cases hxy : (x, y) = c
          · right
            refine List.mem_append.2 (Or.inr ?_)
            have hx1 : x = c.1 := congrArg Prod.fst hxy
            have hy1 : y = c.2 := congrArg Prod.snd hxy
            rw [hx1, hy1] at hnb
            exact hnb
          · have hgne : s.mask.gidx c.1 c.2 ≠ s.mask.gidx x y := by
              intro hge
              rcases Grid.gidx_inj s.mask (by rw [k1]; exact hcb.1)
                (by rw [k1]; exact hx) hge with ⟨ha, hb⟩
              exact hxy (Prod.ext ha.symm hb.symm)
            rw [Grid.get_set_ne s.mask c.1 c.2 x y true hgne] at hmxy
            rcases k8 x y hx hy hmxy c2 hnb hle with hm | hqm
            · exact Or.inl (hmono c2.1 c2.2 hm)
            · rw [hq] at hqm
              rcases List.mem_cons.1 hqm with hceq | hrm
              · left
                rw [hceq]
                exact Grid.get_set_self s.mask c.1 c.2 true hglt
              · exact Or.inr (List.mem_append.2 (Or.inl hrm))

/-- Setting an unmasked in-bounds cell decrements the unmasked count over any
duplicate-free in-bounds cell list containing it. -/
theorem countP_unmasked_set (m : Grid Bool) (hWF : m.WF) (c : ℕ × ℕ)
    (hcw : c.1 < m.width) (hch : c.2 < m.height) (hm : m.get c.1 c.2 = false) :
    ∀ l : List (ℕ × ℕ), l.Nodup → (∀ c2 ∈ l, c2.1 < m.width ∧ c2.2 < m.height) →
      c ∈ l →
      (l.countP fun c2 => !(m.set c.1 c.2 true).get c2.1 c2.2) + 1
        = l.countP fun c2 => !m.get c2.1 c2.2 := by
  intro l
  induction l with
  | nil =>
    intro _ _ hc
    cases hc
  | cons a l ih =>
    intro hnd hin hc
    rw [List.countP_cons, List.countP_cons]
    by_cases hac : a = c
    · subst hac
      have hnotin : a ∉ l := (List.nodup_cons.1 hnd).1
      have hpeq : ∀ c2 ∈ l, ((!(m.set a.1 a.2 true).get c2.1 c2.2) = true
          ↔ (!m.get c2.1 c2.2) = true) := by
        intro c2 hc2
        have hne : a ≠ c2 := fun he2 => hnotin (he2 ▸ hc2)
        have hgne : m.gidx a.1 a.2 ≠ m.gidx c2.1 c2.2 := by
          intro he2
          rcases Grid.gidx_inj m hcw
            (hin c2 (List.mem_cons_of_mem _ hc2)).1 he2 with ⟨h1, h2⟩
          exact hne (Prod.ext h1 h2)
        rw [Grid.get_set_ne m a.1 a.2 c2.1 c2.2 true hgne]
      rw [List.countP_congr hpeq]
      have hga : (m.set a.1 a.2 true).get a.1 a.2 = true :=
        Grid.get_set_self m a.1 a.2 true (Grid.gidx_lt m hWF hcw hch)
      rw [hga, hm]
      simp
    · have hcl : c ∈ l := by
        rcases List.mem_cons.1 hc with h2 | h2
        · exact absurd h2.symm hac
        · exact h2
      have hih := ih (List.nodup_cons.1 hnd).2
        (fun c2 hc2 => hin c2 (List.mem_cons_of_mem _ hc2)) hcl
      have hane : m.gidx c.1 c.2 ≠ m.gidx a.1 a.2 := by
        intro he2
        rcases Grid.gidx_inj m hcw (hin a (List.mem_cons_self _ _)).1 he2
          with ⟨h1, h2⟩
        exact hac (Prod.ext h1.symm h2.symm)
      rw [Grid.get_set_ne m c.1 c.2 a.1 a.2 true hane]
      omega

/-- The row-major coordinate list has exactly `w * h` entries. -/
theorem allCoords_length (w h : ℕ) : (allCoords w h).length = w * h := by
  unfold allCoords
  rw [List.length_flatMap]
  have h2 : List.map (List.length ∘ fun y => List.map (fun x => (x, y)) (List.range w))
      (List.range h) = List.replicate h w := by
    have h3 : ∀ y ∈ List.range h,
        (List.length ∘ fun y2 => List.map (fun x => (x, y2)) (List.range w)) y = w := by
      intro y _
      show (List.map (fun x => (x, y)) (List.range w)).length = w
      rw [List.length_map, List.length_range]
    rw [List.map_congr_left h3, List.map_const', List.length_range]
  rw [h2, List.sum_replicate, smul_eq_mul, Nat.mul_comm]

/-- One BFS iteration on a nonempty queue strictly decreases
`queue.length + 9 * unmasked`. -/
theorem oceanStep_measure (e : Grid ℚ) (sea : ℚ) (w h : ℕ)
    (s : OceanBFS) (hI : OceanInv e sea w h s)
    (c : ℕ × ℕ) (rest : List (ℕ × ℕ)) (hq : s.queue = c :: rest) :
    (oceanStep e sea s).queue.length
      + 9 * ((allCoords w h).countP fun c2 => !(oceanStep e sea s).mask.get c2.1 c2.2)
      + 1
    ≤ s.queue.length + 9 * ((allCoords w h).countP fun c2 => !s.mask.get c2.1 c2.2) := by
  obtain ⟨k1, k2, k3, k4, -, -, -, -⟩ := hI
  have hcb := k4 c (by rw [hq]; exact List.mem_cons_self _ _)
  have hslen : s.queue.length = rest.length + 1 := by
    rw [hq, List.length_cons]
  have he : oceanStep e sea s
      = if s.mask.get c.1 c.2 then { s with queue := rest }
        else if e.get c.1 c.2 > sea then { s with queue := rest }
        else { mask := s.mask.set c.1 c.2 true,
               queue := rest ++ nbrs8 e c.1 c.2 } := by
    unfold oceanStep
    rw [hq]
  rw [he]
  by_cases h1 : s.mask.get c.1 c.2
  · rw [if_pos h1]
    show rest.length
        + 9 * ((allCoords w h).countP fun c2 => !s.mask.get c2.1 c2.2) + 1
      ≤ s.queue.length + 9 * ((allCoords w h).countP fun c2 => !s.mask.get c2.1 c2.2)
    omega
  · rw [if_neg h1]
    by_cases h2 : e.get c.1 c.2 > sea
    · rw [if_pos h2]
      show rest.length
          + 9 * ((allCoords w h).countP fun c2 => !s.mask.get c2.1 c2.2) + 1
        ≤ s.queue.length + 9 * ((allCoords w h).countP fun c2 => !s.mask.get c2.1 c2.2)
      omega
    · rw [if_neg h2]
      have hm : s.mask.get c.1 c.2 = false := Bool.eq_false_iff.mpr h1
      have hcnt := countP_unmasked_set s.mask k3 c
        (by rw [k1]; exact hcb.1) (by rw [k2]; exact hcb.2) hm
        (allCoords w h) (nodup_allCoords w h)
        (fun c2 hc2 => by
          rw [k1, k2]
          exact mem_allCoords.1 hc2)
        (mem_allCoords.2 hcb)
      have hnlen : (nbrs8 e c.1 c.2).length ≤ 8 :=
        le_trans (List.length_filterMap_le _ _) (by rfl)
      show (rest ++ nbrs8 e c.1 c.2).length
          + 9 * ((allCoords w h).countP
              fun c2 => !(s.mask.set c.1 c.2 true).get c2.1 c2.2) + 1
        ≤ s.queue.length + 9 * ((allCoords w h).countP fun c2 => !s.mask.get c2.1 c2.2)
      rw [List.length_append]
      omega

/-- The fuel chosen by `mark_ocean_component` drains the BFS queue, and the
invariant holds at the drained state. -/
theorem oceanRun_drain (e : Grid ℚ) (sea : ℚ) (w h : ℕ)
    (hew : e.width = w) (heh : e.height = h) (hw : 0 < w) (hh : 0 < h) :
    ∀ (n : ℕ) (s : OceanBFS), OceanInv e sea w h s →
      s.queue.length + 9 * ((allCoords w h).countP fun c2 => !s.mask.get c2.1 c2.2)
        ≤ n →
      (oceanRun e sea n s).queue = [] ∧ OceanInv e sea w h (oceanRun e sea n s) := by
  intro n
  induction n with
  | zero =>
    intro s hI hfuel
    have hq : s.queue = [] := List.length_eq_zero.1 (by omega)
    exact ⟨hq, hI⟩
  | succ n ih =>
    intro s hI hfuel
    have he : oceanRun e sea (n + 1) s
        = match s.queue with
          | [] => s
          | _ :: _ => oceanRun e sea n (oceanStep e sea s) := rfl
    rw [he]
    cases hq : s.queue with
    | nil => exact ⟨hq, hI⟩
    | cons c rest =>
      have hI2 := oceanStep_inv e sea w h hew heh hw hh s hI
      have hm := oceanStep_measure e sea w h s hI c rest hq
      exact ih (oceanStep e sea s) hI2 (by omega)

/-- Once the BFS queue has drained, every reachable cell is masked. -/
theorem oceanReach_masked (e : Grid ℚ) (sea : ℚ) (w h : ℕ)
    (hew : e.width = w) (heh : e.height = h) (hw : 0 < w) (hh : 0 < h)
    (r : OceanBFS) (hI : OceanInv e sea w h r) (hq : r.queue = []) :
    ∀ c, OceanReach e sea w h c → r.mask.get c.1 c.2 = true := by
  obtain ⟨-, -, -, -, -, -, k7, k8⟩ := hI
  intro c hr
  induction hr with
  | border x y hx hy hb hle =>
    have hseed : (x, y) ∈ oceanSeeds e sea w h :=
      (mem_oceanSeeds e sea w h hw hh (x, y)).2 ⟨hx, hy, hb, hle⟩
    rcases k7 (x, y) hseed hle with hm | hqm
    · exact hm
    · rw [hq] at hqm
      cases hqm
  | step c0 c2 hr0 hnb hle ih =>
    have hb0 := OceanReach.bounds e sea w h hew heh c0 hr0
    rcases k8 c0.1 c0.2 hb0.1 hb0.2 ih c2 hnb hle with hm | hqm
    · exact hm
    · rw [hq] at hqm
      cases hqm

/-- C8: after `mark_ocean_component`, a cell is masked exactly when it is
8-connected to a border cell through cells at or below sea level; hence no
cell above sea level is ever masked and no interior-only component is
masked. -/
theorem markOceanComponent_iff (sea : ℚ) (st : WorldState)
    (hw : 0 < st.width) (hh : 0 < st.height)
    (hmWF : st.ocean_mask.WF) (hmw : st.ocean_mask.width = st.width)
    (hmh : st.ocean_mask.height = st.height)
    (hew : st.elevation.width = st.width) (heh : st.elevation.height = st.height) :
    ∀ x y, x < st.width → y < st.height →
      (((markOceanComponent sea st).ocean_mask.get x y = true) ↔
        OceanReach st.elevation sea st.width st.height (x, y)) ∧
      ((markOceanComponent sea st).ocean_mask.get x y = true →
        st.elevation.get x y ≤ sea) := by
  have hI0 : OceanInv st.elevation sea st.width st.height
      ⟨st.ocean_mask.fill false, oceanSeeds st.elevation sea st.width st.height⟩ := by
    refine ⟨?_, ?_, Grid.WF_fill _ _ hmWF, ?_, ?_, ?_, ?_, ?_⟩
    · rw [Grid.width_fill]
      exact hmw
    · rw [Grid.height_fill]
      exact hmh
    · intro c hc
      have h2 := (mem_oceanSeeds st.elevation sea st.width st.height hw hh c).1 hc
      exact ⟨h2.1, h2.2.1⟩
    · intro x y _ _ hm
      exfalso
      rcases Grid.get_fill_cases st.ocean_mask false x y with hf | hf <;>
        rw [hf] at hm <;> exact absurd hm (by decide)
    · intro c hc
      exact Or.inl hc
    · intro c hc _
      exact Or.inr hc
    · intro x y _ _ hm
      exfalso
      rcases Grid.get_fill_cases st.ocean_mask false x y with hf | hf <;>
        rw [hf] at hm <;> exact absurd hm (by decide)
  have hfuel : (oceanSeeds st.elevation sea st.width st.height).length
      + 9 * ((allCoords st.width st.height).countP
          fun c2 => !(st.ocean_mask.fill false).get c2.1 c2.2)
      ≤ (oceanSeeds st.elevation sea st.width st.height).length
        + 9 * (st.width * st.height) := by
    have h1 : ((allCoords st.width st.height).countP
        fun c2 => !(st.ocean_mask.fill false).get c2.1 c2.2)
        ≤ (allCoords st.width st.height).length := List.countP_le_length _
    rw [allCoords_length] at h1
    omega
  obtain ⟨hqe, hIr⟩ := oceanRun_drain st.elevation sea st.width st.height hew heh hw hh
    ((oceanSeeds st.elevation sea st.width st.height).length
      + 9 * (st.width * st.height))
    ⟨st.ocean_mask.fill false, oceanSeeds st.elevation sea st.width st.height⟩
    hI0 hfuel
  have hmeq : (markOceanComponent sea st).ocean_mask
      = (oceanRun st.elevation sea
          ((oceanSeeds st.elevation sea st.width st.height).length
            + 9 * (st.width * st.height))
          ⟨st.ocean_mask.fill false,
            oceanSeeds st.elevation sea st.width st.height⟩).mask := rfl
  intro x y hx hy
  rw [hmeq]
  refine ⟨⟨fun hm => hIr.2.2.2.2.1 x y hx hy hm,
    fun hr => oceanReach_masked st.elevation sea st.width st.height hew heh hw hh
      _ hIr hqe (x, y) hr⟩,
    fun hm => OceanReach.le_sea st.elevation sea st.width st.height (x, y)
      (hIr.2.2.2.2.1 x y hx hy hm)⟩

def c8wit : WorldState :=
  testState 2 2 (List.replicate 4 0) (List.replicate 4 0) GenerationParams.default

/-- C8 witness: the BFS characterization applied to a concrete 2×2 world,
every hypothesis discharged by evaluation. -/
theorem markOceanComponent_iff_witness :
    0 < c8wit.width ∧ 0 < c8wit.height ∧
    c8wit.ocean_mask.WF ∧ c8wit.ocean_mask.width = c8wit.width ∧
    c8wit.ocean_mask.height = c8wit.height ∧
    c8wit.elevation.width = c8wit.width ∧ c8wit.elevation.height = c8wit.height ∧
    (∀ x y, x < c8wit.width → y < c8wit.height →
      (((markOceanComponent (1/2) c8wit).ocean_mask.get x y = true) ↔
        OceanReach c8wit.elevation (1/2) c8wit.width c8wit.height (x, y)) ∧
      ((markOceanComponent (1/2) c8wit).ocean_mask.get x y = true →
        c8wit.elevation.get x y ≤ 1/2)) :=
  ⟨by decide, by decide, rfl, rfl, rfl, rfl, rfl,
   markOceanComponent_iff (1/2) c8wit (by decide) (by decide) rfl rfl rfl rfl rfl⟩

end Worldgen
